import Mathlib

/-!
# Verification of the KubeUser reconciliation controller

Shallow embedding of `internal/controller/user_controller.go` (the current
variant of the file, i.e. the one that defines `PhaseError`/`PhaseExpired`
constants, `updateUserStatus`, certificate rotation and format detection).

Modelling conventions, stated once:

* Go strings are Lean `String`s; durations and timestamps are `Int` seconds.
  `time.Time` values are their Unix-second projection (only ordering and
  subtraction of times is used by the controller).
* Byte slices that flow through the certificate pipeline are modelled by the
  algebraic type `Data`: the external codecs (`base64.StdEncoding`,
  `pem.Decode`, `x509.ParseCertificate`, ...) are Go standard library
  collaborators, so they are modelled as the evident injections/projections on
  `Data`; the controller's own logic on top of them is translated statement by
  statement.  The literal YAML text produced by `buildCertKubeconfig` and
  scanned by `extractClientCertFromKubeconfig` is modelled separately, at the
  character level, further below (`buildCertKubeconfigChars` and friends).
* The Kubernetes API server is modelled as an explicit store
  (`ClusterState`).  Get/List/Create/Update/Delete are total functions on the
  store; a sequential reconcile pass cannot race with anyone, so optimistic
  concurrency (resource versions) always succeeds and is not represented.
  API *delete* failures other than NotFound, and failures of `r.Update` on the
  User object, are the failure modes the claims talk about; they are injected
  through the environment (`Env.failDelete`, `Env.failUserUpdate`).  All other
  calls succeed (with NotFound modelled by lookup misses).
* Go map iteration order is unspecified; the model fixes it to insertion
  order (association lists).  Where a claim depends on the set computed, not
  the order, this is a sound determinisation.
* `status.ExpiryTime` is an RFC3339 string in Go; the model keeps it as
  `ExpiryStr`: empty, an unparseable string, or a parsed timestamp.
  `Format(time.RFC3339)` always yields a parseable string.
-/

deriving instance DecidableEq for Except

namespace KubeUser

/-! ## Basic RBAC data model (api/v1alpha1/user_types.go and rbacv1) -/

structure RoleRef where
  apiGroup : String
  kind : String
  name : String
deriving DecidableEq, Repr

structure Subject where
  apiGroup : String
  kind : String
  name : String
  ns : String
deriving DecidableEq, Repr

/-- A `rbacv1.RoleBinding`.  Of the object metadata the controller only ever
reads/writes the name, the namespace and the `auth.openkube.io/user` label,
so only those are carried (`userLabel = none` means the label is absent). -/
structure RoleBinding where
  name : String
  ns : String
  userLabel : Option String
  subjects : List Subject
  roleRef : RoleRef
deriving DecidableEq, Repr

/-- A `rbacv1.ClusterRoleBinding` (cluster scoped: no namespace). -/
structure ClusterRoleBinding where
  name : String
  userLabel : Option String
  subjects : List Subject
  roleRef : RoleRef
deriving DecidableEq, Repr

structure RoleSpec where
  ns : String
  existingRole : String
deriving DecidableEq, Repr

structure ClusterRoleSpec where
  existingClusterRole : String
deriving DecidableEq, Repr

structure UserSpec where
  roles : List RoleSpec
  clusterRoles : List ClusterRoleSpec
deriving DecidableEq, Repr

/-- `status.expiryTime` in Go is a string: empty, garbage, or RFC3339.
`time.Format` only ever produces the parseable form. -/
inductive ExpiryStr where
  | empty : ExpiryStr
  | invalid (s : String) : ExpiryStr
  | rfc3339 (sec : Int) : ExpiryStr
deriving DecidableEq, Repr

structure Condition where
  condType : String
  status : String
  reason : String
  message : String
  lastTransitionTime : Int
deriving DecidableEq, Repr

structure UserStatus where
  expiryTime : ExpiryStr
  certificateExpiry : String
  phase : String
  message : String
  conditions : List Condition
deriving DecidableEq, Repr

structure User where
  name : String
  finalizers : List String
  /-- `!user.DeletionTimestamp.IsZero()` -/
  deletionRequested : Bool
  spec : UserSpec
  status : UserStatus
deriving DecidableEq, Repr

def kubeUserNamespace : String := "kubeuser"
def userFinalizer : String := "auth.openkube.io/finalizer"

/-! ## Certificate payloads (`[]byte` through the signing pipeline)

`Data` is the algebraic model of the byte strings the certificate pipeline
manipulates.  The Go standard-library codecs are collaborators; the model
gives each encoder a constructor and each decoder the matching projection:
base64 text of `d` is `Data.b64 d`, a PEM block with label `l` around `d` is
`Data.pem l d`, a DER certificate is identified by its `NotAfter` instant,
a PKCS#1 private key by an abstract key identifier, a certificate request by
its subject CN and key.  `Data.kubeconfig` is the YAML document produced by
`buildCertKubeconfig`; its faithfulness to the character-level text is proved
separately (see `extractClientCertFromKubeconfigChars_buildChars`). -/

inductive Data where
  | raw (s : String) : Data
  | derCert (notAfter : Int) : Data
  | derKey (keyId : Nat) : Data
  | derCSR (subjectCN : String) (keyId : Nat) : Data
  | pem (label : String) (inner : Data) : Data
  | b64 (inner : Data) : Data
  | kubeconfig (apiServer caDataB64 certDataB64 keyDataB64 username : Data) : Data
deriving DecidableEq, Repr

/-- `base64.StdEncoding.DecodeString`: succeeds exactly on base64 text. -/
def base64Decode : Data → Option Data
  | Data.b64 d => some d
  | _ => none

/-- `pem.Decode`: succeeds exactly on a PEM block, yielding its DER body. -/
def pemDecode : Data → Option Data
  | Data.pem _ inner => some inner
  | _ => none

/-- `x509.ParseCertificate` followed by reading `.NotAfter`. -/
def parseCertificate : Data → Option Int
  | Data.derCert t => some t
  | _ => none

/-- `tryBase64PEM` (user_controller.go): base64-decode, PEM-decode, parse. -/
def tryBase64PEM (certData : Data) : Except String Int :=
  match base64Decode certData with
  | none => Except.error "base64 decode failed"
  | some certPEM =>
    match pemDecode certPEM with
    | none => Except.error "PEM decode failed"
    | some der =>
      match parseCertificate der with
      | none => Except.error "certificate parse failed"
      | some t => Except.ok t

/-- `tryRawPEM`: PEM-decode, parse. -/
def tryRawPEM (certData : Data) : Except String Int :=
  match pemDecode certData with
  | none => Except.error "PEM decode failed"
  | some der =>
    match parseCertificate der with
    | none => Except.error "certificate parse failed"
    | some t => Except.ok t

/-- `tryRawDER`: parse directly. -/
def tryRawDER (certData : Data) : Except String Int :=
  match parseCertificate certData with
  | none => Except.error "certificate parse failed"
  | some t => Except.ok t

/-- `extractCertificateExpiryWithFormatDetection`: the three formats are
attempted in order; the first success wins. -/
def extractCertificateExpiryWithFormatDetection (certData : Data) : Except String Int :=
  match tryBase64PEM certData with
  | Except.ok t => Except.ok t
  | Except.error _ =>
    match tryRawPEM certData with
    | Except.ok t => Except.ok t
    | Except.error _ =>
      match tryRawDER certData with
      | Except.ok t => Except.ok t
      | Except.error _ => Except.error "unable to parse certificate in any known format"

/-! ## Remaining resource kinds and the cluster store -/

structure Secret where
  name : String
  ns : String
  data : List (String × Data)
deriving DecidableEq, Repr

structure CSRCondition where
  condType : String
  status : String
deriving DecidableEq, Repr

/-- `certv1.CertificateSigningRequest`; `certificate = none` models
`len(csr.Status.Certificate) == 0`. -/
structure CSR where
  name : String
  userLabel : Option String
  request : Data
  conditions : List CSRCondition
  certificate : Option Data
deriving DecidableEq, Repr

structure ServiceAccount where
  name : String
  ns : String
  userLabel : Option String
deriving DecidableEq, Repr

structure ConfigMap where
  name : String
  ns : String
  data : List (String × String)
deriving DecidableEq, Repr

structure ClusterState where
  users : List User
  namespaces : List String
  /-- existing `rbacv1.Role`s as (namespace, name) pairs -/
  roles : List (String × String)
  /-- existing `rbacv1.ClusterRole` names -/
  clusterRoles : List String
  roleBindings : List RoleBinding
  clusterRoleBindings : List ClusterRoleBinding
  serviceAccounts : List ServiceAccount
  secrets : List Secret
  csrs : List CSR
  configMaps : List ConfigMap
deriving Repr

/-- Reference to a deletable API object, used to inject API delete failures. -/
inductive ObjRef where
  | rb (ns name : String)
  | crb (name : String)
  | secret (ns name : String)
  | csr (name : String)
  | sa (ns name : String)
deriving DecidableEq, Repr

/-- One write call issued against the API server during a pass. -/
inductive WriteOp where
  | rbCreate (ns name : String)
  | rbUpdate (ns name : String)
  | rbDelete (ns name : String)
  | crbCreate (name : String)
  | crbUpdate (name : String)
  | crbDelete (name : String)
  | secretCreate (ns name : String)
  | secretUpdate (ns name : String)
  | secretDelete (ns name : String)
  | csrCreate (name : String)
  | csrApprove (name : String)
  | csrDelete (name : String)
  | saCreate (ns name : String)
  | saUpdate (ns name : String)
  | saDelete (ns name : String)
  | nsCreate (name : String)
  | userUpdate (name : String)
  | statusUpdate (name : String)
deriving DecidableEq, Repr

/-- Pass environment: the wall clock, the two ambient inputs read outside the
store (the mounted CA file and `KUBERNETES_API_SERVER`), the RSA key that
`rsa.GenerateKey` would produce this pass, and the injected API failures. -/
structure Env where
  now : Int
  caFile : Option Data
  apiServerEnv : String
  freshKeyId : Nat
  failDelete : ObjRef → Bool
  failUserUpdate : Bool

/-- `ctrl.Result`: either no requeue or `RequeueAfter` (seconds). -/
inductive RequeueSpec where
  | noRequeue : RequeueSpec
  | after (seconds : Int) : RequeueSpec
deriving DecidableEq, Repr

/-- The `(ctrl.Result, error)` pair returned by `Reconcile`: the controller
either returns a result with `nil` error, or a zero result with an error. -/
inductive Outcome where
  | ok (r : RequeueSpec) : Outcome
  | err (msg : String) : Outcome
deriving DecidableEq, Repr

/-! ## Small store helpers -/

def findRB (rbs : List RoleBinding) (ns name : String) : Option RoleBinding :=
  rbs.find? (fun b => b.ns == ns && b.name == name)

def replaceRB (rbs : List RoleBinding) (b : RoleBinding) : List RoleBinding :=
  rbs.map (fun x => if x.ns == b.ns && x.name == b.name then b else x)

def removeRB (rbs : List RoleBinding) (ns name : String) : List RoleBinding :=
  rbs.filter (fun b => !(b.ns == ns && b.name == name))

def findCRB (crbs : List ClusterRoleBinding) (name : String) : Option ClusterRoleBinding :=
  crbs.find? (fun b => b.name == name)

def replaceCRB (crbs : List ClusterRoleBinding) (b : ClusterRoleBinding) : List ClusterRoleBinding :=
  crbs.map (fun x => if x.name == b.name then b else x)

def removeCRB (crbs : List ClusterRoleBinding) (name : String) : List ClusterRoleBinding :=
  crbs.filter (fun b => !(b.name == name))

def findSecret (st : ClusterState) (ns name : String) : Option Secret :=
  st.secrets.find? (fun s => s.ns == ns && s.name == name)

def removeSecretL (secrets : List Secret) (ns name : String) : List Secret :=
  secrets.filter (fun s => !(s.ns == ns && s.name == name))

def findCSR (st : ClusterState) (name : String) : Option CSR :=
  st.csrs.find? (fun c => c.name == name)

def removeCSRL (csrs : List CSR) (name : String) : List CSR :=
  csrs.filter (fun c => !(c.name == name))

def findConfigMap (st : ClusterState) (ns name : String) : Option ConfigMap :=
  st.configMaps.find? (fun c => c.ns == ns && c.name == name)

def lookupKV {α : Type} (l : List (String × α)) (k : String) : Option α :=
  (l.find? (fun p => p.1 == k)).map (fun p => p.2)

/-- Association-list insert with Go-map overwrite semantics. -/
def insertKV {α : Type} (l : List (String × α)) (k : String) (v : α) : List (String × α) :=
  if l.any (fun p => p.1 == k) then
    l.map (fun p => if p.1 == k then (k, v) else p)
  else l ++ [(k, v)]

def eraseKV {α : Type} (l : List (String × α)) (k : String) : List (String × α) :=
  l.filter (fun p => p.1 != k)

/-- `r.Status().Update` / `r.Update` on the User object: the stored copy is
replaced by the local one. -/
def putUser (st : ClusterState) (u : User) : ClusterState :=
  { st with users := st.users.map (fun x => if x.name == u.name then u else x) }

/-- `containsString` (user_controller.go). -/
def containsString (slice : List String) (s : String) : Bool :=
  slice.any (fun item => item == s)

/-- `removeString` (user_controller.go). -/
def removeString (slice : List String) (s : String) : List String :=
  slice.filter (fun item => item != s)

/-! ## Binding reconciler (`reconcileRoleBindings`) -/

/-- The desired-map key `fmt.Sprintf("%s:%s", role.Namespace, role.ExistingRole)`. -/
def rbSpecKey (r : RoleSpec) : String := r.ns ++ ":" ++ r.existingRole

/-- The existing-map key `fmt.Sprintf("%s:%s", rb.Namespace, rb.RoleRef.Name)`. -/
def rbKey (b : RoleBinding) : String := b.ns ++ ":" ++ b.roleRef.name

/-- The RoleBinding the controller wants for one desired role: name
`<user>-<role>-rb`, labelled with the identity, one `User` subject, roleRef to
the existing Role.  (OwnerReferences are not read back anywhere, so they are
not carried.) -/
def mkDesiredRB (username : String) (r : RoleSpec) : RoleBinding :=
  { name := username ++ "-" ++ r.existingRole ++ "-rb"
    ns := r.ns
    userLabel := some username
    subjects := [{ apiGroup := "", kind := "User", name := username, ns := "" }]
    roleRef := { apiGroup := "rbac.authorization.k8s.io", kind := "Role", name := r.existingRole } }

/-- `roleBindingMatches`: role reference equal, exactly one subject on each
side, and the one subject agrees on Kind and Name. -/
def roleBindingMatches (existing desired : RoleBinding) : Bool :=
  if existing.roleRef != desired.roleRef then false
  else
    match existing.subjects, desired.subjects with
    | [e], [d] => e.kind == d.kind && e.name == d.name
    | _, _ => false

/-- Validation plus building of the `desiredRBs` map: each desired role is
checked to exist (hard stop otherwise, before any mutation), then inserted
under its `ns:role` key. -/
def buildDesiredRBs (roles : List (String × String)) :
    List RoleSpec → List (String × RoleSpec) → Except String (List (String × RoleSpec))
  | [], acc => Except.ok acc
  | r :: rest, acc =>
    if roles.contains (r.ns, r.existingRole) then
      buildDesiredRBs roles rest (insertKV acc (rbSpecKey r) r)
    else
      Except.error ("role " ++ r.existingRole ++ " not found in namespace " ++ r.ns)

/-- The `existingRBMap`, keyed by `rbKey` with Go-map overwrite. -/
def buildExistingRBMap (existing : List RoleBinding) : List (String × RoleBinding) :=
  existing.foldl (fun m rb => insertKV m (rbKey rb) rb) []

/-- The create-or-update loop over the desired map.  On partial failure the
mutations already made persist (the store is returned alongside the error). -/
def applyDesiredRBs (username : String) :
    List (String × RoleSpec) → List RoleBinding → List (String × RoleBinding) →
    List WriteOp → Except String Unit × List RoleBinding × List (String × RoleBinding) × List WriteOp
  | [], rbs, m, log => (Except.ok (), rbs, m, log)
  | (k, spec) :: rest, rbs, m, log =>
    let desired := mkDesiredRB username spec
    match lookupKV m k with
    | some ex =>
      if roleBindingMatches ex desired then
        applyDesiredRBs username rest rbs (eraseKV m k) log
      else
        match findRB rbs desired.ns desired.name with
        | some _ =>
          applyDesiredRBs username rest (replaceRB rbs desired) (eraseKV m k)
            (log ++ [WriteOp.rbUpdate desired.ns desired.name])
        | none =>
          (Except.error ("failed to update RoleBinding " ++ desired.name ++ " in namespace " ++ desired.ns),
            rbs, m, log)
    | none =>
      match findRB rbs desired.ns desired.name with
      | some _ =>
        (Except.error ("failed to create RoleBinding " ++ desired.name ++ " in namespace " ++ desired.ns),
          rbs, m, log)
      | none =>
        applyDesiredRBs username rest (rbs ++ [desired]) m
          (log ++ [WriteOp.rbCreate desired.ns desired.name])

/-- The delete loop over leftover existing bindings; NotFound is ignored,
any other delete failure aborts. -/
def deleteLeftoverRBs (env : Env) :
    List (String × RoleBinding) → List RoleBinding → List WriteOp →
    Except String Unit × List RoleBinding × List WriteOp
  | [], rbs, log => (Except.ok (), rbs, log)
  | (_, rb) :: rest, rbs, log =>
    if env.failDelete (ObjRef.rb rb.ns rb.name) then
      (Except.error ("failed to delete outdated RoleBinding " ++ rb.name ++ " in namespace " ++ rb.ns),
        rbs, log)
    else
      deleteLeftoverRBs env rest (removeRB rbs rb.ns rb.name) (log ++ [WriteOp.rbDelete rb.ns rb.name])

/-- `reconcileRoleBindings`: list the identity's bindings by label, validate
and key the desired roles, create/update the desired ones, delete the rest. -/
def reconcileRoleBindings (env : Env) (username : String) (specRoles : List RoleSpec)
    (roles : List (String × String)) (rbs : List RoleBinding) :
    Except String Unit × List RoleBinding × List WriteOp :=
  let existing := rbs.filter (fun b => b.userLabel == some username)
  match buildDesiredRBs roles specRoles [] with
  | Except.error e => (Except.error e, rbs, [])
  | Except.ok desired =>
    let m := buildExistingRBMap existing
    match applyDesiredRBs username desired rbs m [] with
    | (Except.error e, rbs1, _, log1) => (Except.error e, rbs1, log1)
    | (Except.ok (), rbs1, m1, log1) => deleteLeftoverRBs env m1 rbs1 log1

/-! ## Cluster binding reconciler (`reconcileClusterRoleBindings`) -/

def mkDesiredCRB (username : String) (r : ClusterRoleSpec) : ClusterRoleBinding :=
  { name := username ++ "-" ++ r.existingClusterRole ++ "-crb"
    userLabel := some username
    subjects := [{ apiGroup := "", kind := "User", name := username, ns := "" }]
    roleRef := { apiGroup := "rbac.authorization.k8s.io", kind := "ClusterRole", name := r.existingClusterRole } }

/-- `clusterRoleBindingMatches`. -/
def clusterRoleBindingMatches (existing desired : ClusterRoleBinding) : Bool :=
  if existing.roleRef != desired.roleRef then false
  else
    match existing.subjects, desired.subjects with
    | [e], [d] => e.kind == d.kind && e.name == d.name
    | _, _ => false

def buildDesiredCRBs (clusterRoles : List String) :
    List ClusterRoleSpec → List (String × ClusterRoleSpec) →
    Except String (List (String × ClusterRoleSpec))
  | [], acc => Except.ok acc
  | r :: rest, acc =>
    if clusterRoles.contains r.existingClusterRole then
      buildDesiredCRBs clusterRoles rest (insertKV acc r.existingClusterRole r)
    else
      Except.error ("clusterrole " ++ r.existingClusterRole ++ " not found")

def buildExistingCRBMap (existing : List ClusterRoleBinding) : List (String × ClusterRoleBinding) :=
  existing.foldl (fun m crb => insertKV m crb.roleRef.name crb) []

def applyDesiredCRBs (username : String) :
    List (String × ClusterRoleSpec) → List ClusterRoleBinding → List (String × ClusterRoleBinding) →
    List WriteOp → Except String Unit × List ClusterRoleBinding × List (String × ClusterRoleBinding) × List WriteOp
  | [], crbs, m, log => (Except.ok (), crbs, m, log)
  | (k, spec) :: rest, crbs, m, log =>
    let desired := mkDesiredCRB username spec
    match lookupKV m k with
    | some ex =>
      if clusterRoleBindingMatches ex desired then
        applyDesiredCRBs username rest crbs (eraseKV m k) log
      else
        match findCRB crbs desired.name with
        | some _ =>
          applyDesiredCRBs username rest (replaceCRB crbs desired) (eraseKV m k)
            (log ++ [WriteOp.crbUpdate desired.name])
        | none =>
          (Except.error ("failed to update ClusterRoleBinding " ++ desired.name), crbs, m, log)
    | none =>
      match findCRB crbs desired.name with
      | some _ =>
        (Except.error ("failed to create ClusterRoleBinding " ++ desired.name), crbs, m, log)
      | none =>
        applyDesiredCRBs username rest (crbs ++ [desired]) m
          (log ++ [WriteOp.crbCreate desired.name])

def deleteLeftoverCRBs (env : Env) :
    List (String × ClusterRoleBinding) → List ClusterRoleBinding → List WriteOp →
    Except String Unit × List ClusterRoleBinding × List WriteOp
  | [], crbs, log => (Except.ok (), crbs, log)
  | (_, crb) :: rest, crbs, log =>
    if env.failDelete (ObjRef.crb crb.name) then
      (Except.error ("failed to delete outdated ClusterRoleBinding " ++ crb.name), crbs, log)
    else
      deleteLeftoverCRBs env rest (removeCRB crbs crb.name) (log ++ [WriteOp.crbDelete crb.name])

def reconcileClusterRoleBindings (env : Env) (username : String)
    (specClusterRoles : List ClusterRoleSpec) (clusterRoles : List String)
    (crbs : List ClusterRoleBinding) :
    Except String Unit × List ClusterRoleBinding × List WriteOp :=
  let existing := crbs.filter (fun b => b.userLabel == some username)
  match buildDesiredCRBs clusterRoles specClusterRoles [] with
  | Except.error e => (Except.error e, crbs, [])
  | Except.ok desired =>
    let m := buildExistingCRBMap existing
    match applyDesiredCRBs username desired crbs m [] with
    | (Except.error e, crbs1, _, log1) => (Except.error e, crbs1, log1)
    | (Except.ok (), crbs1, m1, log1) => deleteLeftoverCRBs env m1 crbs1 log1

/-! ## Status projector (`updateUserStatus` / `setActiveStatus`) -/

/-- `setActiveStatus`: phase `Active` with a role-count message. -/
def setActiveStatus (u : User) : User :=
  let roleCount := u.spec.roles.length
  let clusterRoleCount := u.spec.clusterRoles.length
  let msg :=
    if roleCount + clusterRoleCount == 0 then
      "User has no assigned roles"
    else if roleCount > 0 && clusterRoleCount > 0 then
      "User provisioned with " ++ toString roleCount ++ " namespace role(s) and " ++
        toString clusterRoleCount ++ " cluster role(s)"
    else if roleCount > 0 then
      "User provisioned with " ++ toString roleCount ++ " namespace role(s)"
    else
      "User provisioned with " ++ toString clusterRoleCount ++ " cluster role(s)"
  { u with status := { u.status with phase := "Active", message := msg } }

/-- First half of `updateUserStatus`: expired / active from `ExpiryTime`
(`time.Now().After(expiry)` is strict). -/
def projectPhase (now : Int) (u : User) : User :=
  match u.status.expiryTime with
  | ExpiryStr.empty => setActiveStatus u
  | ExpiryStr.invalid _ => setActiveStatus u
  | ExpiryStr.rfc3339 t =>
    if now > t then
      { u with status := { u.status with phase := "Expired", message := "User certificate has expired" } }
    else setActiveStatus u

/-- The `switch user.Status.Phase` of `updateUserStatus`, producing the
`(status, reason)` of the `Ready` condition. -/
def readyPair (phase : String) : String × String :=
  match phase with
  | "Error" => ("False", "ProvisioningFailed")
  | "Expired" => ("False", "CertificateExpired")
  | "Pending" => ("False", "Provisioning")
  | _ => ("True", "UserProvisioned")

/-- Second half of `updateUserStatus`: maintain the `Ready` condition.  Every
condition of type `Ready` is rewritten (status, reason, message and
`LastTransitionTime := now`); if none exists one is appended. -/
def projectCondition (now : Int) (u : User) : User :=
  let condStatus := (readyPair u.status.phase).1
  let condReason := (readyPair u.status.phase).2
  let updated := u.status.conditions.map (fun c =>
    if c.condType == "Ready" then
      { c with status := condStatus, reason := condReason,
               message := u.status.message, lastTransitionTime := now }
    else c)
  let found := u.status.conditions.any (fun c => c.condType == "Ready")
  let conds := if found then updated
    else updated ++ [{ condType := "Ready", status := condStatus, reason := condReason,
                       message := u.status.message, lastTransitionTime := now }]
  { u with status := { u.status with conditions := conds } }

/-- `updateUserStatus` as a pure projection (its `r.Status().Update` call is
performed by the orchestrator model). -/
def updateUserStatusPure (now : Int) (u : User) : User :=
  projectCondition now (projectPhase now u)

/-! ## Certificate pipeline (`ensureCertKubeconfig` and helpers) -/

/-- `csrFromKey`: PEM-decode the key, parse it as PKCS#1, build a CSR with
subject CN = username, PEM-encode it. -/
def csrFromKey (username : String) (keyPEM : Data) : Except String Data :=
  match pemDecode keyPEM with
  | none => Except.error "decode key failed"
  | some inner =>
    match inner with
    | Data.derKey k => Except.ok (Data.pem "CERTIFICATE REQUEST" (Data.derCSR username k))
    | _ => Except.error "parse key failed"

/-- `getClusterCABase64`: the mounted service-account CA file first (present
and non-empty iff `Env.caFile` is `some`), the `kube-root-ca.crt` ConfigMap in
`default` as fallback. -/
def getClusterCABase64 (env : Env) (st : ClusterState) : Except String Data :=
  match env.caFile with
  | some d => Except.ok (Data.b64 d)
  | none =>
    match findConfigMap st "default" "kube-root-ca.crt" with
    | some cm =>
      match lookupKV cm.data "ca.crt" with
      | some crt => Except.ok (Data.b64 (Data.raw crt))
      | none => Except.error "CA not found"
    | none => Except.error "CA not found"

/-- `buildCertKubeconfig` at the payload level: the YAML document with the
five interpolated values.  Its character-level text is
`buildCertKubeconfigChars`, proved consistent separately. -/
def buildCertKubeconfigData (apiServer caDataB64 certDataB64 keyDataB64 username : Data) : Data :=
  Data.kubeconfig apiServer caDataB64 certDataB64 keyDataB64 username

/-- `extractClientCertFromKubeconfig` at the payload level: the
`client-certificate-data:` scalar of the document. -/
def extractClientCertFromKubeconfigData : Data → Except String Data
  | Data.kubeconfig _ _ certDataB64 _ _ => Except.ok certDataB64
  | _ => Except.error "client certificate data not found in kubeconfig"

/-- `checkCertificateRotation`: read the kubeconfig secret, pull the client
certificate out, extract its expiry, compare time-until-expiry with the
threshold.  Missing secret or missing `config` key mean no rotation. -/
def checkCertificateRotation (env : Env) (st : ClusterState)
    (cfgSecretName : String) (rotationThreshold : Int) : Except String Bool :=
  match findSecret st kubeUserNamespace cfgSecretName with
  | none => Except.ok false
  | some existingCfg =>
    match lookupKV existingCfg.data "config" with
    | none => Except.ok false
    | some kubeconfigData =>
      match extractClientCertFromKubeconfigData kubeconfigData with
      | Except.error e => Except.error ("failed to extract certificate from kubeconfig: " ++ e)
      | Except.ok certData =>
        match extractCertificateExpiryWithFormatDetection certData with
        | Except.error e => Except.error ("failed to extract certificate expiry: " ++ e)
        | Except.ok certExpiry => Except.ok (certExpiry - env.now < rotationThreshold)

/-- `cleanupCertificateResources`: delete the kubeconfig secret and the CSR
for rotation (NotFound tolerated, other delete errors abort; the private key
is deliberately retained). -/
def cleanupCertificateResources (env : Env) (st : ClusterState)
    (cfgSecretName csrName : String) :
    Except String Unit × ClusterState × List WriteOp :=
  match findSecret st kubeUserNamespace cfgSecretName with
  | some _ =>
    if env.failDelete (ObjRef.secret kubeUserNamespace cfgSecretName) then
      (Except.error "failed to delete kubeconfig secret", st, [])
    else
      let st1 := { st with secrets := removeSecretL st.secrets kubeUserNamespace cfgSecretName }
      let log1 := [WriteOp.secretDelete kubeUserNamespace cfgSecretName]
      match findCSR st1 csrName with
      | some _ =>
        if env.failDelete (ObjRef.csr csrName) then
          (Except.error "failed to delete existing CSR", st1, log1)
        else
          (Except.ok (), { st1 with csrs := removeCSRL st1.csrs csrName },
            log1 ++ [WriteOp.csrDelete csrName])
      | none => (Except.ok (), st1, log1)
  | none =>
    match findCSR st csrName with
    | some _ =>
      if env.failDelete (ObjRef.csr csrName) then
        (Except.error "failed to delete existing CSR", st, [])
      else
        (Except.ok (), { st with csrs := removeCSRL st.csrs csrName }, [WriteOp.csrDelete csrName])
    | none => (Except.ok (), st, [])

/-- `ensureCertKubeconfig`.  Returns the `(requeue, error)` pair as
`Except String Bool`, together with the (possibly partially mutated) local
user, store and write log — Go mutations made before an error persist. -/
def ensureCertKubeconfig (env : Env) (st : ClusterState) (u : User) :
    Except String Bool × User × ClusterState × List WriteOp :=
  let username := u.name
  let keySecretName := username ++ "-key"
  let cfgSecretName := username ++ "-kubeconfig"
  let csrName := username ++ "-csr"
  match checkCertificateRotation env st cfgSecretName (30 * 24 * 3600) with
  | Except.error e => (Except.error ("failed to check certificate rotation: " ++ e), u, st, [])
  | Except.ok needsRotation =>
    let cleaned : Except String Unit × ClusterState × List WriteOp :=
      if needsRotation then cleanupCertificateResources env st cfgSecretName csrName
      else (Except.ok (), st, [])
    match cleaned with
    | (Except.error e, st1, log1) =>
      (Except.error ("failed to cleanup certificate resources: " ++ e), u, st1, log1)
    | (Except.ok (), st1, log1) =>
      -- 1. load or create the key secret
      let keyStep : Data × ClusterState × List WriteOp :=
        match findSecret st1 kubeUserNamespace keySecretName with
        | some keySecret => ((lookupKV keySecret.data "key.pem").getD (Data.raw ""), st1, log1)
        | none =>
          let keyPEM := Data.pem "RSA PRIVATE KEY" (Data.derKey env.freshKeyId)
          let sec : Secret := { name := keySecretName, ns := kubeUserNamespace,
                                data := [("key.pem", keyPEM)] }
          (keyPEM, { st1 with secrets := st1.secrets ++ [sec] },
            log1 ++ [WriteOp.secretCreate kubeUserNamespace keySecretName])
      let keyPEM := keyStep.1
      let st2 := keyStep.2.1
      let log2 := keyStep.2.2
      -- 2. if the kubeconfig already exists, done
      match findSecret st2 kubeUserNamespace cfgSecretName with
      | some _ => (Except.ok false, u, st2, log2)
      | none =>
        -- 3. CSR from key
        match csrFromKey username keyPEM with
        | Except.error e => (Except.error e, u, st2, log2)
        | Except.ok csrPEM =>
          -- 4. create or get the CSR
          match findCSR st2 csrName with
          | none =>
            let csr : CSR := { name := csrName, userLabel := some username,
                               request := csrPEM, conditions := [], certificate := none }
            (Except.ok true, u, { st2 with csrs := st2.csrs ++ [csr] },
              log2 ++ [WriteOp.csrCreate csrName])
          | some csr =>
            -- 5. approve if not approved
            let approved := csr.conditions.any (fun c => c.condType == "Approved" && c.status == "True")
            if !approved then
              let csr1 := { csr with conditions := csr.conditions ++ [{ condType := "Approved", status := "True" }] }
              (Except.ok true, u,
                { st2 with csrs := st2.csrs.map (fun c => if c.name == csrName then csr1 else c) },
                log2 ++ [WriteOp.csrApprove csrName])
            else
              -- 6. wait for the certificate
              match csr.certificate with
              | none => (Except.ok true, u, st2, log2)
              | some signedCert =>
                -- 7. cluster CA
                match getClusterCABase64 env st2 with
                | Except.error e => (Except.error e, u, st2, log2)
                | Except.ok caDataB64 =>
                  -- 8. API server URL
                  let apiServer :=
                    if env.apiServerEnv == "" then "https://kubernetes.default.svc"
                    else env.apiServerEnv
                  -- 9. kubeconfig document
                  let kcfg := buildCertKubeconfigData (Data.raw apiServer) caDataB64
                    (Data.b64 signedCert) (Data.b64 keyPEM) (Data.raw username)
                  -- 9.5. extract the certificate expiry, persist it in status
                  match extractCertificateExpiryWithFormatDetection signedCert with
                  | Except.error e =>
                    (Except.error ("failed to extract certificate expiry: " ++ e), u, st2, log2)
                  | Except.ok certExpiry =>
                    let u1 := { u with status := { u.status with
                      expiryTime := ExpiryStr.rfc3339 certExpiry,
                      certificateExpiry := "Certificate" } }
                    let st3 := putUser st2 u1
                    let log3 := log2 ++ [WriteOp.statusUpdate username]
                    -- 10. save the kubeconfig secret (createOrUpdate)
                    let cfgSec : Secret := { name := cfgSecretName, ns := kubeUserNamespace,
                                             data := [("config", kcfg)] }
                    match findSecret st3 kubeUserNamespace cfgSecretName with
                    | some _ =>
                      (Except.ok false, u1,
                        { st3 with secrets := st3.secrets.map (fun s =>
                            if s.ns == kubeUserNamespace && s.name == cfgSecretName then cfgSec else s) },
                        log3 ++ [WriteOp.secretUpdate kubeUserNamespace cfgSecretName])
                    | none =>
                      (Except.ok false, u1, { st3 with secrets := st3.secrets ++ [cfgSec] },
                        log3 ++ [WriteOp.secretCreate kubeUserNamespace cfgSecretName])

/-! ## Cleanup coordinator (`cleanupUserResources`, second variant: void) -/

/-- One best-effort delete of a Secret: the result is discarded (`_ = r.Delete`),
but the API call is logged and takes effect unless it fails. -/
def bestEffortDeleteSecret (env : Env) (st : ClusterState) (ns name : String) :
    ClusterState × List WriteOp :=
  if env.failDelete (ObjRef.secret ns name) then (st, [WriteOp.secretDelete ns name])
  else ({ st with secrets := removeSecretL st.secrets ns name }, [WriteOp.secretDelete ns name])

def bestEffortDeleteSA (env : Env) (st : ClusterState) (ns name : String) :
    ClusterState × List WriteOp :=
  if env.failDelete (ObjRef.sa ns name) then (st, [WriteOp.saDelete ns name])
  else ({ st with serviceAccounts := st.serviceAccounts.filter (fun s => !(s.ns == ns && s.name == name)) },
    [WriteOp.saDelete ns name])

def bestEffortDeleteCSR (env : Env) (st : ClusterState) (name : String) :
    ClusterState × List WriteOp :=
  if env.failDelete (ObjRef.csr name) then (st, [WriteOp.csrDelete name])
  else ({ st with csrs := removeCSRL st.csrs name }, [WriteOp.csrDelete name])

def bestEffortDeleteRBList (env : Env) (st : ClusterState) :
    List RoleBinding → ClusterState × List WriteOp
  | [] => (st, [])
  | rb :: rest =>
    let st1 :=
      if env.failDelete (ObjRef.rb rb.ns rb.name) then st
      else { st with roleBindings := removeRB st.roleBindings rb.ns rb.name }
    let next := bestEffortDeleteRBList env st1 rest
    (next.1, WriteOp.rbDelete rb.ns rb.name :: next.2)

def bestEffortDeleteCRBList (env : Env) (st : ClusterState) :
    List ClusterRoleBinding → ClusterState × List WriteOp
  | [] => (st, [])
  | crb :: rest =>
    let st1 :=
      if env.failDelete (ObjRef.crb crb.name) then st
      else { st with clusterRoleBindings := removeCRB st.clusterRoleBindings crb.name }
    let next := bestEffortDeleteCRBList env st1 rest
    (next.1, WriteOp.crbDelete crb.name :: next.2)

/-- `cleanupUserResources`: best-effort deletion of the ServiceAccount, the
key and kubeconfig secrets, the CSR, and every labelled binding.  Errors are
discarded; the function cannot fail. -/
def cleanupUserResources (env : Env) (st : ClusterState) (u : User) :
    ClusterState × List WriteOp :=
  let username := u.name
  let s1 := bestEffortDeleteSA env st kubeUserNamespace username
  let s2 := bestEffortDeleteSecret env s1.1 kubeUserNamespace (username ++ "-key")
  let s3 := bestEffortDeleteSecret env s2.1 kubeUserNamespace (username ++ "-kubeconfig")
  let s4 := bestEffortDeleteCSR env s3.1 (username ++ "-csr")
  let rbs := s4.1.roleBindings.filter (fun b => b.userLabel == some username)
  let s5 := bestEffortDeleteRBList env s4.1 rbs
  let crbs := s5.1.clusterRoleBindings.filter (fun b => b.userLabel == some username)
  let s6 := bestEffortDeleteCRBList env s5.1 crbs
  (s6.1, s1.2 ++ s2.2 ++ s3.2 ++ s4.2 ++ s5.2 ++ s6.2)

/-! ## Reconcile orchestrator (`Reconcile`, lines 698-855) -/

/-- The expiry-driven requeue block at the end of `Reconcile` (lines 828-854):
only entered with phase `Active` and a parseable, non-empty `ExpiryTime`;
expired users get phase `Expired` with no requeue, users expiring within 24
hours an hourly requeue, everyone else the 30-minute periodic requeue. -/
def reconcileTail (env : Env) (st : ClusterState) (u : User) :
    Outcome × ClusterState × List WriteOp :=
  if u.status.phase == "Active" then
    match u.status.expiryTime with
    | ExpiryStr.rfc3339 t =>
      if t - env.now <= 0 then
        let msg := "User access has expired"
        let u1 := { u with status := { u.status with phase := "Expired", message := msg } }
        (Outcome.ok RequeueSpec.noRequeue, putUser st u1, [WriteOp.statusUpdate u.name])
      else if t - env.now < 24 * 3600 then
        (Outcome.ok (RequeueSpec.after 3600), st, [])
      else
        (Outcome.ok (RequeueSpec.after (30 * 60)), st, [])
    | ExpiryStr.invalid _ => (Outcome.ok (RequeueSpec.after (30 * 60)), st, [])
    | ExpiryStr.empty => (Outcome.ok (RequeueSpec.after (30 * 60)), st, [])
  else (Outcome.ok (RequeueSpec.after (30 * 60)), st, [])

/-- The initial-status step of `Reconcile` (lines 711-724): an unset phase is
set to `Pending` with a status write (whose failure is ignored). -/
def initStatusStep (st0 : ClusterState) (u0 : User) : User × ClusterState × List WriteOp :=
  if u0.status.phase == "" then
    let msg := "Initializing user resources"
    let u1 := { u0 with status := { u0.status with phase := "Pending", message := msg } }
    (u1, putUser st0 u1, [WriteOp.statusUpdate u1.name])
  else (u0, st0, [])

/-- `ensureNamespace(ctx, kubeUserNamespace)`: create the namespace if absent. -/
def ensureNamespaceStep (st2 : ClusterState) : ClusterState × List WriteOp :=
  if st2.namespaces.contains kubeUserNamespace then (st2, [])
  else ({ st2 with namespaces := st2.namespaces ++ [kubeUserNamespace] },
    [WriteOp.nsCreate kubeUserNamespace])

/-- `createOrUpdate` on the ServiceAccount identity anchor. -/
def ensureSAStep (st3 : ClusterState) (username : String) : ClusterState × List WriteOp :=
  let sa : ServiceAccount := { name := username, ns := kubeUserNamespace,
                               userLabel := some username }
  if st3.serviceAccounts.any (fun s => s.ns == kubeUserNamespace && s.name == username) then
    ({ st3 with serviceAccounts := st3.serviceAccounts.map (fun s =>
        if s.ns == kubeUserNamespace && s.name == username then sa else s) },
      [WriteOp.saUpdate kubeUserNamespace username])
  else ({ st3 with serviceAccounts := st3.serviceAccounts ++ [sa] },
    [WriteOp.saCreate kubeUserNamespace username])

/-- The normal (non-deletion) path of `Reconcile` after the finalizer is
ensured: kubeuser namespace, ServiceAccount, RoleBindings,
ClusterRoleBindings, status projection, certificate/kubeconfig machine and
the expiry-driven requeue block. -/
def reconcileNormal (env : Env) (st2 : ClusterState) (u2 : User) :
    Outcome × ClusterState × List WriteOp :=
  -- ensure the kubeuser namespace
  let nsStep := ensureNamespaceStep st2
  let st3 := nsStep.1
  let log3 := nsStep.2
  -- ensure the ServiceAccount identity anchor (createOrUpdate)
  let saStep := ensureSAStep st3 u2.name
  let st4 := saStep.1
  let log4 := log3 ++ saStep.2
  -- reconcile RoleBindings
  match reconcileRoleBindings env u2.name u2.spec.roles st4.roles st4.roleBindings with
  | (Except.error e, rbs1, logRB) =>
    let msg := "Failed to reconcile RoleBindings: " ++ e
    let u3 := { u2 with status := { u2.status with phase := "Error", message := msg } }
    (Outcome.err e, putUser { st4 with roleBindings := rbs1 } u3,
      log4 ++ logRB ++ [WriteOp.statusUpdate u3.name])
  | (Except.ok (), rbs1, logRB) =>
    let st5 := { st4 with roleBindings := rbs1 }
    let log5 := log4 ++ logRB
    -- reconcile ClusterRoleBindings
    match reconcileClusterRoleBindings env u2.name u2.spec.clusterRoles
        st5.clusterRoles st5.clusterRoleBindings with
    | (Except.error e, crbs1, logCRB) =>
      let msg := "Failed to reconcile ClusterRoleBindings: " ++ e
      let u3 := { u2 with status := { u2.status with phase := "Error", message := msg } }
      (Outcome.err e, putUser { st5 with clusterRoleBindings := crbs1 } u3,
        log5 ++ logCRB ++ [WriteOp.statusUpdate u3.name])
    | (Except.ok (), crbs1, logCRB) =>
      let st6 := { st5 with clusterRoleBindings := crbs1 }
      let log6 := log5 ++ logCRB
      -- updateUserStatus (its own error would be ignored)
      let u3 := updateUserStatusPure env.now u2
      let st7 := putUser st6 u3
      let log7 := log6 ++ [WriteOp.statusUpdate u3.name]
      -- ensure the cert-based kubeconfig
      match ensureCertKubeconfig env st7 u3 with
      | (Except.error _, _, st8, logC) =>
        (Outcome.ok (RequeueSpec.after 5), st8, log7 ++ logC)
      | (Except.ok true, _, st8, logC) =>
        (Outcome.ok (RequeueSpec.after 3), st8, log7 ++ logC)
      | (Except.ok false, u4, st8, logC) =>
        let t := reconcileTail env st8 u4
        (t.1, t.2.1, log7 ++ logC ++ t.2.2)

/-- One reconcile pass for the User named `reqName`.  Returns the
`(ctrl.Result, error)` outcome, the store after the pass, and the write log. -/
def Reconcile (env : Env) (st0 : ClusterState) (reqName : String) :
    Outcome × ClusterState × List WriteOp :=
  match st0.users.find? (fun x => x.name == reqName) with
  | none => (Outcome.ok RequeueSpec.noRequeue, st0, [])
  | some u0 =>
    -- ensure initial status (failure would be ignored; status writes succeed here)
    let init := initStatusStep st0 u0
    let u1 := init.1
    let st1 := init.2.1
    let log1 := init.2.2
    -- handle deletion
    if u1.deletionRequested then
      if containsString u1.finalizers userFinalizer then
        let c := cleanupUserResources env st1 u1
        let u2 := { u1 with finalizers := removeString u1.finalizers userFinalizer }
        if env.failUserUpdate then
          (Outcome.err "failed to remove finalizer", c.1, log1 ++ c.2)
        else
          (Outcome.ok RequeueSpec.noRequeue, putUser c.1 u2,
            log1 ++ c.2 ++ [WriteOp.userUpdate u2.name])
      else (Outcome.ok RequeueSpec.noRequeue, st1, log1)
    else
      -- ensure finalizer
      if !(containsString u1.finalizers userFinalizer) && env.failUserUpdate then
        (Outcome.err "failed to add finalizer", st1, log1)
      else
        let finStep : User × ClusterState × List WriteOp :=
          if containsString u1.finalizers userFinalizer then (u1, st1, log1)
          else
            let u2 := { u1 with finalizers := u1.finalizers ++ [userFinalizer] }
            (u2, putUser st1 u2, log1 ++ [WriteOp.userUpdate u2.name])
        let r := reconcileNormal env finStep.2.1 finStep.1
        (r.1, r.2.1, finStep.2.2 ++ r.2.2)

/-! ## Character-level kubeconfig text
(`buildCertKubeconfig` / `extractClientCertFromKubeconfig`)

Go strings are modelled as `List Char` here because the claims about these two
functions are about the text itself (splitting on newlines, trimming,
prefixes).  The Go helpers used are `strings.Split(s, "\n")`,
`strings.TrimSpace`, `strings.HasPrefix` and `strings.SplitN(s, ":", 2)`;
`TrimSpace` is modelled over the ASCII whitespace class (the only whitespace
that occurs in kubeconfig text). -/

def isSpaceChar (c : Char) : Bool :=
  c == ' ' || c == '\t' || c == '\n' || c == '\r'

/-- `strings.Split(s, "\n")`. -/
def goSplitLines : List Char → List (List Char)
  | [] => [[]]
  | c :: rest =>
    if c == '\n' then [] :: goSplitLines rest
    else
      match goSplitLines rest with
      | [] => [[c]]
      | l :: ls => (c :: l) :: ls

def goTrimLeft (s : List Char) : List Char := s.dropWhile isSpaceChar

def goTrimRight (s : List Char) : List Char := (s.reverse.dropWhile isSpaceChar).reverse

/-- `strings.TrimSpace`. -/
def goTrimSpace (s : List Char) : List Char := goTrimRight (goTrimLeft s)

/-- `strings.HasPrefix`. -/
def goStartsWith (s p : List Char) : Bool :=
  match p with
  | [] => true
  | q :: ps =>
    match s with
    | [] => false
    | c :: cs => c == q && goStartsWith cs ps

/-- `strings.SplitN(s, ":", 2)`. -/
def goSplitN2Colon (s : List Char) : List (List Char) :=
  if s.contains ':' then
    [s.takeWhile (fun c => c != ':'), (s.dropWhile (fun c => c != ':')).drop 1]
  else [s]

/-- The scan loop of `extractClientCertFromKubeconfig` over the split lines. -/
def extractClientCertLoop : List (List Char) → Except String (List Char)
  | [] => Except.error "client certificate data not found in kubeconfig"
  | line :: rest =>
    let trimmedLine := goTrimSpace line
    if goStartsWith trimmedLine "client-certificate-data:".data then
      match goSplitN2Colon trimmedLine with
      | [_, p2] => Except.ok (goTrimSpace p2)
      | _ => extractClientCertLoop rest
    else extractClientCertLoop rest

/-- `extractClientCertFromKubeconfig` (character level). -/
def extractClientCertFromKubeconfig (kubeconfigData : List Char) : Except String (List Char) :=
  extractClientCertLoop (goSplitLines kubeconfigData)

/-- The nineteen lines of the kubeconfig template, with the five values
interpolated where the `%s` verbs sit. -/
def buildCertKubeconfigLines (apiServer caDataB64 certDataB64 keyDataB64 username : List Char) :
    List (List Char) :=
  [ "apiVersion: v1".data,
    "kind: Config".data,
    "clusters:".data,
    "- cluster:".data,
    "    certificate-authority-data: ".data ++ caDataB64,
    "    server: ".data ++ apiServer,
    "  name: cluster".data,
    "contexts:".data,
    "- context:".data,
    "    cluster: cluster".data,
    "    namespace: default".data,
    "    user: ".data ++ username,
    "  name: ".data ++ username ++ "@cluster".data,
    "current-context: ".data ++ username ++ "@cluster".data,
    "users:".data,
    "- name: ".data ++ username,
    "  user:".data,
    "    client-certificate-data: ".data ++ certDataB64,
    "    client-key-data: ".data ++ keyDataB64 ]

/-- Terminate every line with a newline (the template ends in a newline). -/
def terminateLines : List (List Char) → List Char
  | [] => []
  | l :: rest => l ++ '\n' :: terminateLines rest

/-- `buildCertKubeconfig` (character level): the exact `fmt.Sprintf` text. -/
def buildCertKubeconfig (apiServer caDataB64 certDataB64 keyDataB64 username : List Char) :
    List Char :=
  terminateLines (buildCertKubeconfigLines apiServer caDataB64 certDataB64 keyDataB64 username)

/-! # Theorems -/

/-- **C3** (confirmed).  For every certificate (identified by its validity-end
instant `t`), the three supported encodings — base64-of-PEM, raw PEM, raw
DER — all make `extractCertificateExpiryWithFormatDetection` succeed with the
same timestamp `t`; and for an arbitrary payload the extraction returns an
error exactly when all three decoding attempts (`tryBase64PEM`, `tryRawPEM`,
`tryRawDER`) fail. -/
theorem C3_certificate_format_robustness :
    (∀ (t : Int) (l : String),
      extractCertificateExpiryWithFormatDetection (Data.b64 (Data.pem l (Data.derCert t))) = Except.ok t ∧
      extractCertificateExpiryWithFormatDetection (Data.pem l (Data.derCert t)) = Except.ok t ∧
      extractCertificateExpiryWithFormatDetection (Data.derCert t) = Except.ok t) ∧
    (∀ d : Data,
      (∃ e, extractCertificateExpiryWithFormatDetection d = Except.error e) ↔
      ((∃ e1, tryBase64PEM d = Except.error e1) ∧
       (∃ e2, tryRawPEM d = Except.error e2) ∧
       (∃ e3, tryRawDER d = Except.error e3))) := by
  refine ⟨fun t l => ⟨rfl, rfl, rfl⟩, fun d => ?_⟩
  cases h1 : tryBase64PEM d with
  | ok t => simp [extractCertificateExpiryWithFormatDetection, h1]
  | error e1 =>
    cases h2 : tryRawPEM d with
    | ok t => simp [extractCertificateExpiryWithFormatDetection, h1, h2]
    | error e2 =>
      cases h3 : tryRawDER d with
      | ok t => simp [extractCertificateExpiryWithFormatDetection, h1, h2, h3]
      | error e3 => simp [extractCertificateExpiryWithFormatDetection, h1, h2, h3]

/-! ### Lemmas about the kubeconfig text functions -/

theorem goSplitLines_append_nl (xs ys : List Char) (h : '\n' ∉ xs) :
    goSplitLines (xs ++ '\n' :: ys) = xs :: goSplitLines ys := by
  induction xs with
  | nil => simp [goSplitLines]
  | cons c rest ih =>
    have hc : (c == '\n') = false := by
      simp only [beq_eq_false_iff_ne, ne_eq]
      intro hcc
      exact h (hcc ▸ List.mem_cons_self c rest)
    have hrest : '\n' ∉ rest := fun hm => h (List.mem_cons_of_mem c hm)
    simp only [List.cons_append, goSplitLines, hc, Bool.false_eq_true, if_false]
    have ih2 : goSplitLines (rest.append ('\n' :: ys)) = rest :: goSplitLines ys := ih hrest
    rw [ih2]

theorem goSplitLines_terminate (ls : List (List Char)) (h : ∀ l ∈ ls, '\n' ∉ l) :
    goSplitLines (terminateLines ls) = ls ++ [[]] := by
  induction ls with
  | nil => simp [terminateLines, goSplitLines]
  | cons l rest ih =>
    rw [terminateLines, goSplitLines_append_nl l _ (h l (List.mem_cons_self l rest)),
      ih (fun x hx => h x (List.mem_cons_of_mem l hx))]
    rfl

theorem goStartsWith_append (s t p : List Char) (h : goStartsWith s p = true) :
    goStartsWith (s ++ t) p = true := by
  induction p generalizing s with
  | nil => simp [goStartsWith]
  | cons q qs ih =>
    cases s with
    | nil => simp [goStartsWith] at h
    | cons c cs =>
      simp only [goStartsWith, Bool.and_eq_true] at h
      simp only [List.cons_append, goStartsWith, Bool.and_eq_true]
      exact ⟨h.1, ih cs h.2⟩

theorem dropWhile_length_le (p : Char → Bool) (l : List Char) :
    (l.dropWhile p).length ≤ l.length := by
  induction l with
  | nil => simp
  | cons c cs ih =>
    rw [List.dropWhile_cons]
    by_cases hc : p c = true
    · simp only [hc, if_true, List.length_cons]
      omega
    · simp only [Bool.not_eq_true] at hc
      simp only [hc, Bool.false_eq_true, if_false, List.length_cons]
      omega

theorem goStartsWith_self_append (p t : List Char) : goStartsWith (p ++ t) p = true := by
  have hrefl : goStartsWith p p = true := by
    induction p with
    | nil => rfl
    | cons c cs ih => simp [goStartsWith, ih]
  exact goStartsWith_append p t p hrefl

theorem exists_trimRight_append (s : List Char) : ∃ t, s = goTrimRight s ++ t := by
  refine ⟨(s.reverse.takeWhile isSpaceChar).reverse, ?_⟩
  rw [goTrimRight, ← List.reverse_append, List.takeWhile_append_dropWhile,
    List.reverse_reverse]

theorem goStartsWith_trimSpace_mono (s p : List Char)
    (h : goStartsWith (goTrimSpace s) p = true) : goStartsWith (goTrimLeft s) p = true := by
  obtain ⟨t, ht⟩ := exists_trimRight_append (goTrimLeft s)
  rw [ht]
  exact goStartsWith_append _ _ _ h

/-- A line is skipped by `extractClientCertFromKubeconfig` when its left-trim
already fails the `client-certificate-data:` test (right-trimming can only
shorten the line further). -/
theorem extractLoop_skip (line : List Char) (rest : List (List Char))
    (h : goStartsWith (goTrimLeft line) "client-certificate-data:".data = false) :
    extractClientCertLoop (line :: rest) = extractClientCertLoop rest := by
  have hfull : goStartsWith (goTrimSpace line) "client-certificate-data:".data = false := by
    cases hx : goStartsWith (goTrimSpace line) "client-certificate-data:".data
    · rfl
    · have := goStartsWith_trimSpace_mono line _ hx
      rw [h] at this
      exact absurd this (by simp)
  simp [extractClientCertLoop, hfull]

theorem goTrimRight_append (xs v : List Char) (hv : goTrimRight v = v) (hne : v ≠ []) :
    goTrimRight (xs ++ v) = xs ++ v := by
  rw [goTrimRight, List.reverse_append]
  have hrev : v.reverse.dropWhile isSpaceChar = v.reverse := by
    have := congrArg List.reverse hv
    rw [goTrimRight, List.reverse_reverse] at this
    exact this
  cases hvr : v.reverse with
  | nil => exact absurd (by simpa using congrArg List.reverse hvr) hne
  | cons c cs =>
    rw [hvr] at hrev
    have hc : isSpaceChar c = false := by
      by_contra hcc
      simp only [Bool.not_eq_false] at hcc
      simp only [List.dropWhile_cons, hcc, if_true] at hrev
      have hlen := congrArg List.length hrev
      simp only [List.length_cons] at hlen
      have hle := dropWhile_length_le isSpaceChar cs
      omega
    have hv2 : v = cs.reverse ++ [c] := by
      conv_lhs => rw [← List.reverse_reverse v, hvr]
      rw [List.reverse_cons]
    rw [List.cons_append, List.dropWhile_cons, hc]
    simp only [Bool.false_eq_true, if_false, List.reverse_cons, List.reverse_append,
      List.reverse_reverse]
    rw [hv2]
    simp only [List.append_assoc]

/-- The scan returns the interpolated value when it reaches the
`client-certificate-data:` line, provided that value carries no surrounding
whitespace. -/
theorem extractLoop_hit (cert : List Char) (rest : List (List Char))
    (hl : goTrimLeft cert = cert) (hr : goTrimRight cert = cert) :
    extractClientCertLoop (("    client-certificate-data: ".data ++ cert) :: rest) =
      Except.ok cert := by
  by_cases hne : cert = []
  · subst hne
    have htrim : goTrimSpace ("    client-certificate-data: ".data ++ ([] : List Char)) =
        "client-certificate-data:".data := by decide
    have hstart : goStartsWith "client-certificate-data:".data
        "client-certificate-data:".data = true := by decide
    have hsplit : goSplitN2Colon "client-certificate-data:".data =
        ["client-certificate-data".data, []] := by decide
    simp only [extractClientCertLoop, htrim, hstart, if_true, hsplit]
    rfl
  · have htriml : goTrimLeft ("    client-certificate-data: ".data ++ cert) =
        "client-certificate-data: ".data ++ cert := rfl
    have htrim : goTrimSpace ("    client-certificate-data: ".data ++ cert) =
        "client-certificate-data: ".data ++ cert := by
      rw [goTrimSpace, htriml]
      exact goTrimRight_append _ _ hr hne
    have hstart : goStartsWith ("client-certificate-data: ".data ++ cert)
        "client-certificate-data:".data = true := by
      have : "client-certificate-data: ".data ++ cert =
          "client-certificate-data:".data ++ (' ' :: cert) := rfl
      rw [this]
      exact goStartsWith_self_append _ _
    have hsplit : goSplitN2Colon ("client-certificate-data: ".data ++ cert) =
        ["client-certificate-data".data, ' ' :: cert] := by
      rw [goSplitN2Colon]
      have hcontains : ("client-certificate-data: ".data ++ cert).contains ':' = true := rfl
      rw [hcontains]
      simp only [if_true]
      have h1 : ("client-certificate-data: ".data ++ cert).takeWhile (fun c => c != ':') =
          "client-certificate-data".data := rfl
      have h2 : (("client-certificate-data: ".data ++ cert).dropWhile (fun c => c != ':')).drop 1 =
          ' ' :: cert := rfl
      rw [h1, h2]
    have htrimval : goTrimSpace (' ' :: cert) = cert := by
      rw [goTrimSpace]
      have : goTrimLeft (' ' :: cert) = goTrimLeft cert := rfl
      rw [this, hl, hr]
    simp only [extractClientCertLoop, htrim, hstart, if_true, hsplit, htrimval]

theorem not_mem_append_chars {c : Char} {xs ys : List Char} (hx : c ∉ xs) (hy : c ∉ ys) :
    c ∉ xs ++ ys := by
  intro hm
  rcases List.mem_append.mp hm with h | h
  · exact hx h
  · exact hy h

/-- **C10 counterexample.**  The claim asserts that for inputs without newline
characters, `extractClientCertFromKubeconfig` recovers exactly the certificate
string that `buildCertKubeconfig` embedded.  With the newline-free certificate
string `" X"` (leading space) the extraction returns `"X"`: `TrimSpace` strips
the surrounding whitespace, so the round trip is not the identity. -/
theorem C10_extract_build_counterexample :
    ('\n' ∉ (" X".data : List Char)) ∧
    extractClientCertFromKubeconfig
      (buildCertKubeconfig "s".data "ca".data " X".data "k".data "u".data) =
      Except.ok "X".data ∧
    (" X".data : List Char) ≠ "X".data := by decide

/-- **C10** (corrected).  For every API server address, CA string, certificate
string, key string and username without newline characters, *and a certificate
string additionally free of leading/trailing whitespace* (`TrimSpace`-fixed),
`extractClientCertFromKubeconfig` applied to the document built by
`buildCertKubeconfig` returns exactly the embedded certificate string. -/
theorem C10_extractClientCert_leftInverse_buildCertKubeconfig
    (apiServer caDataB64 certDataB64 keyDataB64 username : List Char)
    (hsrv : '\n' ∉ apiServer) (hca : '\n' ∉ caDataB64) (hcert : '\n' ∉ certDataB64)
    (hkey : '\n' ∉ keyDataB64) (hu : '\n' ∉ username)
    (htl : goTrimLeft certDataB64 = certDataB64)
    (htr : goTrimRight certDataB64 = certDataB64) :
    extractClientCertFromKubeconfig
      (buildCertKubeconfig apiServer caDataB64 certDataB64 keyDataB64 username) =
      Except.ok certDataB64 := by
  have hnl : ∀ l ∈ buildCertKubeconfigLines apiServer caDataB64 certDataB64 keyDataB64 username,
      '\n' ∉ l := by
    intro l hl
    simp only [buildCertKubeconfigLines, List.mem_cons, List.not_mem_nil, or_false] at hl
    rcases hl with rfl|rfl|rfl|rfl|rfl|rfl|rfl|rfl|rfl|rfl|rfl|rfl|rfl|rfl|rfl|rfl|rfl|rfl|rfl
    · decide
    · decide
    · decide
    · decide
    · exact not_mem_append_chars (by decide) hca
    · exact not_mem_append_chars (by decide) hsrv
    · decide
    · decide
    · decide
    · decide
    · decide
    · exact not_mem_append_chars (by decide) hu
    · exact not_mem_append_chars (not_mem_append_chars (by decide) hu) (by decide)
    · exact not_mem_append_chars (not_mem_append_chars (by decide) hu) (by decide)
    · decide
    · exact not_mem_append_chars (by decide) hu
    · decide
    · exact not_mem_append_chars (by decide) hcert
    · exact not_mem_append_chars (by decide) hkey
  rw [extractClientCertFromKubeconfig, buildCertKubeconfig,
    goSplitLines_terminate _ hnl]
  show extractClientCertLoop
    ("apiVersion: v1".data ::
     "kind: Config".data ::
     "clusters:".data ::
     "- cluster:".data ::
     ("    certificate-authority-data: ".data ++ caDataB64) ::
     ("    server: ".data ++ apiServer) ::
     "  name: cluster".data ::
     "contexts:".data ::
     "- context:".data ::
     "    cluster: cluster".data ::
     "    namespace: default".data ::
     ("    user: ".data ++ username) ::
     ("  name: ".data ++ username ++ "@cluster".data) ::
     ("current-context: ".data ++ username ++ "@cluster".data) ::
     "users:".data ::
     ("- name: ".data ++ username) ::
     "  user:".data ::
     ("    client-certificate-data: ".data ++ certDataB64) ::
     ("    client-key-data: ".data ++ keyDataB64) :: [[]]) = Except.ok certDataB64
  rw [extractLoop_skip "apiVersion: v1".data _ rfl]
  rw [extractLoop_skip "kind: Config".data _ rfl]
  rw [extractLoop_skip "clusters:".data _ rfl]
  rw [extractLoop_skip "- cluster:".data _ rfl]
  rw [extractLoop_skip ("    certificate-authority-data: ".data ++ caDataB64) _ rfl]
  rw [extractLoop_skip ("    server: ".data ++ apiServer) _ rfl]
  rw [extractLoop_skip "  name: cluster".data _ rfl]
  rw [extractLoop_skip "contexts:".data _ rfl]
  rw [extractLoop_skip "- context:".data _ rfl]
  rw [extractLoop_skip "    cluster: cluster".data _ rfl]
  rw [extractLoop_skip "    namespace: default".data _ rfl]
  rw [extractLoop_skip ("    user: ".data ++ username) _ rfl]
  rw [extractLoop_skip ("  name: ".data ++ username ++ "@cluster".data) _ rfl]
  rw [extractLoop_skip ("current-context: ".data ++ username ++ "@cluster".data) _ rfl]
  rw [extractLoop_skip "users:".data _ rfl]
  rw [extractLoop_skip ("- name: ".data ++ username) _ rfl]
  rw [extractLoop_skip "  user:".data _ rfl]
  exact extractLoop_hit certDataB64 _ htl htr

/-- Witness for C10: a concrete newline-free, whitespace-clean instance. -/
theorem C10_extractClientCert_leftInverse_witness :
    extractClientCertFromKubeconfig
      (buildCertKubeconfig "https://host".data "CADATA".data "CERTDATA".data
        "KEYDATA".data "alice".data) = Except.ok "CERTDATA".data :=
  C10_extractClientCert_leftInverse_buildCertKubeconfig
    "https://host".data "CADATA".data "CERTDATA".data "KEYDATA".data "alice".data
    (by decide) (by decide) (by decide) (by decide) (by decide) (by decide) (by decide)

/-! ### Lemmas about the status projector -/

theorem projectPhase_phase (now : Int) (u : User) :
    (projectPhase now u).status.phase = "Active" ∨ (projectPhase now u).status.phase = "Expired" := by
  unfold projectPhase setActiveStatus
  cases u.status.expiryTime with
  | empty => left; rfl
  | invalid s => left; rfl
  | rfc3339 t =>
    by_cases h : now > t
    · right; simp [h]
    · left; simp [h]

theorem projectPhase_conditions (now : Int) (u : User) :
    (projectPhase now u).status.conditions = u.status.conditions := by
  unfold projectPhase setActiveStatus
  cases u.status.expiryTime with
  | empty => rfl
  | invalid s => rfl
  | rfc3339 t =>
    by_cases h : now > t
    · simp [h]
    · simp [h]

theorem projectCondition_phase (now : Int) (u : User) :
    (projectCondition now u).status.phase = u.status.phase := rfl

theorem projectCondition_message (now : Int) (u : User) :
    (projectCondition now u).status.message = u.status.message := rfl

/-- Mapping the Ready-rewrite over a condition list with at most one Ready
entry: the Ready entries of the result collapse to the single target
condition when one was present, to nothing otherwise. -/
theorem filter_map_ready (s r m : String) (now : Int) (conds : List Condition)
    (h : (conds.filter (fun c => c.condType == "Ready")).length ≤ 1) :
    (conds.map (fun c =>
      if c.condType == "Ready"
      then { c with status := s, reason := r, message := m, lastTransitionTime := now }
      else c)).filter (fun c => c.condType == "Ready") =
      (if conds.any (fun c => c.condType == "Ready")
       then [{ condType := "Ready", status := s, reason := r, message := m,
               lastTransitionTime := now }]
       else []) := by
  induction conds with
  | nil => simp
  | cons c cs ih =>
    rw [List.map_cons, List.any_cons]
    by_cases hc : (c.condType == "Ready") = true
    · have hty : c.condType = "Ready" := by simpa using hc
      have hhead : (if c.condType == "Ready"
          then { c with status := s, reason := r, message := m, lastTransitionTime := now }
          else c) =
          { condType := "Ready", status := s, reason := r, message := m,
            lastTransitionTime := now } := by
        rw [if_pos hc, hty]
      have hlen : (cs.filter (fun x => x.condType == "Ready")).length = 0 := by
        rw [List.filter_cons, if_pos hc] at h
        simp only [List.length_cons] at h
        omega
      have hnone : ∀ x ∈ cs, ¬((x.condType == "Ready") = true) := by
        intro x hx hxr
        have hmem : x ∈ cs.filter (fun x => x.condType == "Ready") :=
          List.mem_filter.mpr ⟨hx, hxr⟩
        rw [List.length_eq_zero.mp hlen] at hmem
        exact absurd hmem (List.not_mem_nil x)
      have htail : (cs.map (fun c =>
          if c.condType == "Ready"
          then { c with status := s, reason := r, message := m, lastTransitionTime := now }
          else c)).filter (fun c => c.condType == "Ready") = [] := by
        rw [List.filter_eq_nil_iff]
        intro x hx
        rcases List.mem_map.mp hx with ⟨y, hy, rfl⟩
        rw [if_neg (hnone y hy)]
        exact hnone y hy
      rw [hhead, List.filter_cons, htail]
      rw [hc, Bool.true_or, if_pos rfl]
      simp
    · have hcf : (c.condType == "Ready") = false := by
        cases hx : (c.condType == "Ready")
        · rfl
        · exact absurd hx hc
      simp only [List.filter_cons, hcf, Bool.false_eq_true, if_false] at h
      rw [if_neg hc, List.filter_cons]
      simp only [hcf, Bool.false_eq_true, if_false, Bool.false_or]
      exact ih h

/-- What `projectCondition` does to the Ready condition. -/
theorem projectCondition_ready (now : Int) (u : User)
    (h : (u.status.conditions.filter (fun c => c.condType == "Ready")).length ≤ 1) :
    (projectCondition now u).status.conditions.filter (fun x => x.condType == "Ready") =
      [{ condType := "Ready", status := (readyPair u.status.phase).1,
         reason := (readyPair u.status.phase).2,
         message := u.status.message, lastTransitionTime := now }] := by
  unfold projectCondition
  simp only []
  by_cases hfound : u.status.conditions.any (fun c => c.condType == "Ready")
  · rw [if_pos hfound]
    have := filter_map_ready (readyPair u.status.phase).1 (readyPair u.status.phase).2
      u.status.message now u.status.conditions h
    rw [if_pos hfound] at this
    exact this
  · rw [if_neg hfound]
    have hmap := filter_map_ready (readyPair u.status.phase).1 (readyPair u.status.phase).2
      u.status.message now u.status.conditions h
    rw [if_neg hfound] at hmap
    rw [List.filter_append, hmap, List.nil_append]
    rfl

/-- **C9 counterexample.**  The claim says the Ready condition's transition
timestamp is updated only when the condition's boolean value changes.  Here a
user is already `Active` with a `Ready=True` condition stamped at time `5`;
re-projecting at time `100` leaves the value at `True` but rewrites the
timestamp to `100` instead of preserving `5`. -/
theorem C9_ready_timestamp_counterexample :
    (let u : User :=
      { name := "u", finalizers := [], deletionRequested := false,
        spec := { roles := [], clusterRoles := [] },
        status := { expiryTime := ExpiryStr.rfc3339 1000, certificateExpiry := "",
                    phase := "Active", message := "m",
                    conditions := [{ condType := "Ready", status := "True",
                                     reason := "UserProvisioned", message := "m",
                                     lastTransitionTime := 5 }] } }
     (updateUserStatusPure 100 u).status.phase = "Active" ∧
     (updateUserStatusPure 100 u).status.conditions.map
        (fun c => (c.condType, c.status, c.lastTransitionTime)) =
       [("Ready", "True", 100)]) := by decide

/-- **C9** (corrected).  For every user with at most one `Ready` condition,
the projection `updateUserStatusPure` leaves exactly one `Ready` condition;
its boolean status is `"True"` exactly when the projected phase is `Active`;
its reason is `UserProvisioned` for `Active` and `CertificateExpired` for
`Expired` (the only phases the projection produces); its message mirrors the
status message; and its transition timestamp is set to the projection time on
*every* call — not only on value changes (that is the corrected part). -/
theorem C9_ready_condition_projection (now : Int) (u : User)
    (h : (u.status.conditions.filter (fun c => c.condType == "Ready")).length ≤ 1) :
    ∃ c : Condition,
      (updateUserStatusPure now u).status.conditions.filter
        (fun x => x.condType == "Ready") = [c] ∧
      (c.status = "True" ↔ (updateUserStatusPure now u).status.phase = "Active") ∧
      (((updateUserStatusPure now u).status.phase = "Active" ∧ c.reason = "UserProvisioned") ∨
       ((updateUserStatusPure now u).status.phase = "Expired" ∧ c.reason = "CertificateExpired")) ∧
      c.message = (updateUserStatusPure now u).status.message ∧
      c.lastTransitionTime = now := by
  unfold updateUserStatusPure
  have hconds := projectPhase_conditions now u
  have hfilter : ((projectPhase now u).status.conditions.filter
      (fun c => c.condType == "Ready")).length ≤ 1 := by rw [hconds]; exact h
  have hready := projectCondition_ready now (projectPhase now u) hfilter
  have hphase := projectPhase_phase now u
  have hpc := projectCondition_phase now (projectPhase now u)
  have hpm := projectCondition_message now (projectPhase now u)
  rcases hphase with hA | hE
  · have hP : (projectCondition now (projectPhase now u)).status.phase = "Active" := by
      rw [hpc, hA]
    have hpair : readyPair (projectPhase now u).status.phase = ("True", "UserProvisioned") := by
      rw [hA]
      decide
    refine ⟨_, hready, ?_, ?_, ?_, rfl⟩
    · show (readyPair (projectPhase now u).status.phase).1 = "True" ↔ _
      rw [hpair, hP]
      simp
    · left
      refine ⟨hP, ?_⟩
      show (readyPair (projectPhase now u).status.phase).2 = "UserProvisioned"
      rw [hpair]
    · show (projectPhase now u).status.message = _
      rw [hpm]
  · have hP : (projectCondition now (projectPhase now u)).status.phase = "Expired" := by
      rw [hpc, hE]
    have hpair : readyPair (projectPhase now u).status.phase = ("False", "CertificateExpired") := by
      rw [hE]
      decide
    refine ⟨_, hready, ?_, ?_, ?_, rfl⟩
    · show (readyPair (projectPhase now u).status.phase).1 = "True" ↔ _
      rw [hpair, hP]
      simp
    · right
      refine ⟨hP, ?_⟩
      show (readyPair (projectPhase now u).status.phase).2 = "CertificateExpired"
      rw [hpair]
    · show (projectPhase now u).status.message = _
      rw [hpm]

/-- Witness for C9 at a concrete user carrying one stale Ready condition. -/
theorem C9_ready_condition_projection_witness :
    (let u : User :=
      { name := "w", finalizers := [], deletionRequested := false,
        spec := { roles := [], clusterRoles := [] },
        status := { expiryTime := ExpiryStr.rfc3339 50, certificateExpiry := "",
                    phase := "Active", message := "m",
                    conditions := [{ condType := "Ready", status := "True",
                                     reason := "UserProvisioned", message := "m",
                                     lastTransitionTime := 1 }] } }
     ((u.status.conditions.filter (fun c => c.condType == "Ready")).length ≤ 1) ∧
     ∃ c : Condition,
      (updateUserStatusPure 200 u).status.conditions.filter
        (fun x => x.condType == "Ready") = [c] ∧
      (c.status = "True" ↔ (updateUserStatusPure 200 u).status.phase = "Active") ∧
      (((updateUserStatusPure 200 u).status.phase = "Active" ∧ c.reason = "UserProvisioned") ∨
       ((updateUserStatusPure 200 u).status.phase = "Expired" ∧ c.reason = "CertificateExpired")) ∧
      c.message = (updateUserStatusPure 200 u).status.message ∧
      c.lastTransitionTime = 200) :=
  ⟨by decide, C9_ready_condition_projection 200 _ (by decide)⟩

/-! ### Stage lemmas for the orchestrator -/

theorem ensureNamespaceStep_fields (st : ClusterState) :
    (ensureNamespaceStep st).1.users = st.users ∧
    (ensureNamespaceStep st).1.roles = st.roles ∧
    (ensureNamespaceStep st).1.clusterRoles = st.clusterRoles ∧
    (ensureNamespaceStep st).1.roleBindings = st.roleBindings ∧
    (ensureNamespaceStep st).1.clusterRoleBindings = st.clusterRoleBindings ∧
    (ensureNamespaceStep st).1.serviceAccounts = st.serviceAccounts ∧
    (ensureNamespaceStep st).1.secrets = st.secrets ∧
    (ensureNamespaceStep st).1.csrs = st.csrs ∧
    (ensureNamespaceStep st).1.configMaps = st.configMaps := by
  unfold ensureNamespaceStep
  by_cases h : st.namespaces.contains kubeUserNamespace
  · rw [if_pos h]
    exact ⟨rfl, rfl, rfl, rfl, rfl, rfl, rfl, rfl, rfl⟩
  · rw [if_neg h]
    exact ⟨rfl, rfl, rfl, rfl, rfl, rfl, rfl, rfl, rfl⟩

theorem ensureSAStep_fields (st : ClusterState) (username : String) :
    (ensureSAStep st username).1.users = st.users ∧
    (ensureSAStep st username).1.namespaces = st.namespaces ∧
    (ensureSAStep st username).1.roles = st.roles ∧
    (ensureSAStep st username).1.clusterRoles = st.clusterRoles ∧
    (ensureSAStep st username).1.roleBindings = st.roleBindings ∧
    (ensureSAStep st username).1.clusterRoleBindings = st.clusterRoleBindings ∧
    (ensureSAStep st username).1.secrets = st.secrets ∧
    (ensureSAStep st username).1.csrs = st.csrs ∧
    (ensureSAStep st username).1.configMaps = st.configMaps := by
  unfold ensureSAStep
  by_cases h : st.serviceAccounts.any (fun s => s.ns == kubeUserNamespace && s.name == username)
  · rw [if_pos h]
    exact ⟨rfl, rfl, rfl, rfl, rfl, rfl, rfl, rfl, rfl⟩
  · rw [if_neg h]
    exact ⟨rfl, rfl, rfl, rfl, rfl, rfl, rfl, rfl, rfl⟩

/-- The write log of the namespace/ServiceAccount steps contains only
namespace-create and ServiceAccount writes. -/
theorem nsSaStep_log (st : ClusterState) (username : String) :
    (∀ w ∈ (ensureNamespaceStep st).2, w = WriteOp.nsCreate kubeUserNamespace) ∧
    (∀ w ∈ (ensureSAStep st username).2,
      w = WriteOp.saUpdate kubeUserNamespace username ∨
      w = WriteOp.saCreate kubeUserNamespace username) := by
  constructor
  · intro w hw
    unfold ensureNamespaceStep at hw
    by_cases h : st.namespaces.contains kubeUserNamespace
    · rw [if_pos h] at hw
      exact absurd hw (List.not_mem_nil w)
    · rw [if_neg h] at hw
      simpa using hw
  · intro w hw
    unfold ensureSAStep at hw
    by_cases h : st.serviceAccounts.any (fun s => s.ns == kubeUserNamespace && s.name == username)
    · rw [if_pos h] at hw
      simp only [List.mem_singleton] at hw
      exact Or.inl hw
    · rw [if_neg h] at hw
      simp only [List.mem_singleton] at hw
      exact Or.inr hw

/-- Under a found, live user with the finalizer in place and a non-empty
phase, a pass is exactly the normal path. -/
theorem Reconcile_normal_path (env : Env) (st0 : ClusterState) (reqName : String) (u : User)
    (hfind : st0.users.find? (fun x => x.name == reqName) = some u)
    (hdel : u.deletionRequested = false)
    (hfin : containsString u.finalizers userFinalizer = true)
    (hph : u.status.phase ≠ "") :
    Reconcile env st0 reqName = reconcileNormal env st0 u := by
  have hph2 : (u.status.phase == "") = false := by
    cases hx : u.status.phase == ""
    · rfl
    · exact absurd (by simpa using hx) hph
  rw [Reconcile, hfind]
  simp only [initStatusStep, hph2, Bool.false_eq_true, if_false, hdel, hfin,
    Bool.not_true, Bool.false_and, if_true, List.nil_append]

/-! ### C2: the validation gate -/

/-- When some desired role is missing, the desired-map construction aborts
with the `role ... not found in namespace ...` error of one of the missing
entries, regardless of the accumulator. -/
theorem buildDesiredRBs_error (roles : List (String × String)) :
    ∀ (specRoles : List RoleSpec) (acc : List (String × RoleSpec)),
    (∃ r ∈ specRoles, roles.contains (r.ns, r.existingRole) = false) →
    ∃ r ∈ specRoles, roles.contains (r.ns, r.existingRole) = false ∧
      buildDesiredRBs roles specRoles acc =
        Except.error ("role " ++ r.existingRole ++ " not found in namespace " ++ r.ns) := by
  intro specRoles
  induction specRoles with
  | nil =>
    intro acc h
    obtain ⟨r, hr, _⟩ := h
    exact absurd hr (List.not_mem_nil r)
  | cons r rest ih =>
    intro acc h
    by_cases hr : roles.contains (r.ns, r.existingRole) = true
    · have hrest : ∃ x ∈ rest, roles.contains (x.ns, x.existingRole) = false := by
        obtain ⟨x, hx, hxc⟩ := h
        rcases List.mem_cons.mp hx with rfl | hx2
        · rw [hr] at hxc
          exact absurd hxc (by simp)
        · exact ⟨x, hx2, hxc⟩
      obtain ⟨x, hx, hxc, hb⟩ := ih (insertKV acc (rbSpecKey r) r) hrest
      refine ⟨x, List.mem_cons_of_mem r hx, hxc, ?_⟩
      rw [buildDesiredRBs, if_pos hr]
      exact hb
    · have hrf : roles.contains (r.ns, r.existingRole) = false := by
        cases hx : roles.contains (r.ns, r.existingRole)
        · rfl
        · exact absurd hx hr
      refine ⟨r, List.mem_cons_self r rest, hrf, ?_⟩
      rw [buildDesiredRBs, if_neg hr]

/-- `reconcileRoleBindings` with a missing role: hard stop before any
mutation — the store is returned unchanged with an empty write log. -/
theorem reconcileRoleBindings_missing (env : Env) (username : String)
    (specRoles : List RoleSpec) (roles : List (String × String)) (rbs : List RoleBinding)
    (hmiss : ∃ r ∈ specRoles, roles.contains (r.ns, r.existingRole) = false) :
    ∃ r ∈ specRoles, roles.contains (r.ns, r.existingRole) = false ∧
      reconcileRoleBindings env username specRoles roles rbs =
        (Except.error ("role " ++ r.existingRole ++ " not found in namespace " ++ r.ns),
          rbs, []) := by
  obtain ⟨r, hmem, hco, herr⟩ := buildDesiredRBs_error roles specRoles [] hmiss
  refine ⟨r, hmem, hco, ?_⟩
  rw [reconcileRoleBindings]
  rw [herr]

/-- Binding, secret or signing-request writes (the writes C2 and C5 forbid). -/
def isMutationWrite : WriteOp → Bool
  | WriteOp.rbCreate _ _ => true
  | WriteOp.rbUpdate _ _ => true
  | WriteOp.rbDelete _ _ => true
  | WriteOp.crbCreate _ => true
  | WriteOp.crbUpdate _ => true
  | WriteOp.crbDelete _ => true
  | WriteOp.secretCreate _ _ => true
  | WriteOp.secretUpdate _ _ => true
  | WriteOp.secretDelete _ _ => true
  | WriteOp.csrCreate _ => true
  | WriteOp.csrApprove _ => true
  | WriteOp.csrDelete _ => true
  | _ => false

/-- `putUser` replaces the stored copy that `Get` would return. -/
theorem find?_putUser_users (users : List User) (reqName : String) (u u3 : User)
    (hfind : users.find? (fun x => x.name == reqName) = some u)
    (hname : u3.name = u.name) :
    (users.map (fun x => if x.name == u3.name then u3 else x)).find?
      (fun x => x.name == reqName) = some u3 := by
  have hu0 := List.find?_some hfind
  have hu : (u.name == reqName) = true := by simpa using hu0
  induction users with
  | nil => simp at hfind
  | cons a l ih =>
    cases ha : (a.name == reqName) with
    | true =>
      rw [List.find?_cons_of_pos l ha] at hfind
      have hau : a = u := Option.some.inj hfind
      subst hau
      have hcond : (a.name == u3.name) = true := by rw [hname]; simp
      rw [List.map_cons, if_pos hcond]
      have hp : (u3.name == reqName) = true := by rw [hname]; exact ha
      exact List.find?_cons_of_pos _ hp
    | false =>
      have hfind2 : l.find? (fun x => x.name == reqName) = some u := by
        rw [List.find?_cons_of_neg l (by simp [ha])] at hfind
        exact hfind
      have hcond : (a.name == u3.name) = false := by
        cases hx : (a.name == u3.name)
        · rfl
        · exfalso
          have : a.name = u3.name := by simpa using hx
          rw [hname] at this
          have : (a.name == reqName) = true := by
            rw [this]
            exact hu
          rw [this] at ha
          exact absurd ha (by simp)
      rw [List.map_cons, if_neg (by simp [hcond])]
      rw [List.find?_cons_of_neg _ (by simp [ha])]
      exact ih hfind2

/-- `putUser` replaces the copy that a subsequent `Get` returns. -/
theorem putUser_find? (st : ClusterState) (u2 : User) (reqName : String) (u : User)
    (hfind : st.users.find? (fun x => x.name == reqName) = some u)
    (hname : u2.name = u.name) :
    (putUser st u2).users.find? (fun x => x.name == reqName) = some u2 := by
  have h2 := find?_putUser_users st.users reqName u u2 hfind hname
  exact h2

/-- The RoleBindings-error branch of the normal path, as one equation. -/
theorem reconcileNormal_rbError (env : Env) (st2 : ClusterState) (u2 : User)
    (e : String) (rbs1 : List RoleBinding) (logRB : List WriteOp)
    (h : reconcileRoleBindings env u2.name u2.spec.roles
      (ensureSAStep (ensureNamespaceStep st2).1 u2.name).1.roles
      (ensureSAStep (ensureNamespaceStep st2).1 u2.name).1.roleBindings =
      (Except.error e, rbs1, logRB)) :
    reconcileNormal env st2 u2 =
      (Outcome.err e,
       putUser { (ensureSAStep (ensureNamespaceStep st2).1 u2.name).1 with roleBindings := rbs1 }
         { u2 with status := { u2.status with phase := "Error", message := "Failed to reconcile RoleBindings: " ++ e } },
       ((ensureNamespaceStep st2).2 ++ (ensureSAStep (ensureNamespaceStep st2).1 u2.name).2) ++
         logRB ++ [WriteOp.statusUpdate u2.name]) := by
  simp only [reconcileNormal]
  rw [h]

/-- **C2** (confirmed).  A pass on a live, finalized user whose desired roles
include a role absent from its namespace: `reconcileRoleBindings` aborts with
an error naming the missing role and namespace before any binding, secret or
signing-request write; the orchestrator stores phase `Error` with a message
containing that error and returns the error (aborting the pass). -/
theorem C2_missing_role_validation_gate (env : Env) (st0 : ClusterState) (reqName : String)
    (u : User)
    (hfind : st0.users.find? (fun x => x.name == reqName) = some u)
    (hdel : u.deletionRequested = false)
    (hfin : containsString u.finalizers userFinalizer = true)
    (hph : u.status.phase ≠ "")
    (hmiss : ∃ r ∈ u.spec.roles, st0.roles.contains (r.ns, r.existingRole) = false) :
    ∃ r ∈ u.spec.roles, st0.roles.contains (r.ns, r.existingRole) = false ∧
      ((Reconcile env st0 reqName).1 =
        Outcome.err ("role " ++ r.existingRole ++ " not found in namespace " ++ r.ns) ∧
       (∃ u2, (Reconcile env st0 reqName).2.1.users.find? (fun x => x.name == reqName) = some u2 ∧
         u2.status.phase = "Error" ∧
         u2.status.message = "Failed to reconcile RoleBindings: " ++
           ("role " ++ r.existingRole ++ " not found in namespace " ++ r.ns)) ∧
       (Reconcile env st0 reqName).2.1.roleBindings = st0.roleBindings ∧
       (Reconcile env st0 reqName).2.1.clusterRoleBindings = st0.clusterRoleBindings ∧
       (Reconcile env st0 reqName).2.1.secrets = st0.secrets ∧
       (Reconcile env st0 reqName).2.1.csrs = st0.csrs ∧
       (∀ w ∈ (Reconcile env st0 reqName).2.2, isMutationWrite w = false)) := by
  rw [Reconcile_normal_path env st0 reqName u hfind hdel hfin hph]
  obtain ⟨hnsU, hnsR, hnsCR, hnsRB, hnsCRB, hnsSA, hnsS, hnsC, hnsCM⟩ :=
    ensureNamespaceStep_fields st0
  obtain ⟨hsaU, hsaN, hsaR, hsaCR, hsaRB, hsaCRB, hsaS, hsaC, hsaCM⟩ :=
    ensureSAStep_fields (ensureNamespaceStep st0).1 u.name
  obtain ⟨r, hrmem, hrco, hrb⟩ := reconcileRoleBindings_missing env u.name u.spec.roles
    ((ensureSAStep (ensureNamespaceStep st0).1 u.name).1.roles)
    ((ensureSAStep (ensureNamespaceStep st0).1 u.name).1.roleBindings)
    (by rw [hsaR, hnsR]; exact hmiss)
  refine ⟨r, hrmem, by rw [hsaR, hnsR] at hrco; exact hrco, ?_⟩
  rw [reconcileNormal_rbError env st0 u _ _ _ hrb]
  refine ⟨rfl, ?_, ?_, ?_, ?_, ?_, ?_⟩
  · refine ⟨_, putUser_find? _ _ reqName u (by
      show (ensureSAStep (ensureNamespaceStep st0).1 u.name).1.users.find?
        (fun x => x.name == reqName) = some u
      rw [hsaU, hnsU]
      exact hfind) rfl, rfl, rfl⟩
  · show (ensureSAStep (ensureNamespaceStep st0).1 u.name).1.roleBindings = st0.roleBindings
    rw [hsaRB, hnsRB]
  · show (ensureSAStep (ensureNamespaceStep st0).1 u.name).1.clusterRoleBindings =
      st0.clusterRoleBindings
    rw [hsaCRB, hnsCRB]
  · show (ensureSAStep (ensureNamespaceStep st0).1 u.name).1.secrets = st0.secrets
    rw [hsaS, hnsS]
  · show (ensureSAStep (ensureNamespaceStep st0).1 u.name).1.csrs = st0.csrs
    rw [hsaC, hnsC]
  · intro w hw
    rcases List.mem_append.mp hw with hw1 | hw2
    · rcases List.mem_append.mp hw1 with hw3 | hw4
      · rcases List.mem_append.mp hw3 with hw5 | hw6
        · rw [(nsSaStep_log st0 u.name).1 w hw5]
          rfl
        · rcases (nsSaStep_log (ensureNamespaceStep st0).1 u.name).2 w hw6 with rfl | rfl
          · rfl
          · rfl
      · exact absurd hw4 (List.not_mem_nil w)
    · rw [List.mem_singleton.mp hw2]
      rfl

/-- An environment with no injected API failures. -/
def envNoFail : Env :=
  { now := 0, caFile := none, apiServerEnv := "", freshKeyId := 0,
    failDelete := fun _ => false, failUserUpdate := false }

def c2User : User :=
  { name := "u", finalizers := [userFinalizer], deletionRequested := false,
    spec := { roles := [{ ns := "dev", existingRole := "developer" }], clusterRoles := [] },
    status := { expiryTime := ExpiryStr.empty, certificateExpiry := "", phase := "Active",
                message := "", conditions := [] } }

def c2State : ClusterState :=
  { users := [c2User], namespaces := [], roles := [], clusterRoles := [],
    roleBindings := [], clusterRoleBindings := [], serviceAccounts := [],
    secrets := [], csrs := [], configMaps := [] }

/-- Witness for C2: user `u` desires role `developer` in namespace `dev`,
but no such Role exists. -/
theorem C2_missing_role_validation_gate_witness :
    ∃ r ∈ c2User.spec.roles, c2State.roles.contains (r.ns, r.existingRole) = false ∧
      ((Reconcile envNoFail c2State "u").1 =
        Outcome.err ("role " ++ r.existingRole ++ " not found in namespace " ++ r.ns) ∧
       (∃ u2, (Reconcile envNoFail c2State "u").2.1.users.find? (fun x => x.name == "u") = some u2 ∧
         u2.status.phase = "Error" ∧
         u2.status.message = "Failed to reconcile RoleBindings: " ++
           ("role " ++ r.existingRole ++ " not found in namespace " ++ r.ns)) ∧
       (Reconcile envNoFail c2State "u").2.1.roleBindings = c2State.roleBindings ∧
       (Reconcile envNoFail c2State "u").2.1.clusterRoleBindings = c2State.clusterRoleBindings ∧
       (Reconcile envNoFail c2State "u").2.1.secrets = c2State.secrets ∧
       (Reconcile envNoFail c2State "u").2.1.csrs = c2State.csrs ∧
       (∀ w ∈ (Reconcile envNoFail c2State "u").2.2, isMutationWrite w = false)) :=
  C2_missing_role_validation_gate envNoFail c2State "u" c2User rfl rfl rfl
    (by decide) (by decide)

/-! ### C8: the deletion path -/

theorem containsString_removeString (l : List String) (s : String) :
    containsString (removeString l s) s = false := by
  induction l with
  | nil => rfl
  | cons a rest ih =>
    rw [removeString, List.filter_cons]
    by_cases ha : (a != s) = true
    · rw [if_pos ha]
      have has : (a == s) = false := by
        cases hx : a == s
        · rfl
        · rw [bne] at ha
          rw [hx] at ha
          exact absurd ha (by decide)
      rw [containsString, List.any_cons, has, Bool.false_or]
      rw [removeString] at ih
      rw [containsString] at ih
      exact ih
    · rw [if_neg ha]
      rw [removeString, containsString] at ih
      rw [containsString]
      exact ih

theorem bestEffortDeleteSA_fields (env : Env) (st : ClusterState) (ns name : String) :
    (bestEffortDeleteSA env st ns name).1.users = st.users ∧
    (bestEffortDeleteSA env st ns name).1.secrets = st.secrets ∧
    (bestEffortDeleteSA env st ns name).1.csrs = st.csrs ∧
    (bestEffortDeleteSA env st ns name).1.roleBindings = st.roleBindings ∧
    (bestEffortDeleteSA env st ns name).1.clusterRoleBindings = st.clusterRoleBindings := by
  unfold bestEffortDeleteSA
  by_cases h : env.failDelete (ObjRef.sa ns name) = true
  · rw [if_pos h]
    exact ⟨rfl, rfl, rfl, rfl, rfl⟩
  · rw [if_neg h]
    exact ⟨rfl, rfl, rfl, rfl, rfl⟩

theorem bestEffortDeleteSecret_fields (env : Env) (st : ClusterState) (ns name : String) :
    (bestEffortDeleteSecret env st ns name).1.users = st.users ∧
    (bestEffortDeleteSecret env st ns name).1.serviceAccounts = st.serviceAccounts ∧
    (bestEffortDeleteSecret env st ns name).1.csrs = st.csrs ∧
    (bestEffortDeleteSecret env st ns name).1.roleBindings = st.roleBindings ∧
    (bestEffortDeleteSecret env st ns name).1.clusterRoleBindings = st.clusterRoleBindings := by
  unfold bestEffortDeleteSecret
  by_cases h : env.failDelete (ObjRef.secret ns name) = true
  · rw [if_pos h]
    exact ⟨rfl, rfl, rfl, rfl, rfl⟩
  · rw [if_neg h]
    exact ⟨rfl, rfl, rfl, rfl, rfl⟩

theorem bestEffortDeleteCSR_fields (env : Env) (st : ClusterState) (name : String) :
    (bestEffortDeleteCSR env st name).1.users = st.users ∧
    (bestEffortDeleteCSR env st name).1.serviceAccounts = st.serviceAccounts ∧
    (bestEffortDeleteCSR env st name).1.secrets = st.secrets ∧
    (bestEffortDeleteCSR env st name).1.roleBindings = st.roleBindings ∧
    (bestEffortDeleteCSR env st name).1.clusterRoleBindings = st.clusterRoleBindings := by
  unfold bestEffortDeleteCSR
  by_cases h : env.failDelete (ObjRef.csr name) = true
  · rw [if_pos h]
    exact ⟨rfl, rfl, rfl, rfl, rfl⟩
  · rw [if_neg h]
    exact ⟨rfl, rfl, rfl, rfl, rfl⟩

theorem bestEffortDeleteSA_gone (env : Env) (st : ClusterState) (ns name : String)
    (h : env.failDelete (ObjRef.sa ns name) = false) :
    ∀ s ∈ (bestEffortDeleteSA env st ns name).1.serviceAccounts,
      ¬(s.ns = ns ∧ s.name = name) := by
  unfold bestEffortDeleteSA
  rw [if_neg (by rw [h]; exact Bool.false_ne_true)]
  intro s hs ⟨h1, h2⟩
  have := List.of_mem_filter hs
  rw [h1, h2] at this
  simp at this

theorem bestEffortDeleteSecret_gone (env : Env) (st : ClusterState) (ns name : String)
    (h : env.failDelete (ObjRef.secret ns name) = false) :
    ∀ s ∈ (bestEffortDeleteSecret env st ns name).1.secrets,
      ¬(s.ns = ns ∧ s.name = name) := by
  unfold bestEffortDeleteSecret
  rw [if_neg (by rw [h]; exact Bool.false_ne_true)]
  intro s hs ⟨h1, h2⟩
  have := List.of_mem_filter hs
  rw [h1, h2] at this
  simp at this

theorem bestEffortDeleteCSR_gone (env : Env) (st : ClusterState) (name : String)
    (h : env.failDelete (ObjRef.csr name) = false) :
    ∀ c ∈ (bestEffortDeleteCSR env st name).1.csrs, ¬(c.name = name) := by
  unfold bestEffortDeleteCSR
  rw [if_neg (by rw [h]; exact Bool.false_ne_true)]
  intro c hc h1
  have := List.of_mem_filter hc
  rw [h1] at this
  simp at this

theorem bestEffortDeleteRBList_spec (env : Env) :
    ∀ (l : List RoleBinding) (st : ClusterState),
    (∀ b ∈ (bestEffortDeleteRBList env st l).1.roleBindings, b ∈ st.roleBindings) ∧
    (∀ rb ∈ l, env.failDelete (ObjRef.rb rb.ns rb.name) = false →
      ∀ b ∈ (bestEffortDeleteRBList env st l).1.roleBindings,
        ¬(b.ns = rb.ns ∧ b.name = rb.name)) ∧
    (bestEffortDeleteRBList env st l).1.users = st.users ∧
    (bestEffortDeleteRBList env st l).1.serviceAccounts = st.serviceAccounts ∧
    (bestEffortDeleteRBList env st l).1.secrets = st.secrets ∧
    (bestEffortDeleteRBList env st l).1.csrs = st.csrs ∧
    (bestEffortDeleteRBList env st l).1.clusterRoleBindings = st.clusterRoleBindings := by
  intro l
  induction l with
  | nil =>
    intro st
    exact ⟨fun b hb => hb, fun rb hrb => absurd hrb (List.not_mem_nil rb),
      rfl, rfl, rfl, rfl, rfl⟩
  | cons rb rest ih =>
    intro st
    by_cases hf : env.failDelete (ObjRef.rb rb.ns rb.name) = true
    · have hstep : bestEffortDeleteRBList env st (rb :: rest) =
          ((bestEffortDeleteRBList env st rest).1,
            WriteOp.rbDelete rb.ns rb.name :: (bestEffortDeleteRBList env st rest).2) := by
        rw [bestEffortDeleteRBList, if_pos hf]
      obtain ⟨hmem, hdel, hu, hsa, hs, hc, hcrb⟩ := ih st
      rw [hstep]
      refine ⟨hmem, ?_, hu, hsa, hs, hc, hcrb⟩
      intro x hx hxf
      rcases List.mem_cons.mp hx with rfl | hx2
      · rw [hf] at hxf
        exact absurd hxf (by decide)
      · exact hdel x hx2 hxf
    · have hf2 : env.failDelete (ObjRef.rb rb.ns rb.name) = false := by
        cases hx : env.failDelete (ObjRef.rb rb.ns rb.name)
        · rfl
        · exact absurd hx hf
      have hstep : bestEffortDeleteRBList env st (rb :: rest) =
          ((bestEffortDeleteRBList env
              { st with roleBindings := removeRB st.roleBindings rb.ns rb.name } rest).1,
            WriteOp.rbDelete rb.ns rb.name ::
              (bestEffortDeleteRBList env
                { st with roleBindings := removeRB st.roleBindings rb.ns rb.name } rest).2) := by
        rw [bestEffortDeleteRBList, if_neg hf]
      obtain ⟨hmem, hdel, hu, hsa, hs, hc, hcrb⟩ :=
        ih { st with roleBindings := removeRB st.roleBindings rb.ns rb.name }
      rw [hstep]
      refine ⟨?_, ?_, hu, hsa, hs, hc, hcrb⟩
      · intro b hb
        have hb2 := hmem b hb
        have : b ∈ removeRB st.roleBindings rb.ns rb.name := hb2
        exact List.mem_of_mem_filter this
      · intro x hx hxf
        rcases List.mem_cons.mp hx with rfl | hx2
        · intro b hb ⟨h1, h2⟩
          have hb2 := hmem b hb
          have hb3 : b ∈ removeRB st.roleBindings x.ns x.name := hb2
          have := List.of_mem_filter hb3
          rw [h1, h2] at this
          simp at this
        · exact hdel x hx2 hxf

theorem bestEffortDeleteCRBList_spec (env : Env) :
    ∀ (l : List ClusterRoleBinding) (st : ClusterState),
    (∀ b ∈ (bestEffortDeleteCRBList env st l).1.clusterRoleBindings,
      b ∈ st.clusterRoleBindings) ∧
    (∀ crb ∈ l, env.failDelete (ObjRef.crb crb.name) = false →
      ∀ b ∈ (bestEffortDeleteCRBList env st l).1.clusterRoleBindings, ¬(b.name = crb.name)) ∧
    (bestEffortDeleteCRBList env st l).1.users = st.users ∧
    (bestEffortDeleteCRBList env st l).1.serviceAccounts = st.serviceAccounts ∧
    (bestEffortDeleteCRBList env st l).1.secrets = st.secrets ∧
    (bestEffortDeleteCRBList env st l).1.csrs = st.csrs ∧
    (bestEffortDeleteCRBList env st l).1.roleBindings = st.roleBindings := by
  intro l
  induction l with
  | nil =>
    intro st
    exact ⟨fun b hb => hb, fun crb hcrb => absurd hcrb (List.not_mem_nil crb),
      rfl, rfl, rfl, rfl, rfl⟩
  | cons crb rest ih =>
    intro st
    by_cases hf : env.failDelete (ObjRef.crb crb.name) = true
    · have hstep : bestEffortDeleteCRBList env st (crb :: rest) =
          ((bestEffortDeleteCRBList env st rest).1,
            WriteOp.crbDelete crb.name :: (bestEffortDeleteCRBList env st rest).2) := by
        rw [bestEffortDeleteCRBList, if_pos hf]
      obtain ⟨hmem, hdel, hu, hsa, hs, hc, hrb⟩ := ih st
      rw [hstep]
      refine ⟨hmem, ?_, hu, hsa, hs, hc, hrb⟩
      intro x hx hxf
      rcases List.mem_cons.mp hx with rfl | hx2
      · rw [hf] at hxf
        exact absurd hxf (by decide)
      · exact hdel x hx2 hxf
    · have hstep : bestEffortDeleteCRBList env st (crb :: rest) =
          ((bestEffortDeleteCRBList env
              { st with clusterRoleBindings := removeCRB st.clusterRoleBindings crb.name } rest).1,
            WriteOp.crbDelete crb.name ::
              (bestEffortDeleteCRBList env
                { st with clusterRoleBindings := removeCRB st.clusterRoleBindings crb.name } rest).2) := by
        rw [bestEffortDeleteCRBList, if_neg hf]
      obtain ⟨hmem, hdel, hu, hsa, hs, hc, hrb⟩ :=
        ih { st with clusterRoleBindings := removeCRB st.clusterRoleBindings crb.name }
      rw [hstep]
      refine ⟨?_, ?_, hu, hsa, hs, hc, hrb⟩
      · intro b hb
        have hb2 := hmem b hb
        exact List.mem_of_mem_filter hb2
      · intro x hx hxf
        rcases List.mem_cons.mp hx with rfl | hx2
        · intro b hb h1
          have hb2 := hmem b hb
          have := List.of_mem_filter hb2
          rw [h1] at this
          simp at this
        · exact hdel x hx2 hxf

theorem bestEffortDeleteSecret_mem (env : Env) (st : ClusterState) (ns name : String) :
    ∀ s ∈ (bestEffortDeleteSecret env st ns name).1.secrets, s ∈ st.secrets := by
  unfold bestEffortDeleteSecret
  by_cases h : env.failDelete (ObjRef.secret ns name) = true
  · rw [if_pos h]
    exact fun s hs => hs
  · rw [if_neg h]
    exact fun s hs => List.mem_of_mem_filter hs

theorem cleanupUserResources_users (env : Env) (st : ClusterState) (u : User) :
    (cleanupUserResources env st u).1.users = st.users := by
  unfold cleanupUserResources
  simp only []
  rw [(bestEffortDeleteCRBList_spec env _ _).2.2.1,
      (bestEffortDeleteRBList_spec env _ _).2.2.1,
      (bestEffortDeleteCSR_fields env _ _).1,
      (bestEffortDeleteSecret_fields env _ _ _).1,
      (bestEffortDeleteSecret_fields env _ _ _).1,
      (bestEffortDeleteSA_fields env _ _ _).1]

theorem cleanupUserResources_sa_gone (env : Env) (st : ClusterState) (u : User)
    (hf : env.failDelete (ObjRef.sa kubeUserNamespace u.name) = false) :
    ∀ s ∈ (cleanupUserResources env st u).1.serviceAccounts,
      ¬(s.ns = kubeUserNamespace ∧ s.name = u.name) := by
  intro s hs
  unfold cleanupUserResources at hs
  simp only [] at hs
  rw [(bestEffortDeleteCRBList_spec env _ _).2.2.2.1,
      (bestEffortDeleteRBList_spec env _ _).2.2.2.1,
      (bestEffortDeleteCSR_fields env _ _).2.1,
      (bestEffortDeleteSecret_fields env _ _ _).2.1,
      (bestEffortDeleteSecret_fields env _ _ _).2.1] at hs
  exact bestEffortDeleteSA_gone env st kubeUserNamespace u.name hf s hs

theorem cleanupUserResources_key_gone (env : Env) (st : ClusterState) (u : User)
    (hf : env.failDelete (ObjRef.secret kubeUserNamespace (u.name ++ "-key")) = false) :
    ∀ s ∈ (cleanupUserResources env st u).1.secrets,
      ¬(s.ns = kubeUserNamespace ∧ s.name = u.name ++ "-key") := by
  intro s hs
  unfold cleanupUserResources at hs
  simp only [] at hs
  rw [(bestEffortDeleteCRBList_spec env _ _).2.2.2.2.1,
      (bestEffortDeleteRBList_spec env _ _).2.2.2.2.1,
      (bestEffortDeleteCSR_fields env _ _).2.2.1] at hs
  have hs2 := bestEffortDeleteSecret_mem env _ kubeUserNamespace (u.name ++ "-kubeconfig") s hs
  exact bestEffortDeleteSecret_gone env _ kubeUserNamespace (u.name ++ "-key") hf s hs2

theorem cleanupUserResources_cfg_gone (env : Env) (st : ClusterState) (u : User)
    (hf : env.failDelete (ObjRef.secret kubeUserNamespace (u.name ++ "-kubeconfig")) = false) :
    ∀ s ∈ (cleanupUserResources env st u).1.secrets,
      ¬(s.ns = kubeUserNamespace ∧ s.name = u.name ++ "-kubeconfig") := by
  intro s hs
  unfold cleanupUserResources at hs
  simp only [] at hs
  rw [(bestEffortDeleteCRBList_spec env _ _).2.2.2.2.1,
      (bestEffortDeleteRBList_spec env _ _).2.2.2.2.1,
      (bestEffortDeleteCSR_fields env _ _).2.2.1] at hs
  exact bestEffortDeleteSecret_gone env _ kubeUserNamespace (u.name ++ "-kubeconfig") hf s hs

theorem cleanupUserResources_csr_gone (env : Env) (st : ClusterState) (u : User)
    (hf : env.failDelete (ObjRef.csr (u.name ++ "-csr")) = false) :
    ∀ c ∈ (cleanupUserResources env st u).1.csrs, ¬(c.name = u.name ++ "-csr") := by
  intro c hc
  unfold cleanupUserResources at hc
  simp only [] at hc
  rw [(bestEffortDeleteCRBList_spec env _ _).2.2.2.2.2.1,
      (bestEffortDeleteRBList_spec env _ _).2.2.2.2.2.1] at hc
  exact bestEffortDeleteCSR_gone env _ (u.name ++ "-csr") hf c hc

theorem bestEffortDeleteRBList_labeled (env : Env) (st : ClusterState) (username : String) :
    ∀ b ∈ (bestEffortDeleteRBList env st
        (st.roleBindings.filter (fun x => x.userLabel == some username))).1.roleBindings,
      b.userLabel = some username → env.failDelete (ObjRef.rb b.ns b.name) = true := by
  intro b hb hlab
  by_contra hfc
  have hf : env.failDelete (ObjRef.rb b.ns b.name) = false := by
    cases hx : env.failDelete (ObjRef.rb b.ns b.name)
    · rfl
    · exact absurd hx hfc
  obtain ⟨hmem, hdel, _⟩ := bestEffortDeleteRBList_spec env
    (st.roleBindings.filter (fun x => x.userLabel == some username)) st
  have hb2 := hmem b hb
  have hbl : b ∈ st.roleBindings.filter (fun x => x.userLabel == some username) :=
    List.mem_filter.mpr ⟨hb2, by rw [hlab]; simp⟩
  exact hdel b hbl hf b hb ⟨rfl, rfl⟩

theorem bestEffortDeleteCRBList_labeled (env : Env) (st : ClusterState) (username : String) :
    ∀ b ∈ (bestEffortDeleteCRBList env st
        (st.clusterRoleBindings.filter (fun x => x.userLabel == some username))).1.clusterRoleBindings,
      b.userLabel = some username → env.failDelete (ObjRef.crb b.name) = true := by
  intro b hb hlab
  by_contra hfc
  have hf : env.failDelete (ObjRef.crb b.name) = false := by
    cases hx : env.failDelete (ObjRef.crb b.name)
    · rfl
    · exact absurd hx hfc
  obtain ⟨hmem, hdel, _⟩ := bestEffortDeleteCRBList_spec env
    (st.clusterRoleBindings.filter (fun x => x.userLabel == some username)) st
  have hb2 := hmem b hb
  have hbl : b ∈ st.clusterRoleBindings.filter (fun x => x.userLabel == some username) :=
    List.mem_filter.mpr ⟨hb2, by rw [hlab]; simp⟩
  exact hdel b hbl hf b hb rfl

theorem cleanupUserResources_rb_labeled (env : Env) (st : ClusterState) (u : User) :
    ∀ b ∈ (cleanupUserResources env st u).1.roleBindings, b.userLabel = some u.name →
      env.failDelete (ObjRef.rb b.ns b.name) = true := by
  intro b hb hlab
  unfold cleanupUserResources at hb
  simp only [] at hb
  rw [(bestEffortDeleteCRBList_spec env _ _).2.2.2.2.2.2] at hb
  exact bestEffortDeleteRBList_labeled env _ u.name b hb hlab

theorem cleanupUserResources_crb_labeled (env : Env) (st : ClusterState) (u : User) :
    ∀ b ∈ (cleanupUserResources env st u).1.clusterRoleBindings, b.userLabel = some u.name →
      env.failDelete (ObjRef.crb b.name) = true := by
  intro b hb hlab
  unfold cleanupUserResources at hb
  simp only [] at hb
  exact bestEffortDeleteCRBList_labeled env _ u.name b hb hlab

/-- Under a found user marked for deletion with the finalizer present and a
non-empty phase, a pass is exactly: cleanup, then the finalizer-removal
update — and only that update can fail. -/
theorem Reconcile_deletion_path (env : Env) (st0 : ClusterState) (reqName : String) (u : User)
    (hfind : st0.users.find? (fun x => x.name == reqName) = some u)
    (hdel : u.deletionRequested = true)
    (hfin : containsString u.finalizers userFinalizer = true)
    (hph : u.status.phase ≠ "") :
    Reconcile env st0 reqName =
      (if env.failUserUpdate then
        (Outcome.err "failed to remove finalizer", (cleanupUserResources env st0 u).1,
          (cleanupUserResources env st0 u).2)
       else
        (Outcome.ok RequeueSpec.noRequeue,
          putUser (cleanupUserResources env st0 u).1
            { u with finalizers := removeString u.finalizers userFinalizer },
          (cleanupUserResources env st0 u).2 ++ [WriteOp.userUpdate u.name])) := by
  have hph2 : (u.status.phase == "") = false := by
    cases hx : u.status.phase == ""
    · rfl
    · exact absurd (by simpa using hx) hph
  rw [Reconcile, hfind]
  simp only [initStatusStep, hph2, Bool.false_eq_true, if_false, hdel, hfin, if_true,
    List.nil_append]

/-- **C8** (confirmed).  On the deletion path the cleanup deletes the identity
anchor, key secret, kubeconfig secret, signing request and every labelled
binding best-effort: any injected delete failure (and any absence) leaves the
outcome untouched, the outcome depends only on the finalizer-removal user
update; when that update succeeds the finalizer is removed from the stored
user, and every listed resource whose delete was not failed is gone. -/
theorem C8_deletion_best_effort (env : Env) (st0 : ClusterState) (reqName : String) (u : User)
    (hfind : st0.users.find? (fun x => x.name == reqName) = some u)
    (hdel : u.deletionRequested = true)
    (hfin : containsString u.finalizers userFinalizer = true)
    (hph : u.status.phase ≠ "") :
    (env.failUserUpdate = true →
      (Reconcile env st0 reqName).1 = Outcome.err "failed to remove finalizer") ∧
    (env.failUserUpdate = false →
      (Reconcile env st0 reqName).1 = Outcome.ok RequeueSpec.noRequeue ∧
      ∃ u2, (Reconcile env st0 reqName).2.1.users.find? (fun x => x.name == reqName) = some u2 ∧
        containsString u2.finalizers userFinalizer = false) ∧
    (env.failDelete (ObjRef.sa kubeUserNamespace u.name) = false →
      ∀ s ∈ (Reconcile env st0 reqName).2.1.serviceAccounts,
        ¬(s.ns = kubeUserNamespace ∧ s.name = u.name)) ∧
    (env.failDelete (ObjRef.secret kubeUserNamespace (u.name ++ "-key")) = false →
      ∀ s ∈ (Reconcile env st0 reqName).2.1.secrets,
        ¬(s.ns = kubeUserNamespace ∧ s.name = u.name ++ "-key")) ∧
    (env.failDelete (ObjRef.secret kubeUserNamespace (u.name ++ "-kubeconfig")) = false →
      ∀ s ∈ (Reconcile env st0 reqName).2.1.secrets,
        ¬(s.ns = kubeUserNamespace ∧ s.name = u.name ++ "-kubeconfig")) ∧
    (env.failDelete (ObjRef.csr (u.name ++ "-csr")) = false →
      ∀ c ∈ (Reconcile env st0 reqName).2.1.csrs, ¬(c.name = u.name ++ "-csr")) ∧
    (∀ b ∈ (Reconcile env st0 reqName).2.1.roleBindings, b.userLabel = some u.name →
      env.failDelete (ObjRef.rb b.ns b.name) = true) ∧
    (∀ b ∈ (Reconcile env st0 reqName).2.1.clusterRoleBindings, b.userLabel = some u.name →
      env.failDelete (ObjRef.crb b.name) = true) := by
  rw [Reconcile_deletion_path env st0 reqName u hfind hdel hfin hph]
  by_cases hfail : env.failUserUpdate = true
  · rw [if_pos hfail]
    refine ⟨fun _ => rfl, fun hcontra => absurd hfail (by rw [hcontra]; decide), ?_, ?_, ?_, ?_, ?_, ?_⟩
    · exact fun hf => cleanupUserResources_sa_gone env st0 u hf
    · exact fun hf => cleanupUserResources_key_gone env st0 u hf
    · exact fun hf => cleanupUserResources_cfg_gone env st0 u hf
    · exact fun hf => cleanupUserResources_csr_gone env st0 u hf
    · exact cleanupUserResources_rb_labeled env st0 u
    · exact cleanupUserResources_crb_labeled env st0 u
  · rw [if_neg hfail]
    refine ⟨fun h => absurd h hfail, fun _ => ⟨rfl, ?_⟩, ?_, ?_, ?_, ?_, ?_, ?_⟩
    · refine ⟨_, putUser_find? _ _ reqName u ?_ rfl, ?_⟩
      · show (cleanupUserResources env st0 u).1.users.find? (fun x => x.name == reqName) = some u
        rw [cleanupUserResources_users]
        exact hfind
      · exact containsString_removeString u.finalizers userFinalizer
    · exact fun hf => cleanupUserResources_sa_gone env st0 u hf
    · exact fun hf => cleanupUserResources_key_gone env st0 u hf
    · exact fun hf => cleanupUserResources_cfg_gone env st0 u hf
    · exact fun hf => cleanupUserResources_csr_gone env st0 u hf
    · exact cleanupUserResources_rb_labeled env st0 u
    · exact cleanupUserResources_crb_labeled env st0 u

def c8User : User :=
  { name := "u", finalizers := [userFinalizer], deletionRequested := true,
    spec := { roles := [], clusterRoles := [] },
    status := { expiryTime := ExpiryStr.empty, certificateExpiry := "", phase := "Active",
                message := "", conditions := [] } }

def c8RB : RoleBinding :=
  { name := "u-r-rb", ns := "dev", userLabel := some "u",
    subjects := [{ apiGroup := "", kind := "User", name := "u", ns := "" }],
    roleRef := { apiGroup := "rbac.authorization.k8s.io", kind := "Role", name := "r" } }

def c8State : ClusterState :=
  { users := [c8User], namespaces := [kubeUserNamespace], roles := [], clusterRoles := [],
    roleBindings := [c8RB],
    clusterRoleBindings := [],
    serviceAccounts := [{ name := "u", ns := kubeUserNamespace, userLabel := some "u" }],
    secrets := [{ name := "u-key", ns := kubeUserNamespace,
                  data := [("key.pem", Data.pem "RSA PRIVATE KEY" (Data.derKey 1))] }],
    csrs := [{ name := "u-csr", userLabel := some "u",
               request := Data.pem "CERTIFICATE REQUEST" (Data.derCSR "u" 1),
               conditions := [], certificate := none }],
    configMaps := [] }

/-- Witness for C8 at a concrete deleting user with resources present. -/
theorem C8_deletion_best_effort_witness :
    (envNoFail.failUserUpdate = false →
      (Reconcile envNoFail c8State "u").1 = Outcome.ok RequeueSpec.noRequeue ∧
      ∃ u2, (Reconcile envNoFail c8State "u").2.1.users.find? (fun x => x.name == "u") = some u2 ∧
        containsString u2.finalizers userFinalizer = false) ∧
    (envNoFail.failDelete (ObjRef.secret kubeUserNamespace ("u" ++ "-key")) = false →
      ∀ s ∈ (Reconcile envNoFail c8State "u").2.1.secrets,
        ¬(s.ns = kubeUserNamespace ∧ s.name = "u" ++ "-key")) ∧
    (∀ b ∈ (Reconcile envNoFail c8State "u").2.1.roleBindings, b.userLabel = some "u" →
      envNoFail.failDelete (ObjRef.rb b.ns b.name) = true) :=
  (fun full => ⟨full.2.1, full.2.2.2.1, full.2.2.2.2.2.2.1⟩)
    (C8_deletion_best_effort envNoFail c8State "u" c8User (by decide) (by decide)
      (by decide) (by decide))

/-! ### Equation lemmas for the normal-path branches -/

/-- The ClusterRoleBindings-error branch of the normal path. -/
theorem reconcileNormal_crbError (env : Env) (st2 : ClusterState) (u2 : User)
    (rbs1 : List RoleBinding) (logRB : List WriteOp)
    (e : String) (crbs1 : List ClusterRoleBinding) (logCRB : List WriteOp)
    (hrb : reconcileRoleBindings env u2.name u2.spec.roles
      (ensureSAStep (ensureNamespaceStep st2).1 u2.name).1.roles
      (ensureSAStep (ensureNamespaceStep st2).1 u2.name).1.roleBindings =
      (Except.ok (), rbs1, logRB))
    (hcrb : reconcileClusterRoleBindings env u2.name u2.spec.clusterRoles
      (ensureSAStep (ensureNamespaceStep st2).1 u2.name).1.clusterRoles
      (ensureSAStep (ensureNamespaceStep st2).1 u2.name).1.clusterRoleBindings =
      (Except.error e, crbs1, logCRB)) :
    reconcileNormal env st2 u2 =
      (Outcome.err e,
       putUser { (ensureSAStep (ensureNamespaceStep st2).1 u2.name).1 with
                 roleBindings := rbs1, clusterRoleBindings := crbs1 }
         { u2 with status := { u2.status with phase := "Error", message := "Failed to reconcile ClusterRoleBindings: " ++ e } },
       (((ensureNamespaceStep st2).2 ++ (ensureSAStep (ensureNamespaceStep st2).1 u2.name).2) ++
         logRB) ++ logCRB ++ [WriteOp.statusUpdate u2.name]) := by
  simp only [reconcileNormal, hrb, hcrb]

/-- The fully successful binding phase of the normal path: the pass continues
into the certificate stage on the updated store. -/
theorem reconcileNormal_ok (env : Env) (st2 : ClusterState) (u2 : User)
    (rbs1 : List RoleBinding) (logRB : List WriteOp)
    (crbs1 : List ClusterRoleBinding) (logCRB : List WriteOp)
    (hrb : reconcileRoleBindings env u2.name u2.spec.roles
      (ensureSAStep (ensureNamespaceStep st2).1 u2.name).1.roles
      (ensureSAStep (ensureNamespaceStep st2).1 u2.name).1.roleBindings =
      (Except.ok (), rbs1, logRB))
    (hcrb : reconcileClusterRoleBindings env u2.name u2.spec.clusterRoles
      (ensureSAStep (ensureNamespaceStep st2).1 u2.name).1.clusterRoles
      (ensureSAStep (ensureNamespaceStep st2).1 u2.name).1.clusterRoleBindings =
      (Except.ok (), crbs1, logCRB)) :
    reconcileNormal env st2 u2 =
      (match ensureCertKubeconfig env
          (putUser { (ensureSAStep (ensureNamespaceStep st2).1 u2.name).1 with
                     roleBindings := rbs1, clusterRoleBindings := crbs1 }
            (updateUserStatusPure env.now u2))
          (updateUserStatusPure env.now u2) with
       | (Except.error _, _, st8, logC) =>
         (Outcome.ok (RequeueSpec.after 5), st8,
          ((((ensureNamespaceStep st2).2 ++ (ensureSAStep (ensureNamespaceStep st2).1 u2.name).2) ++
            logRB) ++ logCRB ++ [WriteOp.statusUpdate (updateUserStatusPure env.now u2).name]) ++ logC)
       | (Except.ok true, _, st8, logC) =>
         (Outcome.ok (RequeueSpec.after 3), st8,
          ((((ensureNamespaceStep st2).2 ++ (ensureSAStep (ensureNamespaceStep st2).1 u2.name).2) ++
            logRB) ++ logCRB ++ [WriteOp.statusUpdate (updateUserStatusPure env.now u2).name]) ++ logC)
       | (Except.ok false, u4, st8, logC) =>
         ((reconcileTail env st8 u4).1, (reconcileTail env st8 u4).2.1,
          (((((ensureNamespaceStep st2).2 ++ (ensureSAStep (ensureNamespaceStep st2).1 u2.name).2) ++
            logRB) ++ logCRB ++ [WriteOp.statusUpdate (updateUserStatusPure env.now u2).name]) ++ logC) ++
            (reconcileTail env st8 u4).2.2)) := by
  simp only [reconcileNormal, hrb, hcrb]

/-! ### Write-log classification -/

def isRBWrite : WriteOp → Bool
  | WriteOp.rbCreate _ _ => true
  | WriteOp.rbUpdate _ _ => true
  | WriteOp.rbDelete _ _ => true
  | _ => false

def isCRBWrite : WriteOp → Bool
  | WriteOp.crbCreate _ => true
  | WriteOp.crbUpdate _ => true
  | WriteOp.crbDelete _ => true
  | _ => false

theorem applyDesiredRBs_log (username : String) :
    ∀ (ds : List (String × RoleSpec)) (rbs : List RoleBinding)
      (m : List (String × RoleBinding)) (log : List WriteOp),
    (∀ w ∈ log, isRBWrite w = true) →
    ∀ w ∈ (applyDesiredRBs username ds rbs m log).2.2.2, isRBWrite w = true := by
  intro ds
  induction ds with
  | nil => intro rbs m log hlog w hw; exact hlog w hw
  | cons kv rest ih =>
    intro rbs m log hlog w hw
    obtain ⟨k, spec⟩ := kv
    rw [applyDesiredRBs] at hw
    split at hw
    · split at hw
      · exact ih _ _ _ hlog w hw
      · split at hw
        · refine ih _ _ _ ?_ w hw
          intro x hx
          rcases List.mem_append.mp hx with hx1 | hx2
          · exact hlog x hx1
          · rw [List.mem_singleton.mp hx2]
            rfl
        · exact hlog w hw
    · split at hw
      · exact hlog w hw
      · refine ih _ _ _ ?_ w hw
        intro x hx
        rcases List.mem_append.mp hx with hx1 | hx2
        · exact hlog x hx1
        · rw [List.mem_singleton.mp hx2]
          rfl

theorem deleteLeftoverRBs_log (env : Env) :
    ∀ (m : List (String × RoleBinding)) (rbs : List RoleBinding) (log : List WriteOp),
    (∀ w ∈ log, isRBWrite w = true) →
    ∀ w ∈ (deleteLeftoverRBs env m rbs log).2.2, isRBWrite w = true := by
  intro m
  induction m with
  | nil => intro rbs log hlog w hw; exact hlog w hw
  | cons kv rest ih =>
    intro rbs log hlog w hw
    obtain ⟨k, rb⟩ := kv
    rw [deleteLeftoverRBs] at hw
    by_cases hf : env.failDelete (ObjRef.rb rb.ns rb.name) = true
    · rw [if_pos hf] at hw
      exact hlog w hw
    · rw [if_neg hf] at hw
      refine ih _ _ ?_ w hw
      intro x hx
      rcases List.mem_append.mp hx with hx1 | hx2
      · exact hlog x hx1
      · rw [List.mem_singleton.mp hx2]
        rfl

theorem reconcileRoleBindings_log (env : Env) (username : String) (specRoles : List RoleSpec)
    (roles : List (String × String)) (rbs : List RoleBinding) :
    ∀ w ∈ (reconcileRoleBindings env username specRoles roles rbs).2.2,
      isRBWrite w = true := by
  intro w hw
  rw [reconcileRoleBindings] at hw
  cases hb : buildDesiredRBs roles specRoles [] with
  | error e =>
    rw [hb] at hw
    exact absurd hw (List.not_mem_nil w)
  | ok desired =>
    rw [hb] at hw
    simp only [] at hw
    rcases happ : applyDesiredRBs username desired rbs (buildExistingRBMap
      (rbs.filter (fun b => b.userLabel == some username))) [] with ⟨res, rbs1, m1, log1⟩
    rw [happ] at hw
    have hlog1 : ∀ x ∈ log1, isRBWrite x = true := by
      intro x hx
      have := applyDesiredRBs_log username desired rbs (buildExistingRBMap
        (rbs.filter (fun b => b.userLabel == some username))) [] (by intro y hy; simp at hy) x
      rw [happ] at this
      exact this hx
    cases res with
    | error e => exact hlog1 w hw
    | ok unitv =>
      exact deleteLeftoverRBs_log env m1 rbs1 log1 hlog1 w hw

theorem applyDesiredCRBs_log (username : String) :
    ∀ (ds : List (String × ClusterRoleSpec)) (crbs : List ClusterRoleBinding)
      (m : List (String × ClusterRoleBinding)) (log : List WriteOp),
    (∀ w ∈ log, isCRBWrite w = true) →
    ∀ w ∈ (applyDesiredCRBs username ds crbs m log).2.2.2, isCRBWrite w = true := by
  intro ds
  induction ds with
  | nil => intro crbs m log hlog w hw; exact hlog w hw
  | cons kv rest ih =>
    intro crbs m log hlog w hw
    obtain ⟨k, spec⟩ := kv
    rw [applyDesiredCRBs] at hw
    split at hw
    · split at hw
      · exact ih _ _ _ hlog w hw
      · split at hw
        · refine ih _ _ _ ?_ w hw
          intro x hx
          rcases List.mem_append.mp hx with hx1 | hx2
          · exact hlog x hx1
          · rw [List.mem_singleton.mp hx2]
            rfl
        · exact hlog w hw
    · split at hw
      · exact hlog w hw
      · refine ih _ _ _ ?_ w hw
        intro x hx
        rcases List.mem_append.mp hx with hx1 | hx2
        · exact hlog x hx1
        · rw [List.mem_singleton.mp hx2]
          rfl

theorem deleteLeftoverCRBs_log (env : Env) :
    ∀ (m : List (String × ClusterRoleBinding)) (crbs : List ClusterRoleBinding)
      (log : List WriteOp),
    (∀ w ∈ log, isCRBWrite w = true) →
    ∀ w ∈ (deleteLeftoverCRBs env m crbs log).2.2, isCRBWrite w = true := by
  intro m
  induction m with
  | nil => intro crbs log hlog w hw; exact hlog w hw
  | cons kv rest ih =>
    intro crbs log hlog w hw
    obtain ⟨k, crb⟩ := kv
    rw [deleteLeftoverCRBs] at hw
    by_cases hf : env.failDelete (ObjRef.crb crb.name) = true
    · rw [if_pos hf] at hw
      exact hlog w hw
    · rw [if_neg hf] at hw
      refine ih _ _ ?_ w hw
      intro x hx
      rcases List.mem_append.mp hx with hx1 | hx2
      · exact hlog x hx1
      · rw [List.mem_singleton.mp hx2]
        rfl

theorem reconcileClusterRoleBindings_log (env : Env) (username : String)
    (specClusterRoles : List ClusterRoleSpec) (clusterRoles : List String)
    (crbs : List ClusterRoleBinding) :
    ∀ w ∈ (reconcileClusterRoleBindings env username specClusterRoles clusterRoles crbs).2.2,
      isCRBWrite w = true := by
  intro w hw
  rw [reconcileClusterRoleBindings] at hw
  cases hb : buildDesiredCRBs clusterRoles specClusterRoles [] with
  | error e =>
    rw [hb] at hw
    exact absurd hw (List.not_mem_nil w)
  | ok desired =>
    rw [hb] at hw
    simp only [] at hw
    rcases happ : applyDesiredCRBs username desired crbs (buildExistingCRBMap
      (crbs.filter (fun b => b.userLabel == some username))) [] with ⟨res, crbs1, m1, log1⟩
    rw [happ] at hw
    have hlog1 : ∀ x ∈ log1, isCRBWrite x = true := by
      intro x hx
      have := applyDesiredCRBs_log username desired crbs (buildExistingCRBMap
        (crbs.filter (fun b => b.userLabel == some username))) [] (by intro y hy; simp at hy) x
      rw [happ] at this
      exact this hx
    cases res with
    | error e => exact hlog1 w hw
    | ok unitv =>
      exact deleteLeftoverCRBs_log env m1 crbs1 log1 hlog1 w hw

/-! ### C7: at most one live signing request -/

theorem String_append_ne (a : String) {b c : String} (h : b ≠ c) : a ++ b ≠ a ++ c := by
  intro he
  apply h
  have hd := congrArg String.data he
  rw [String.data_append, String.data_append] at hd
  have h2 := List.append_cancel_left hd
  cases b with
  | mk db =>
    cases c with
    | mk dc =>
      exact congrArg String.mk (show db = dc from h2)

theorem find?_append_singleton_none {α : Type} (p : α → Bool) (l : List α) (x : α)
    (h1 : l.find? p = none) (h2 : p x = false) : (l ++ [x]).find? p = none := by
  rw [List.find?_append, h1, Option.none_or, List.find?]
  rw [h2]
  rfl

theorem length_filter_map_eq {α : Type} (f : α → α) (p : α → Bool) (l : List α)
    (h : ∀ x ∈ l, p (f x) = p x) : ((l.map f).filter p).length = (l.filter p).length := by
  induction l with
  | nil => rfl
  | cons a rest ih =>
    rw [List.map_cons, List.filter_cons, List.filter_cons,
      h a (List.mem_cons_self a rest)]
    by_cases hp : p a = true
    · rw [if_pos hp, if_pos hp, List.length_cons, List.length_cons,
        ih (fun x hx => h x (List.mem_cons_of_mem a hx))]
    · rw [if_neg hp, if_neg hp, ih (fun x hx => h x (List.mem_cons_of_mem a hx))]

/-- While the kubeconfig secret is absent and the signing request exists but
is not yet signed, the credential stage never creates a signing request and
leaves the number of requests of the controller's name unchanged. -/
theorem ensureCertKubeconfig_pending (env : Env) (st : ClusterState) (u : User) (csr : CSR)
    (hcfg : findSecret st kubeUserNamespace (u.name ++ "-kubeconfig") = none)
    (hcsr : findCSR st (u.name ++ "-csr") = some csr)
    (hpend : csr.certificate = none) :
    (∀ w ∈ (ensureCertKubeconfig env st u).2.2.2, ∀ n, ¬ w = WriteOp.csrCreate n) ∧
    ((ensureCertKubeconfig env st u).2.2.1.csrs.filter
        (fun c => c.name == u.name ++ "-csr")).length =
      (st.csrs.filter (fun c => c.name == u.name ++ "-csr")).length ∧
    ¬ (ensureCertKubeconfig env st u).1 = Except.ok false := by
  have hrot : checkCertificateRotation env st (u.name ++ "-kubeconfig") (30 * 24 * 3600) =
      Except.ok false := by
    rw [checkCertificateRotation, hcfg]
  have hcsrname : (csr.name == u.name ++ "-csr") = true := by
    have := List.find?_some hcsr
    simpa using this
  cases hkey : findSecret st kubeUserNamespace (u.name ++ "-key") with
  | some ks =>
    cases hck : csrFromKey u.name ((lookupKV ks.data "key.pem").getD (Data.raw "")) with
    | error e =>
      simp only [ensureCertKubeconfig, hrot, hkey, hcfg, hck, Bool.false_eq_true, if_false]
      exact ⟨fun w hw => absurd hw (List.not_mem_nil w), trivial, by simp⟩
    | ok csrPEM =>
      by_cases happr : csr.conditions.any (fun c => c.condType == "Approved" && c.status == "True") = true
      · simp only [ensureCertKubeconfig, hrot, hkey, hcfg, hck, hcsr, happr, hpend,
          Bool.not_true, Bool.false_eq_true, if_false]
        exact ⟨fun w hw => absurd hw (List.not_mem_nil w), trivial, by simp⟩
      · have happr2 : csr.conditions.any (fun c => c.condType == "Approved" && c.status == "True") = false := by
          cases hx : csr.conditions.any (fun c => c.condType == "Approved" && c.status == "True")
          · rfl
          · exact absurd hx happr
        simp only [ensureCertKubeconfig, hrot, hkey, hcfg, hck, hcsr, happr2,
          Bool.not_false, if_true, Bool.false_eq_true, if_false]
        refine ⟨?_, ?_, by simp⟩
        · intro w hw n
          rcases List.mem_append.mp hw with hw1 | hw2
          · exact absurd hw1 (List.not_mem_nil w)
          · rw [List.mem_singleton.mp hw2]
            intro hcontra
            exact absurd hcontra (by simp)
        · refine length_filter_map_eq _ _ _ ?_
          intro c hc
          by_cases hcn : (c.name == u.name ++ "-csr") = true
          · rw [if_pos hcn, hcn]
            exact hcsrname
          · have hcn2 : (c.name == u.name ++ "-csr") = false := by
              cases hx : c.name == u.name ++ "-csr"
              · rfl
              · exact absurd hx hcn
            rw [if_neg hcn, hcn2]
  | none =>
    have hcfg2 : findSecret { st with secrets := st.secrets ++
        [{ name := u.name ++ "-key", ns := kubeUserNamespace,
           data := [("key.pem", Data.pem "RSA PRIVATE KEY" (Data.derKey env.freshKeyId))] }] }
        kubeUserNamespace (u.name ++ "-kubeconfig") = none := by
      refine find?_append_singleton_none _ _ _ hcfg ?_
      have hne : u.name ++ "-key" ≠ u.name ++ "-kubeconfig" :=
        String_append_ne u.name (by decide)
      simp [hne]
    have hcsr2 : findCSR { st with secrets := st.secrets ++
        [{ name := u.name ++ "-key", ns := kubeUserNamespace,
           data := [("key.pem", Data.pem "RSA PRIVATE KEY" (Data.derKey env.freshKeyId))] }] }
        (u.name ++ "-csr") = some csr := hcsr
    cases hck : csrFromKey u.name (Data.pem "RSA PRIVATE KEY" (Data.derKey env.freshKeyId)) with
    | error e =>
      simp only [ensureCertKubeconfig, hrot, hkey, hcfg2, hck, Bool.false_eq_true, if_false]
      refine ⟨?_, trivial, by simp⟩
      intro w hw n
      have hw2 : w = WriteOp.secretCreate kubeUserNamespace (u.name ++ "-key") := by
        simpa using hw
      rw [hw2]
      simp
    | ok csrPEM =>
      by_cases happr : csr.conditions.any (fun c => c.condType == "Approved" && c.status == "True") = true
      · simp only [ensureCertKubeconfig, hrot, hkey, hcfg2, hcsr2, hck, happr, hpend,
          Bool.not_true, Bool.false_eq_true, if_false]
        refine ⟨?_, trivial, by simp⟩
        intro w hw n
        have hw2 : w = WriteOp.secretCreate kubeUserNamespace (u.name ++ "-key") := by
          simpa using hw
        rw [hw2]
        simp
      · have happr2 : csr.conditions.any (fun c => c.condType == "Approved" && c.status == "True") = false := by
          cases hx : csr.conditions.any (fun c => c.condType == "Approved" && c.status == "True")
          · rfl
          · exact absurd hx happr
        simp only [ensureCertKubeconfig, hrot, hkey, hcfg2, hcsr2, hck, happr2,
          Bool.not_false, if_true, Bool.false_eq_true, if_false]
        refine ⟨?_, ?_, by simp⟩
        · intro w hw n
          have hw2 : w = WriteOp.secretCreate kubeUserNamespace (u.name ++ "-key") ∨
              w = WriteOp.csrApprove (u.name ++ "-csr") := by
            rcases List.mem_append.mp hw with hw1 | hw2
            · exact Or.inl (by simpa using hw1)
            · exact Or.inr (List.mem_singleton.mp hw2)
          rcases hw2 with rfl | rfl
          · simp
          · simp
        · refine length_filter_map_eq _ _ _ ?_
          intro c hc
          by_cases hcn : (c.name == u.name ++ "-csr") = true
          · rw [if_pos hcn, hcn]
            exact hcsrname
          · have hcn2 : (c.name == u.name ++ "-csr") = false := by
              cases hx : c.name == u.name ++ "-csr"
              · rfl
              · exact absurd hx hcn
            rw [if_neg hcn, hcn2]

/-- `updateUserStatus` never changes the user's name. -/
theorem updateUserStatusPure_name (now : Int) (u : User) :
    (updateUserStatusPure now u).name = u.name := by
  rw [updateUserStatusPure]
  have h2 : ∀ v : User, (projectCondition now v).name = v.name := fun v => rfl
  rw [h2, projectPhase]
  split
  · rfl
  · rfl
  · split
    · rfl
    · rfl

theorem isRBWrite_not_csrCreate (w : WriteOp) (h : isRBWrite w = true) :
    ∀ n, ¬ w = WriteOp.csrCreate n := by
  intro n he
  rw [he] at h
  simp [isRBWrite] at h

theorem isCRBWrite_not_csrCreate (w : WriteOp) (h : isCRBWrite w = true) :
    ∀ n, ¬ w = WriteOp.csrCreate n := by
  intro n he
  rw [he] at h
  simp [isCRBWrite] at h

theorem length_filter_filter_le {α : Type} (p q : α → Bool) (l : List α) :
    ((l.filter q).filter p).length ≤ (l.filter p).length := by
  have h1 : List.Sublist (l.filter q) l := List.filter_sublist l
  exact (h1.filter p).length_le

theorem filter_eq_nil_of_find?_none {α : Type} (p : α → Bool) (l : List α)
    (h : l.find? p = none) : l.filter p = [] :=
  List.filter_eq_nil_iff.mpr (List.find?_eq_none.mp h)

theorem findSecret_congr (st st' : ClusterState) (ns name name' : String)
    (h1 : st'.secrets = st.secrets) (h2 : name' = name) :
    findSecret st' ns name' = findSecret st ns name := by
  rw [findSecret, findSecret, h1, h2]

theorem findCSR_congr (st st' : ClusterState) (name name' : String)
    (h1 : st'.csrs = st.csrs) (h2 : name' = name) :
    findCSR st' name' = findCSR st name := by
  rw [findCSR, findCSR, h1, h2]

/-- The expiry tail never touches the signing requests. -/
theorem reconcileTail_csrs (env : Env) (st : ClusterState) (u : User) :
    (reconcileTail env st u).2.1.csrs = st.csrs := by
  rw [reconcileTail]
  split
  · split
    · split
      · rfl
      · split
        · rfl
        · rfl
    · rfl
    · rfl
  · rfl

theorem bestEffortDeleteRBList_csrs (env : Env) :
    ∀ (l : List RoleBinding) (st : ClusterState),
      (bestEffortDeleteRBList env st l).1.csrs = st.csrs := by
  intro l
  induction l with
  | nil => intro st; rfl
  | cons rb rest ih =>
    intro st
    simp only [bestEffortDeleteRBList]
    split
    · exact ih st
    · exact ih _

theorem bestEffortDeleteCRBList_csrs (env : Env) :
    ∀ (l : List ClusterRoleBinding) (st : ClusterState),
      (bestEffortDeleteCRBList env st l).1.csrs = st.csrs := by
  intro l
  induction l with
  | nil => intro st; rfl
  | cons crb rest ih =>
    intro st
    simp only [bestEffortDeleteCRBList]
    split
    · exact ih st
    · exact ih _

/-- A best-effort CSR delete can only shrink the requests of any name. -/
theorem bestEffortDeleteCSR_csr_le (env : Env) (st : ClusterState) (name n : String) :
    ((bestEffortDeleteCSR env st name).1.csrs.filter (fun c => c.name == n)).length ≤
      (st.csrs.filter (fun c => c.name == n)).length := by
  rw [bestEffortDeleteCSR]
  split
  · exact Nat.le_refl _
  · exact length_filter_filter_le _ _ _

/-- The deletion-path cleanup can only shrink the requests of any name. -/
theorem cleanupUserResources_csr_le (env : Env) (st : ClusterState) (u : User) (n : String) :
    ((cleanupUserResources env st u).1.csrs.filter (fun c => c.name == n)).length ≤
      (st.csrs.filter (fun c => c.name == n)).length := by
  simp only [cleanupUserResources]
  rw [bestEffortDeleteCRBList_csrs, bestEffortDeleteRBList_csrs]
  have h3 := (bestEffortDeleteSecret_fields env
    (bestEffortDeleteSecret env (bestEffortDeleteSA env st kubeUserNamespace u.name).1
      kubeUserNamespace (u.name ++ "-key")).1
    kubeUserNamespace (u.name ++ "-kubeconfig")).2.2.1
  have h2 := (bestEffortDeleteSecret_fields env
    (bestEffortDeleteSA env st kubeUserNamespace u.name).1
    kubeUserNamespace (u.name ++ "-key")).2.2.1
  have h1 := (bestEffortDeleteSA_fields env st kubeUserNamespace u.name).2.2.1
  refine le_trans (bestEffortDeleteCSR_csr_le env _ _ n) (le_of_eq ?_)
  rw [h3, h2, h1]

/-- The rotation cleanup can only shrink the requests of any name. -/
theorem cleanupCertificateResources_csr_le (env : Env) (st : ClusterState)
    (cfgSecretName csrName n : String) :
    ((cleanupCertificateResources env st cfgSecretName csrName).2.1.csrs.filter
        (fun c => c.name == n)).length ≤
      (st.csrs.filter (fun c => c.name == n)).length := by
  simp only [cleanupCertificateResources]
  split
  · split
    · exact Nat.le_refl _
    · split
      · split
        · exact Nat.le_refl _
        · exact length_filter_filter_le _ _ _
      · exact Nat.le_refl _
  · split
    · split
      · exact Nat.le_refl _
      · exact length_filter_filter_le _ _ _
    · exact Nat.le_refl _


/-- The credential stage keeps at most one signing request of any name:
each branch leaves the requests unchanged, shrinks them (rotation cleanup),
rewrites one in place (approval), or appends one only after observing that
none of that name exists. -/
theorem ensureCertKubeconfig_csr_le (env : Env) (st : ClusterState) (u : User) (n : String)
    (h : (st.csrs.filter (fun c => c.name == n)).length ≤ 1) :
    ((ensureCertKubeconfig env st u).2.2.1.csrs.filter (fun c => c.name == n)).length ≤ 1 := by
  simp only [ensureCertKubeconfig]
  split
  · exact h
  · split
    · rename_i st1 log1 heq
      have hst1 : (st1.csrs.filter (fun c => c.name == n)).length ≤ 1 := by
        split at heq
        · have hc := cleanupCertificateResources_csr_le env st (u.name ++ "-kubeconfig")
            (u.name ++ "-csr") n
          rw [heq] at hc
          exact le_trans hc h
        · simp at heq
      exact hst1
    · rename_i st1 log1 heq
      have hst1 : (st1.csrs.filter (fun c => c.name == n)).length ≤ 1 := by
        split at heq
        · have hc := cleanupCertificateResources_csr_le env st (u.name ++ "-kubeconfig")
            (u.name ++ "-csr") n
          rw [heq] at hc
          exact le_trans hc h
        · have hst : st = st1 := congrArg (fun y => y.2.1) heq
          rw [← hst]
          exact h
      clear heq h
      cases hkey : findSecret st1 kubeUserNamespace (u.name ++ "-key") with
      | some ks =>
        simp only []
        split
        · exact hst1
        · split
          · exact hst1
          · split
            · rename_i heq2
              cases hnn : (u.name ++ "-csr" : String) == n with
              | true =>
                have hEq : u.name ++ "-csr" = n := by simpa using hnn
                have hnil : st1.csrs.filter (fun c => c.name == n) = [] := by
                  refine filter_eq_nil_of_find?_none _ _ ?_
                  rw [← hEq]
                  exact heq2
                simp only [List.filter_append, hnil, List.nil_append, List.filter_cons,
                  List.filter_nil, hnn, if_true]
                simp
              | false =>
                simp only [List.filter_append, List.filter_cons, List.filter_nil, hnn,
                  Bool.false_eq_true, if_false, List.append_nil]
                exact hst1
            · rename_i csr0 heq2
              split
              · refine le_trans (le_of_eq (length_filter_map_eq _ _ _ ?_)) hst1
                intro x hx
                by_cases hxn : (x.name == u.name ++ "-csr") = true
                · rw [if_pos hxn]
                  have hx1 : x.name = u.name ++ "-csr" := by simpa using hxn
                  have hc0 : (csr0.name == u.name ++ "-csr") = true := by
                    simpa using List.find?_some heq2
                  have hc1 : csr0.name = u.name ++ "-csr" := by simpa using hc0
                  show (csr0.name == n) = (x.name == n)
                  rw [hc1, hx1]
                · rw [if_neg hxn]
              · split
                · exact hst1
                · split
                  · exact hst1
                  · split
                    · exact hst1
                    · split
                      · exact hst1
                      · exact hst1
      | none =>
        simp only []
        split
        · exact hst1
        · split
          · exact hst1
          · split
            · rename_i heq2
              cases hnn : (u.name ++ "-csr" : String) == n with
              | true =>
                have hEq : u.name ++ "-csr" = n := by simpa using hnn
                have hnil : st1.csrs.filter (fun c => c.name == n) = [] := by
                  refine filter_eq_nil_of_find?_none _ _ ?_
                  rw [← hEq]
                  exact heq2
                simp only [List.filter_append, hnil, List.nil_append, List.filter_cons,
                  List.filter_nil, hnn, if_true]
                simp
              | false =>
                simp only [List.filter_append, List.filter_cons, List.filter_nil, hnn,
                  Bool.false_eq_true, if_false, List.append_nil]
                exact hst1
            · rename_i csr0 heq2
              split
              · refine le_trans (le_of_eq (length_filter_map_eq _ _ _ ?_)) hst1
                intro x hx
                by_cases hxn : (x.name == u.name ++ "-csr") = true
                · rw [if_pos hxn]
                  have hx1 : x.name = u.name ++ "-csr" := by simpa using hxn
                  have hc0 : (csr0.name == u.name ++ "-csr") = true := by
                    simpa using List.find?_some heq2
                  have hc1 : csr0.name = u.name ++ "-csr" := by simpa using hc0
                  show (csr0.name == n) = (x.name == n)
                  rw [hc1, hx1]
                · rw [if_neg hxn]
              · split
                · exact hst1
                · split
                  · exact hst1
                  · split
                    · exact hst1
                    · split
                      · exact hst1
                      · exact hst1

theorem ensureCertKubeconfig_csr_le2 (env : Env) (st : ClusterState) (u : User) (n : String)
    (res : Except String Bool) (u4 : User) (st8 : ClusterState) (logC : List WriteOp)
    (heq : ensureCertKubeconfig env st u = (res, u4, st8, logC))
    (h : (st.csrs.filter (fun c => c.name == n)).length ≤ 1) :
    (st8.csrs.filter (fun c => c.name == n)).length ≤ 1 := by
  have hc := ensureCertKubeconfig_csr_le env st u n h
  rw [heq] at hc
  exact hc

/-- `ensureCertKubeconfig_pending` routed through an equation on the result. -/
theorem ensureCertKubeconfig_pending2 (env : Env) (st : ClusterState) (u : User) (csr : CSR)
    (res : Except String Bool) (u4 : User) (st8 : ClusterState) (logC : List WriteOp)
    (heq : ensureCertKubeconfig env st u = (res, u4, st8, logC))
    (hcfg : findSecret st kubeUserNamespace (u.name ++ "-kubeconfig") = none)
    (hcsr : findCSR st (u.name ++ "-csr") = some csr)
    (hpend : csr.certificate = none) :
    (∀ w ∈ logC, ∀ n, ¬ w = WriteOp.csrCreate n) ∧
    (st8.csrs.filter (fun c => c.name == u.name ++ "-csr")).length =
      (st.csrs.filter (fun c => c.name == u.name ++ "-csr")).length ∧
    ¬ res = Except.ok false := by
  have hp := ensureCertKubeconfig_pending env st u csr hcfg hcsr hpend
  rw [heq] at hp
  exact hp

/-- The normal path keeps at most one signing request of any name. -/
theorem reconcileNormal_csr_le (env : Env) (st2 : ClusterState) (u2 : User) (n : String)
    (h : (st2.csrs.filter (fun c => c.name == n)).length ≤ 1) :
    ((reconcileNormal env st2 u2).2.1.csrs.filter (fun c => c.name == n)).length ≤ 1 := by
  have hns := (ensureNamespaceStep_fields st2).2.2.2.2.2.2.2.1
  have hsa := (ensureSAStep_fields (ensureNamespaceStep st2).1 u2.name).2.2.2.2.2.2.2.1
  simp only [reconcileNormal]
  split
  · show ((ensureSAStep (ensureNamespaceStep st2).1 u2.name).1.csrs.filter
        (fun c => c.name == n)).length ≤ 1
    rw [hsa, hns]
    exact h
  · split
    · show ((ensureSAStep (ensureNamespaceStep st2).1 u2.name).1.csrs.filter
          (fun c => c.name == n)).length ≤ 1
      rw [hsa, hns]
      exact h
    · split
      · rename_i heq3
        refine ensureCertKubeconfig_csr_le2 env _ _ n _ _ _ _ heq3 ?_
        show ((ensureSAStep (ensureNamespaceStep st2).1 u2.name).1.csrs.filter
            (fun c => c.name == n)).length ≤ 1
        rw [hsa, hns]
        exact h
      · rename_i heq3
        refine ensureCertKubeconfig_csr_le2 env _ _ n _ _ _ _ heq3 ?_
        show ((ensureSAStep (ensureNamespaceStep st2).1 u2.name).1.csrs.filter
            (fun c => c.name == n)).length ≤ 1
        rw [hsa, hns]
        exact h
      · rename_i heq3
        rw [reconcileTail_csrs]
        refine ensureCertKubeconfig_csr_le2 env _ _ n _ _ _ _ heq3 ?_
        show ((ensureSAStep (ensureNamespaceStep st2).1 u2.name).1.csrs.filter
            (fun c => c.name == n)).length ≤ 1
        rw [hsa, hns]
        exact h

/-- A full pass keeps at most one signing request of any name. -/
theorem Reconcile_csr_le (env : Env) (st0 : ClusterState) (reqName n : String)
    (h : (st0.csrs.filter (fun c => c.name == n)).length ≤ 1) :
    ((Reconcile env st0 reqName).2.1.csrs.filter (fun c => c.name == n)).length ≤ 1 := by
  simp only [Reconcile]
  split
  · exact h
  · rename_i u0 hfind
    have hinitc : ((initStatusStep st0 u0).2.1.csrs.filter (fun c => c.name == n)).length ≤ 1 := by
      have hinit : (initStatusStep st0 u0).2.1.csrs = st0.csrs := by
        rw [initStatusStep]
        split
        · rfl
        · rfl
      rw [hinit]
      exact h
    split
    · split
      · split
        · exact le_trans (cleanupUserResources_csr_le env _ _ n) hinitc
        · exact le_trans (cleanupUserResources_csr_le env _ _ n) hinitc
      · exact hinitc
    · split
      · exact hinitc
      · split
        · exact reconcileNormal_csr_le env _ _ n hinitc
        · exact reconcileNormal_csr_le env _ _ n hinitc

/-- A pass of the normal path taken while the user's signing request is
still pending (kubeconfig secret absent, CSR present, unsigned): no
`csrCreate` appears anywhere in the write log and the population of
requests of the user's name is unchanged. -/
theorem reconcileNormal_pending (env : Env) (st2 : ClusterState) (u2 : User) (csr : CSR)
    (hcfg : findSecret st2 kubeUserNamespace (u2.name ++ "-kubeconfig") = none)
    (hcsr : findCSR st2 (u2.name ++ "-csr") = some csr)
    (hpend : csr.certificate = none) :
    (∀ w ∈ (reconcileNormal env st2 u2).2.2, ∀ n, ¬ w = WriteOp.csrCreate n) ∧
    ((reconcileNormal env st2 u2).2.1.csrs.filter (fun c => c.name == u2.name ++ "-csr")).length =
      (st2.csrs.filter (fun c => c.name == u2.name ++ "-csr")).length := by
  have hns := (ensureNamespaceStep_fields st2).2.2.2.2.2.2.2.1
  have hsa := (ensureSAStep_fields (ensureNamespaceStep st2).1 u2.name).2.2.2.2.2.2.2.1
  have hnsS := (ensureNamespaceStep_fields st2).2.2.2.2.2.2.1
  have hsaS := (ensureSAStep_fields (ensureNamespaceStep st2).1 u2.name).2.2.2.2.2.2.1
  have hlog1 := (nsSaStep_log st2 u2.name).1
  have hlog2 := (nsSaStep_log (ensureNamespaceStep st2).1 u2.name).2
  simp only [reconcileNormal]
  split
  · rename_i heq
    constructor
    · intro w hw nn he
      rcases List.mem_append.mp hw with h1 | h2
      · rcases List.mem_append.mp h1 with h3 | h4
        · rcases List.mem_append.mp h3 with h5 | h6
          · rw [hlog1 w h5] at he
            exact absurd he (by simp)
          · rcases hlog2 w h6 with h7 | h7
            · rw [h7] at he
              exact absurd he (by simp)
            · rw [h7] at he
              exact absurd he (by simp)
        · have hRB0 := reconcileRoleBindings_log env u2.name u2.spec.roles
            (ensureSAStep (ensureNamespaceStep st2).1 u2.name).1.roles
            (ensureSAStep (ensureNamespaceStep st2).1 u2.name).1.roleBindings
          rw [heq] at hRB0
          exact absurd he (isRBWrite_not_csrCreate w (hRB0 w h4) nn)
      · rw [List.mem_singleton.mp h2] at he
        exact absurd he (by simp)
    · show ((ensureSAStep (ensureNamespaceStep st2).1 u2.name).1.csrs.filter
          (fun c => c.name == u2.name ++ "-csr")).length =
        (st2.csrs.filter (fun c => c.name == u2.name ++ "-csr")).length
      rw [hsa, hns]
  · rename_i heq
    split
    · rename_i heq2
      constructor
      · intro w hw nn he
        rcases List.mem_append.mp hw with h1 | h2
        · rcases List.mem_append.mp h1 with h3 | h4
          · rcases List.mem_append.mp h3 with h5 | h6
            · rcases List.mem_append.mp h5 with h7 | h8
              · rw [hlog1 w h7] at he
                exact absurd he (by simp)
              · rcases hlog2 w h8 with h9 | h9
                · rw [h9] at he
                  exact absurd he (by simp)
                · rw [h9] at he
                  exact absurd he (by simp)
            · have hRB0 := reconcileRoleBindings_log env u2.name u2.spec.roles
                (ensureSAStep (ensureNamespaceStep st2).1 u2.name).1.roles
                (ensureSAStep (ensureNamespaceStep st2).1 u2.name).1.roleBindings
              rw [heq] at hRB0
              exact absurd he (isRBWrite_not_csrCreate w (hRB0 w h6) nn)
          · have hCRB0 := reconcileClusterRoleBindings_log env u2.name u2.spec.clusterRoles
              (ensureSAStep (ensureNamespaceStep st2).1 u2.name).1.clusterRoles
              (ensureSAStep (ensureNamespaceStep st2).1 u2.name).1.clusterRoleBindings
            rw [heq2] at hCRB0
            exact absurd he (isCRBWrite_not_csrCreate w (hCRB0 w h4) nn)
        · rw [List.mem_singleton.mp h2] at he
          exact absurd he (by simp)
      · show ((ensureSAStep (ensureNamespaceStep st2).1 u2.name).1.csrs.filter
            (fun c => c.name == u2.name ++ "-csr")).length =
          (st2.csrs.filter (fun c => c.name == u2.name ++ "-csr")).length
        rw [hsa, hns]
    · rename_i heq2
      split
      · rename_i heq3
        obtain ⟨hp1, hp2, hp3⟩ := ensureCertKubeconfig_pending2 env _ _ csr _ _ _ _ heq3
          (by
            refine Eq.trans (findSecret_congr st2 _ kubeUserNamespace
              (u2.name ++ "-kubeconfig") _ ?_ ?_) hcfg
            · show (ensureSAStep (ensureNamespaceStep st2).1 u2.name).1.secrets = st2.secrets
              rw [hsaS, hnsS]
            · rw [updateUserStatusPure_name])
          (by
            refine Eq.trans (findCSR_congr st2 _ (u2.name ++ "-csr") _ ?_ ?_) hcsr
            · show (ensureSAStep (ensureNamespaceStep st2).1 u2.name).1.csrs = st2.csrs
              rw [hsa, hns]
            · rw [updateUserStatusPure_name])
          hpend
        rw [updateUserStatusPure_name] at hp2
        constructor
        · intro w hw nn he
          rcases List.mem_append.mp hw with h1 | hC
          · rcases List.mem_append.mp h1 with h2 | hX
            · rcases List.mem_append.mp h2 with h3 | hCRBm
              · rcases List.mem_append.mp h3 with h4 | hRBm
                · rcases List.mem_append.mp h4 with h5 | h6
                  · rw [hlog1 w h5] at he
                    exact absurd he (by simp)
                  · rcases hlog2 w h6 with h7 | h7
                    · rw [h7] at he
                      exact absurd he (by simp)
                    · rw [h7] at he
                      exact absurd he (by simp)
                · have hRB0 := reconcileRoleBindings_log env u2.name u2.spec.roles
                    (ensureSAStep (ensureNamespaceStep st2).1 u2.name).1.roles
                    (ensureSAStep (ensureNamespaceStep st2).1 u2.name).1.roleBindings
                  rw [heq] at hRB0
                  exact absurd he (isRBWrite_not_csrCreate w (hRB0 w hRBm) nn)
              · have hCRB0 := reconcileClusterRoleBindings_log env u2.name u2.spec.clusterRoles
                  (ensureSAStep (ensureNamespaceStep st2).1 u2.name).1.clusterRoles
                  (ensureSAStep (ensureNamespaceStep st2).1 u2.name).1.clusterRoleBindings
                rw [heq2] at hCRB0
                exact absurd he (isCRBWrite_not_csrCreate w (hCRB0 w hCRBm) nn)
            · rw [List.mem_singleton.mp hX] at he
              exact absurd he (by simp)
          · exact absurd he (hp1 w hC nn)
        · rw [hp2]
          show ((ensureSAStep (ensureNamespaceStep st2).1 u2.name).1.csrs.filter
              (fun c => c.name == u2.name ++ "-csr")).length =
            (st2.csrs.filter (fun c => c.name == u2.name ++ "-csr")).length
          rw [hsa, hns]
      · rename_i heq3
        obtain ⟨hp1, hp2, hp3⟩ := ensureCertKubeconfig_pending2 env _ _ csr _ _ _ _ heq3
          (by
            refine Eq.trans (findSecret_congr st2 _ kubeUserNamespace
              (u2.name ++ "-kubeconfig") _ ?_ ?_) hcfg
            · show (ensureSAStep (ensureNamespaceStep st2).1 u2.name).1.secrets = st2.secrets
              rw [hsaS, hnsS]
            · rw [updateUserStatusPure_name])
          (by
            refine Eq.trans (findCSR_congr st2 _ (u2.name ++ "-csr") _ ?_ ?_) hcsr
            · show (ensureSAStep (ensureNamespaceStep st2).1 u2.name).1.csrs = st2.csrs
              rw [hsa, hns]
            · rw [updateUserStatusPure_name])
          hpend
        rw [updateUserStatusPure_name] at hp2
        constructor
        · intro w hw nn he
          rcases List.mem_append.mp hw with h1 | hC
          · rcases List.mem_append.mp h1 with h2 | hX
            · rcases List.mem_append.mp h2 with h3 | hCRBm
              · rcases List.mem_append.mp h3 with h4 | hRBm
                · rcases List.mem_append.mp h4 with h5 | h6
                  · rw [hlog1 w h5] at he
                    exact absurd he (by simp)
                  · rcases hlog2 w h6 with h7 | h7
                    · rw [h7] at he
                      exact absurd he (by simp)
                    · rw [h7] at he
                      exact absurd he (by simp)
                · have hRB0 := reconcileRoleBindings_log env u2.name u2.spec.roles
                    (ensureSAStep (ensureNamespaceStep st2).1 u2.name).1.roles
                    (ensureSAStep (ensureNamespaceStep st2).1 u2.name).1.roleBindings
                  rw [heq] at hRB0
                  exact absurd he (isRBWrite_not_csrCreate w (hRB0 w hRBm) nn)
              · have hCRB0 := reconcileClusterRoleBindings_log env u2.name u2.spec.clusterRoles
                  (ensureSAStep (ensureNamespaceStep st2).1 u2.name).1.clusterRoles
                  (ensureSAStep (ensureNamespaceStep st2).1 u2.name).1.clusterRoleBindings
                rw [heq2] at hCRB0
                exact absurd he (isCRBWrite_not_csrCreate w (hCRB0 w hCRBm) nn)
            · rw [List.mem_singleton.mp hX] at he
              exact absurd he (by simp)
          · exact absurd he (hp1 w hC nn)
        · rw [hp2]
          show ((ensureSAStep (ensureNamespaceStep st2).1 u2.name).1.csrs.filter
              (fun c => c.name == u2.name ++ "-csr")).length =
            (st2.csrs.filter (fun c => c.name == u2.name ++ "-csr")).length
          rw [hsa, hns]
      · rename_i heq3
        obtain ⟨hp1, hp2, hp3⟩ := ensureCertKubeconfig_pending2 env _ _ csr _ _ _ _ heq3
          (by
            refine Eq.trans (findSecret_congr st2 _ kubeUserNamespace
              (u2.name ++ "-kubeconfig") _ ?_ ?_) hcfg
            · show (ensureSAStep (ensureNamespaceStep st2).1 u2.name).1.secrets = st2.secrets
              rw [hsaS, hnsS]
            · rw [updateUserStatusPure_name])
          (by
            refine Eq.trans (findCSR_congr st2 _ (u2.name ++ "-csr") _ ?_ ?_) hcsr
            · show (ensureSAStep (ensureNamespaceStep st2).1 u2.name).1.csrs = st2.csrs
              rw [hsa, hns]
            · rw [updateUserStatusPure_name])
          hpend
        exact absurd rfl hp3

/-- **C7** (confirmed).  (1) Every reconcile pass preserves the invariant
that at most one signing request of any given name exists, so along any
sequence of passes a state that starts with at most one live request per
identity keeps at most one; and (2) a pass on a live, finalized user taken
while the user's request is still pending (kubeconfig secret absent, request
unsigned) issues no `csrCreate` at all and leaves the number of requests of
the user's name exactly unchanged. -/
theorem C7_single_live_csr (env : Env) (st0 : ClusterState) (reqName : String) :
    (∀ n, (st0.csrs.filter (fun c => c.name == n)).length ≤ 1 →
      ((Reconcile env st0 reqName).2.1.csrs.filter (fun c => c.name == n)).length ≤ 1) ∧
    (∀ u csr,
      st0.users.find? (fun x => x.name == reqName) = some u →
      u.deletionRequested = false →
      containsString u.finalizers userFinalizer = true →
      u.status.phase ≠ "" →
      findSecret st0 kubeUserNamespace (u.name ++ "-kubeconfig") = none →
      findCSR st0 (u.name ++ "-csr") = some csr →
      csr.certificate = none →
      (∀ w ∈ (Reconcile env st0 reqName).2.2, ∀ n, ¬ w = WriteOp.csrCreate n) ∧
      ((Reconcile env st0 reqName).2.1.csrs.filter
          (fun c => c.name == u.name ++ "-csr")).length =
        (st0.csrs.filter (fun c => c.name == u.name ++ "-csr")).length) := by
  constructor
  · intro n hn
    exact Reconcile_csr_le env st0 reqName n hn
  · intro u csr hfind hdel hfin hph hcfg hcsr hpend
    rw [Reconcile_normal_path env st0 reqName u hfind hdel hfin hph]
    exact reconcileNormal_pending env st0 u csr hcfg hcsr hpend

def c7CSR : CSR :=
  { name := "u-csr", userLabel := some "u", request := Data.raw "r",
    conditions := [{ condType := "Approved", status := "True" }], certificate := none }

def c7User : User :=
  { name := "u", finalizers := [userFinalizer], deletionRequested := false,
    spec := { roles := [], clusterRoles := [] },
    status := { expiryTime := ExpiryStr.empty, certificateExpiry := "", phase := "Pending",
                message := "", conditions := [] } }

def c7State : ClusterState :=
  { users := [c7User], namespaces := [kubeUserNamespace], roles := [], clusterRoles := [],
    roleBindings := [], clusterRoleBindings := [], serviceAccounts := [],
    secrets := [{ name := "u-key", ns := kubeUserNamespace,
                  data := [("key.pem", Data.pem "RSA PRIVATE KEY" (Data.derKey 7))] }],
    csrs := [c7CSR], configMaps := [] }

/-- Witness for C7: a second pass for user `u` while `u-csr` is approved but
unsigned creates nothing and keeps exactly one request named `u-csr`. -/
theorem C7_single_live_csr_witness :
    (((Reconcile envNoFail c7State "u").2.1.csrs.filter
        (fun c => c.name == "u-csr")).length ≤ 1) ∧
    (∀ w ∈ (Reconcile envNoFail c7State "u").2.2, ∀ n, ¬ w = WriteOp.csrCreate n) ∧
    ((Reconcile envNoFail c7State "u").2.1.csrs.filter
        (fun c => c.name == "u" ++ "-csr")).length =
      (c7State.csrs.filter (fun c => c.name == "u" ++ "-csr")).length :=
  ⟨(C7_single_live_csr envNoFail c7State "u").1 "u-csr" (by decide),
   ((C7_single_live_csr envNoFail c7State "u").2 c7User c7CSR rfl rfl (by decide)
      (by decide) rfl rfl rfl).1,
   ((C7_single_live_csr envNoFail c7State "u").2 c7User c7CSR rfl rfl (by decide)
      (by decide) rfl rfl rfl).2⟩

/-! ### C4: the rotation trigger -/

theorem find?_filter_of_imp {α : Type} (p q : α → Bool) (l : List α)
    (h : ∀ x, p x = true → q x = true) : (l.filter q).find? p = l.find? p := by
  induction l with
  | nil => rfl
  | cons a rest ih =>
    rw [List.filter_cons]
    split
    · cases hp : p a with
      | true =>
        rw [List.find?_cons_of_pos _ hp, List.find?_cons_of_pos rest hp]
      | false =>
        rw [List.find?_cons_of_neg _ (by simp [hp]),
          List.find?_cons_of_neg rest (by simp [hp]), ih]
    · rename_i hq
      cases hp : p a with
      | true => exact absurd (h a hp) hq
      | false =>
        rw [List.find?_cons_of_neg rest (by simp [hp]), ih]

theorem find?_filter_not {α : Type} (p : α → Bool) (l : List α) :
    (l.filter (fun x => !(p x))).find? p = none := by
  refine List.find?_eq_none.mpr ?_
  intro x hx hpx
  have h2 := List.of_mem_filter hx
  rw [hpx] at h2
  simp at h2

/-- `ensureCertKubeconfig` on a user whose kubeconfig secret embeds a
certificate within the 30-day rotation window: the stale kubeconfig secret
and the old signing request are deleted (both delete calls are in the log,
the secret is gone from the store) while the private-key secret is left
untouched; the stage never reports the credential as already in place. -/
theorem ensureCertKubeconfig_rotation (env : Env) (st : ClusterState) (u : User)
    (cfgSec keySec : Secret) (csr0 : CSR) (kcfg certData : Data) (t : Int)
    (hcfg : findSecret st kubeUserNamespace (u.name ++ "-kubeconfig") = some cfgSec)
    (hkcfg : lookupKV cfgSec.data "config" = some kcfg)
    (hext : extractClientCertFromKubeconfigData kcfg = Except.ok certData)
    (hexp : extractCertificateExpiryWithFormatDetection certData = Except.ok t)
    (hrot : t - env.now < 30 * 24 * 3600)
    (hkey : findSecret st kubeUserNamespace (u.name ++ "-key") = some keySec)
    (hcsr : findCSR st (u.name ++ "-csr") = some csr0)
    (hfd1 : env.failDelete (ObjRef.secret kubeUserNamespace (u.name ++ "-kubeconfig")) = false)
    (hfd2 : env.failDelete (ObjRef.csr (u.name ++ "-csr")) = false) :
    WriteOp.secretDelete kubeUserNamespace (u.name ++ "-kubeconfig") ∈
      (ensureCertKubeconfig env st u).2.2.2 ∧
    WriteOp.csrDelete (u.name ++ "-csr") ∈ (ensureCertKubeconfig env st u).2.2.2 ∧
    findSecret (ensureCertKubeconfig env st u).2.2.1 kubeUserNamespace
      (u.name ++ "-kubeconfig") = none ∧
    findSecret (ensureCertKubeconfig env st u).2.2.1 kubeUserNamespace
      (u.name ++ "-key") = some keySec ∧
    ¬ (ensureCertKubeconfig env st u).1 = Except.ok false := by
  have hdec : (decide (t - env.now < 30 * 24 * 3600)) = true := decide_eq_true hrot
  have hrotation : checkCertificateRotation env st (u.name ++ "-kubeconfig") (30 * 24 * 3600) =
      Except.ok true := by
    simp only [checkCertificateRotation, hcfg, hkcfg, hext, hexp, hdec]
  have hkne : u.name ++ "-key" ≠ u.name ++ "-kubeconfig" := String_append_ne u.name (by decide)
  have hcsr1 : findCSR
      { st with secrets := removeSecretL st.secrets kubeUserNamespace (u.name ++ "-kubeconfig") }
      (u.name ++ "-csr") = some csr0 := hcsr
  have hclean : cleanupCertificateResources env st (u.name ++ "-kubeconfig") (u.name ++ "-csr") =
      (Except.ok (),
       { st with secrets := removeSecretL st.secrets kubeUserNamespace (u.name ++ "-kubeconfig"),
                 csrs := removeCSRL st.csrs (u.name ++ "-csr") },
       [WriteOp.secretDelete kubeUserNamespace (u.name ++ "-kubeconfig"),
        WriteOp.csrDelete (u.name ++ "-csr")]) := by
    simp only [cleanupCertificateResources, hcfg, hfd1, hcsr1, hfd2, Bool.false_eq_true,
      if_false, List.singleton_append]
  have hkey2 : findSecret
      { st with secrets := removeSecretL st.secrets kubeUserNamespace (u.name ++ "-kubeconfig"),
                csrs := removeCSRL st.csrs (u.name ++ "-csr") }
      kubeUserNamespace (u.name ++ "-key") = some keySec := by
    show (removeSecretL st.secrets kubeUserNamespace (u.name ++ "-kubeconfig")).find?
        (fun s => s.ns == kubeUserNamespace && s.name == u.name ++ "-key") = some keySec
    rw [removeSecretL]
    rw [find?_filter_of_imp _ _ _ ?_]
    · exact hkey
    · intro x hx
      have hxn : x.name = u.name ++ "-key" := by
        have := (Bool.and_eq_true _ _).mp hx
        simpa using this.2
      simp [hxn, hkne]
  have hcfg2 : findSecret
      { st with secrets := removeSecretL st.secrets kubeUserNamespace (u.name ++ "-kubeconfig"),
                csrs := removeCSRL st.csrs (u.name ++ "-csr") }
      kubeUserNamespace (u.name ++ "-kubeconfig") = none := by
    show (removeSecretL st.secrets kubeUserNamespace (u.name ++ "-kubeconfig")).find?
        (fun s => s.ns == kubeUserNamespace && s.name == u.name ++ "-kubeconfig") = none
    rw [removeSecretL]
    exact find?_filter_not _ _
  have hcsrGone : findCSR
      { st with secrets := removeSecretL st.secrets kubeUserNamespace (u.name ++ "-kubeconfig"),
                csrs := removeCSRL st.csrs (u.name ++ "-csr") }
      (u.name ++ "-csr") = none := by
    show (removeCSRL st.csrs (u.name ++ "-csr")).find?
        (fun c => c.name == u.name ++ "-csr") = none
    rw [removeCSRL]
    exact find?_filter_not _ _
  cases hck : csrFromKey u.name ((lookupKV keySec.data "key.pem").getD (Data.raw "")) with
  | error e =>
    simp only [ensureCertKubeconfig, hrotation, if_true, hclean, hkey2, hcfg2, hck]
    exact ⟨by simp, by simp, trivial, trivial, by simp⟩
  | ok csrPEM =>
    simp only [ensureCertKubeconfig, hrotation, if_true, hclean, hkey2, hcfg2, hck, hcsrGone]
    exact ⟨by simp, by simp, hcfg2, hkey2, by simp⟩

/-- `ensureCertKubeconfig_rotation` routed through an equation on the result. -/
theorem ensureCertKubeconfig_rotation2 (env : Env) (st : ClusterState) (u : User)
    (cfgSec keySec : Secret) (csr0 : CSR) (kcfg certData : Data) (t : Int)
    (res : Except String Bool) (u4 : User) (st8 : ClusterState) (logC : List WriteOp)
    (heq : ensureCertKubeconfig env st u = (res, u4, st8, logC))
    (hcfg : findSecret st kubeUserNamespace (u.name ++ "-kubeconfig") = some cfgSec)
    (hkcfg : lookupKV cfgSec.data "config" = some kcfg)
    (hext : extractClientCertFromKubeconfigData kcfg = Except.ok certData)
    (hexp : extractCertificateExpiryWithFormatDetection certData = Except.ok t)
    (hrot : t - env.now < 30 * 24 * 3600)
    (hkey : findSecret st kubeUserNamespace (u.name ++ "-key") = some keySec)
    (hcsr : findCSR st (u.name ++ "-csr") = some csr0)
    (hfd1 : env.failDelete (ObjRef.secret kubeUserNamespace (u.name ++ "-kubeconfig")) = false)
    (hfd2 : env.failDelete (ObjRef.csr (u.name ++ "-csr")) = false) :
    WriteOp.secretDelete kubeUserNamespace (u.name ++ "-kubeconfig") ∈ logC ∧
    WriteOp.csrDelete (u.name ++ "-csr") ∈ logC ∧
    findSecret st8 kubeUserNamespace (u.name ++ "-kubeconfig") = none ∧
    findSecret st8 kubeUserNamespace (u.name ++ "-key") = some keySec ∧
    ¬ res = Except.ok false := by
  have hp := ensureCertKubeconfig_rotation env st u cfgSec keySec csr0 kcfg certData t
    hcfg hkcfg hext hexp hrot hkey hcsr hfd1 hfd2
  rw [heq] at hp
  exact hp

/-- **C4** (confirmed).  A pass on a live, finalized user whose binding
reconciliation succeeds and whose kubeconfig secret embeds a certificate
expiring in fewer than 30 days: the pass deletes the kubeconfig secret and
the signing request (both delete calls appear in the write log and the
secret is absent afterwards) while the private-key secret is returned
byte-identical by a lookup after the pass. -/
theorem C4_rotation_trigger (env : Env) (st0 : ClusterState) (reqName : String) (u : User)
    (rbs1 : List RoleBinding) (logRB : List WriteOp)
    (crbs1 : List ClusterRoleBinding) (logCRB : List WriteOp)
    (cfgSec keySec : Secret) (csr0 : CSR) (kcfg certData : Data) (t : Int)
    (hfind : st0.users.find? (fun x => x.name == reqName) = some u)
    (hdel : u.deletionRequested = false)
    (hfin : containsString u.finalizers userFinalizer = true)
    (hph : u.status.phase ≠ "")
    (hrb : reconcileRoleBindings env u.name u.spec.roles
      (ensureSAStep (ensureNamespaceStep st0).1 u.name).1.roles
      (ensureSAStep (ensureNamespaceStep st0).1 u.name).1.roleBindings =
      (Except.ok (), rbs1, logRB))
    (hcrb : reconcileClusterRoleBindings env u.name u.spec.clusterRoles
      (ensureSAStep (ensureNamespaceStep st0).1 u.name).1.clusterRoles
      (ensureSAStep (ensureNamespaceStep st0).1 u.name).1.clusterRoleBindings =
      (Except.ok (), crbs1, logCRB))
    (hcfg : findSecret st0 kubeUserNamespace (u.name ++ "-kubeconfig") = some cfgSec)
    (hkcfg : lookupKV cfgSec.data "config" = some kcfg)
    (hext : extractClientCertFromKubeconfigData kcfg = Except.ok certData)
    (hexp : extractCertificateExpiryWithFormatDetection certData = Except.ok t)
    (hrot : t - env.now < 30 * 24 * 3600)
    (hkey : findSecret st0 kubeUserNamespace (u.name ++ "-key") = some keySec)
    (hcsr : findCSR st0 (u.name ++ "-csr") = some csr0)
    (hfd1 : env.failDelete (ObjRef.secret kubeUserNamespace (u.name ++ "-kubeconfig")) = false)
    (hfd2 : env.failDelete (ObjRef.csr (u.name ++ "-csr")) = false) :
    WriteOp.secretDelete kubeUserNamespace (u.name ++ "-kubeconfig") ∈
      (Reconcile env st0 reqName).2.2 ∧
    WriteOp.csrDelete (u.name ++ "-csr") ∈ (Reconcile env st0 reqName).2.2 ∧
    findSecret (Reconcile env st0 reqName).2.1 kubeUserNamespace
      (u.name ++ "-kubeconfig") = none ∧
    findSecret (Reconcile env st0 reqName).2.1 kubeUserNamespace
      (u.name ++ "-key") = some keySec := by
  have hnsS := (ensureNamespaceStep_fields st0).2.2.2.2.2.2.1
  have hsaS := (ensureSAStep_fields (ensureNamespaceStep st0).1 u.name).2.2.2.2.2.2.1
  have hns := (ensureNamespaceStep_fields st0).2.2.2.2.2.2.2.1
  have hsa := (ensureSAStep_fields (ensureNamespaceStep st0).1 u.name).2.2.2.2.2.2.2.1
  rw [Reconcile_normal_path env st0 reqName u hfind hdel hfin hph,
    reconcileNormal_ok env st0 u rbs1 logRB crbs1 logCRB hrb hcrb]
  split
  · rename_i heq3
    obtain ⟨hp1, hp2, hp3, hp4, hp5⟩ := ensureCertKubeconfig_rotation2 env _ _ cfgSec keySec
      csr0 kcfg certData t _ _ _ _ heq3
      (by
        refine Eq.trans (findSecret_congr st0 _ kubeUserNamespace
          (u.name ++ "-kubeconfig") _ ?_ ?_) hcfg
        · show (ensureSAStep (ensureNamespaceStep st0).1 u.name).1.secrets = st0.secrets
          rw [hsaS, hnsS]
        · rw [updateUserStatusPure_name])
      hkcfg hext hexp hrot
      (by
        refine Eq.trans (findSecret_congr st0 _ kubeUserNamespace
          (u.name ++ "-key") _ ?_ ?_) hkey
        · show (ensureSAStep (ensureNamespaceStep st0).1 u.name).1.secrets = st0.secrets
          rw [hsaS, hnsS]
        · rw [updateUserStatusPure_name])
      (by
        refine Eq.trans (findCSR_congr st0 _ (u.name ++ "-csr") _ ?_ ?_) hcsr
        · show (ensureSAStep (ensureNamespaceStep st0).1 u.name).1.csrs = st0.csrs
          rw [hsa, hns]
        · rw [updateUserStatusPure_name])
      (by rw [updateUserStatusPure_name]; exact hfd1)
      (by rw [updateUserStatusPure_name]; exact hfd2)
    rw [updateUserStatusPure_name] at hp1 hp2 hp3 hp4
    exact ⟨List.mem_append.mpr (Or.inr hp1), List.mem_append.mpr (Or.inr hp2), hp3, hp4⟩
  · rename_i heq3
    obtain ⟨hp1, hp2, hp3, hp4, hp5⟩ := ensureCertKubeconfig_rotation2 env _ _ cfgSec keySec
      csr0 kcfg certData t _ _ _ _ heq3
      (by
        refine Eq.trans (findSecret_congr st0 _ kubeUserNamespace
          (u.name ++ "-kubeconfig") _ ?_ ?_) hcfg
        · show (ensureSAStep (ensureNamespaceStep st0).1 u.name).1.secrets = st0.secrets
          rw [hsaS, hnsS]
        · rw [updateUserStatusPure_name])
      hkcfg hext hexp hrot
      (by
        refine Eq.trans (findSecret_congr st0 _ kubeUserNamespace
          (u.name ++ "-key") _ ?_ ?_) hkey
        · show (ensureSAStep (ensureNamespaceStep st0).1 u.name).1.secrets = st0.secrets
          rw [hsaS, hnsS]
        · rw [updateUserStatusPure_name])
      (by
        refine Eq.trans (findCSR_congr st0 _ (u.name ++ "-csr") _ ?_ ?_) hcsr
        · show (ensureSAStep (ensureNamespaceStep st0).1 u.name).1.csrs = st0.csrs
          rw [hsa, hns]
        · rw [updateUserStatusPure_name])
      (by rw [updateUserStatusPure_name]; exact hfd1)
      (by rw [updateUserStatusPure_name]; exact hfd2)
    rw [updateUserStatusPure_name] at hp1 hp2 hp3 hp4
    exact ⟨List.mem_append.mpr (Or.inr hp1), List.mem_append.mpr (Or.inr hp2), hp3, hp4⟩
  · rename_i heq3
    obtain ⟨hp1, hp2, hp3, hp4, hp5⟩ := ensureCertKubeconfig_rotation2 env _ _ cfgSec keySec
      csr0 kcfg certData t _ _ _ _ heq3
      (by
        refine Eq.trans (findSecret_congr st0 _ kubeUserNamespace
          (u.name ++ "-kubeconfig") _ ?_ ?_) hcfg
        · show (ensureSAStep (ensureNamespaceStep st0).1 u.name).1.secrets = st0.secrets
          rw [hsaS, hnsS]
        · rw [updateUserStatusPure_name])
      hkcfg hext hexp hrot
      (by
        refine Eq.trans (findSecret_congr st0 _ kubeUserNamespace
          (u.name ++ "-key") _ ?_ ?_) hkey
        · show (ensureSAStep (ensureNamespaceStep st0).1 u.name).1.secrets = st0.secrets
          rw [hsaS, hnsS]
        · rw [updateUserStatusPure_name])
      (by
        refine Eq.trans (findCSR_congr st0 _ (u.name ++ "-csr") _ ?_ ?_) hcsr
        · show (ensureSAStep (ensureNamespaceStep st0).1 u.name).1.csrs = st0.csrs
          rw [hsa, hns]
        · rw [updateUserStatusPure_name])
      (by rw [updateUserStatusPure_name]; exact hfd1)
      (by rw [updateUserStatusPure_name]; exact hfd2)
    exact absurd rfl hp5

def c4CertB64 : Data := Data.b64 (Data.pem "CERTIFICATE" (Data.derCert 100))

def c4Kcfg : Data :=
  Data.kubeconfig (Data.raw "https://api") c4CertB64 c4CertB64
    (Data.b64 (Data.pem "RSA PRIVATE KEY" (Data.derKey 7))) (Data.raw "u")

def c4CfgSec : Secret :=
  { name := "u-kubeconfig", ns := kubeUserNamespace, data := [("config", c4Kcfg)] }

def c4KeySec : Secret :=
  { name := "u-key", ns := kubeUserNamespace,
    data := [("key.pem", Data.pem "RSA PRIVATE KEY" (Data.derKey 7))] }

def c4CSR : CSR :=
  { name := "u-csr", userLabel := some "u", request := Data.raw "r",
    conditions := [{ condType := "Approved", status := "True" }],
    certificate := some (Data.pem "CERTIFICATE" (Data.derCert 100)) }

def c4User : User :=
  { name := "u", finalizers := [userFinalizer], deletionRequested := false,
    spec := { roles := [], clusterRoles := [] },
    status := { expiryTime := ExpiryStr.rfc3339 100, certificateExpiry := "Certificate",
                phase := "Active", message := "", conditions := [] } }

def c4State : ClusterState :=
  { users := [c4User], namespaces := [kubeUserNamespace], roles := [], clusterRoles := [],
    roleBindings := [], clusterRoleBindings := [], serviceAccounts := [],
    secrets := [c4KeySec, c4CfgSec], csrs := [c4CSR], configMaps := [] }

/-- Witness for C4: user `u` holds a kubeconfig whose certificate expires at
time 100, well inside the 30-day window of `now = 0`. -/
theorem C4_rotation_trigger_witness :
    WriteOp.secretDelete kubeUserNamespace ("u" ++ "-kubeconfig") ∈
      (Reconcile envNoFail c4State "u").2.2 ∧
    WriteOp.csrDelete ("u" ++ "-csr") ∈ (Reconcile envNoFail c4State "u").2.2 ∧
    findSecret (Reconcile envNoFail c4State "u").2.1 kubeUserNamespace
      ("u" ++ "-kubeconfig") = none ∧
    findSecret (Reconcile envNoFail c4State "u").2.1 kubeUserNamespace
      ("u" ++ "-key") = some c4KeySec :=
  C4_rotation_trigger envNoFail c4State "u" c4User [] [] [] [] c4CfgSec c4KeySec c4CSR
    c4Kcfg c4CertB64 100 rfl rfl (by decide) (by decide) rfl rfl rfl rfl rfl rfl
    (by decide) rfl rfl rfl rfl

/-! ### C6: the expiry-driven requeue block -/

theorem updateUserStatusPure_expiry (now : Int) (u : User) :
    (updateUserStatusPure now u).status.expiryTime = u.status.expiryTime := by
  rw [updateUserStatusPure]
  have h2 : ∀ v : User, (projectCondition now v).status.expiryTime = v.status.expiryTime :=
    fun v => rfl
  rw [h2]
  unfold projectPhase setActiveStatus
  cases hexp : u.status.expiryTime with
  | empty => exact hexp
  | invalid s => exact hexp
  | rfc3339 t =>
    by_cases h : now > t
    · simp only [if_pos h]
      exact hexp
    · simp only [if_neg h]
      exact hexp

theorem updateUserStatusPure_phase_expired (now : Int) (u : User) (t : Int)
    (hexp : u.status.expiryTime = ExpiryStr.rfc3339 t) (hlt : now > t) :
    (updateUserStatusPure now u).status.phase = "Expired" := by
  rw [updateUserStatusPure, projectCondition_phase]
  unfold projectPhase
  simp only [hexp, if_pos hlt]

theorem updateUserStatusPure_phase_active (now : Int) (u : User) (t : Int)
    (hexp : u.status.expiryTime = ExpiryStr.rfc3339 t) (hge : ¬ now > t) :
    (updateUserStatusPure now u).status.phase = "Active" := by
  rw [updateUserStatusPure, projectCondition_phase]
  unfold projectPhase setActiveStatus
  simp only [hexp, if_neg hge]

/-- With a fresh enough certificate inside an existing kubeconfig secret and
the key secret present, the credential stage is a no-op reporting `false`. -/
theorem ensureCertKubeconfig_fresh (env : Env) (st : ClusterState) (u : User)
    (cfgSec keySec : Secret) (kcfg certData : Data) (tc : Int)
    (hcfg : findSecret st kubeUserNamespace (u.name ++ "-kubeconfig") = some cfgSec)
    (hkcfg : lookupKV cfgSec.data "config" = some kcfg)
    (hext : extractClientCertFromKubeconfigData kcfg = Except.ok certData)
    (hexp : extractCertificateExpiryWithFormatDetection certData = Except.ok tc)
    (hfresh : ¬ tc - env.now < 30 * 24 * 3600)
    (hkey : findSecret st kubeUserNamespace (u.name ++ "-key") = some keySec) :
    ensureCertKubeconfig env st u = (Except.ok false, u, st, []) := by
  have hdec : (decide (tc - env.now < 30 * 24 * 3600)) = false := decide_eq_false hfresh
  have hrotation : checkCertificateRotation env st (u.name ++ "-kubeconfig") (30 * 24 * 3600) =
      Except.ok false := by
    simp only [checkCertificateRotation, hcfg, hkcfg, hext, hexp, hdec]
  simp only [ensureCertKubeconfig, hrotation, Bool.false_eq_true, if_false, hkey, hcfg]

theorem ensureCertKubeconfig_fresh2 (env : Env) (st : ClusterState) (u : User)
    (cfgSec keySec : Secret) (kcfg certData : Data) (tc : Int)
    (res : Except String Bool) (u4 : User) (st8 : ClusterState) (logC : List WriteOp)
    (heq : ensureCertKubeconfig env st u = (res, u4, st8, logC))
    (hcfg : findSecret st kubeUserNamespace (u.name ++ "-kubeconfig") = some cfgSec)
    (hkcfg : lookupKV cfgSec.data "config" = some kcfg)
    (hext : extractClientCertFromKubeconfigData kcfg = Except.ok certData)
    (hexp : extractCertificateExpiryWithFormatDetection certData = Except.ok tc)
    (hfresh : ¬ tc - env.now < 30 * 24 * 3600)
    (hkey : findSecret st kubeUserNamespace (u.name ++ "-key") = some keySec) :
    res = Except.ok false ∧ u4 = u ∧ st8 = st ∧ logC = [] := by
  have hf := ensureCertKubeconfig_fresh env st u cfgSec keySec kcfg certData tc
    hcfg hkcfg hext hexp hfresh hkey
  rw [heq] at hf
  exact ⟨congrArg (fun y => y.1) hf, congrArg (fun y => y.2.1) hf,
    congrArg (fun y => y.2.2.1) hf, congrArg (fun y => y.2.2.2) hf⟩

theorem reconcileTail_nonactive (env : Env) (st : ClusterState) (u : User)
    (hph : (u.status.phase == "Active") = false) :
    reconcileTail env st u = (Outcome.ok (RequeueSpec.after (30 * 60)), st, []) := by
  simp only [reconcileTail, hph, Bool.false_eq_true, if_false]

theorem reconcileTail_active_past (env : Env) (st : ClusterState) (u : User) (t : Int)
    (hph : (u.status.phase == "Active") = true)
    (hexp : u.status.expiryTime = ExpiryStr.rfc3339 t)
    (hle : t - env.now ≤ 0) :
    reconcileTail env st u =
      (Outcome.ok RequeueSpec.noRequeue,
       putUser st
         { u with status :=
             { u.status with phase := "Expired", message := "User access has expired" } },
       [WriteOp.statusUpdate u.name]) := by
  simp only [reconcileTail, hph, if_true, hexp, if_pos hle]

theorem reconcileTail_active_soon (env : Env) (st : ClusterState) (u : User) (t : Int)
    (hph : (u.status.phase == "Active") = true)
    (hexp : u.status.expiryTime = ExpiryStr.rfc3339 t)
    (hgt : ¬ t - env.now ≤ 0) (hsoon : t - env.now < 24 * 3600) :
    reconcileTail env st u = (Outcome.ok (RequeueSpec.after 3600), st, []) := by
  simp only [reconcileTail, hph, if_true, hexp, if_neg hgt, if_pos hsoon]

theorem reconcileTail_active_far (env : Env) (st : ClusterState) (u : User) (t : Int)
    (hph : (u.status.phase == "Active") = true)
    (hexp : u.status.expiryTime = ExpiryStr.rfc3339 t)
    (hgt : ¬ t - env.now ≤ 0) (hfar : ¬ t - env.now < 24 * 3600) :
    reconcileTail env st u = (Outcome.ok (RequeueSpec.after (30 * 60)), st, []) := by
  simp only [reconcileTail, hph, if_true, hexp, if_neg hgt, if_neg hfar]

def c6CertB64 : Data := Data.b64 (Data.pem "CERTIFICATE" (Data.derCert 99999999))

def c6Kcfg : Data :=
  Data.kubeconfig (Data.raw "https://api") c6CertB64 c6CertB64
    (Data.b64 (Data.pem "RSA PRIVATE KEY" (Data.derKey 7))) (Data.raw "u")

def c6CfgSec : Secret :=
  { name := "u-kubeconfig", ns := kubeUserNamespace, data := [("config", c6Kcfg)] }

def c6KeySec : Secret :=
  { name := "u-key", ns := kubeUserNamespace,
    data := [("key.pem", Data.pem "RSA PRIVATE KEY" (Data.derKey 7))] }

def c6User : User :=
  { name := "u", finalizers := [userFinalizer], deletionRequested := false,
    spec := { roles := [], clusterRoles := [] },
    status := { expiryTime := ExpiryStr.rfc3339 (-5), certificateExpiry := "Certificate",
                phase := "Active", message := "", conditions := [] } }

def c6State : ClusterState :=
  { users := [c6User], namespaces := [kubeUserNamespace], roles := [], clusterRoles := [],
    roleBindings := [], clusterRoleBindings := [], serviceAccounts := [],
    secrets := [c6KeySec, c6CfgSec], csrs := [], configMaps := [] }

/-- **C6 counterexample.**  The claim says a pass on a user whose observed
expiry is in the past "stops with no further requeue".  On a user whose
expiry (-5) is before `now = 0` the pass sets the phase to `Expired` but
returns a 30-minute requeue, not a stop: the projection runs before the
final `phase == "Active"` guard, so the no-requeue branch is skipped. -/
theorem C6_expired_requeue_counterexample :
    c6User.status.expiryTime = ExpiryStr.rfc3339 (-5) ∧
    envNoFail.now = 0 ∧
    (Reconcile envNoFail c6State "u").1 = Outcome.ok (RequeueSpec.after (30 * 60)) ∧
    ¬ (Reconcile envNoFail c6State "u").1 = Outcome.ok RequeueSpec.noRequeue ∧
    ((Reconcile envNoFail c6State "u").2.1.users.find? (fun x => x.name == "u")).map
      (fun v => v.status.phase) = some "Expired" := by
  decide

/-- **C6** (corrected).  A pass on a live, finalized user with a parseable
observed expiry `t`, whose bindings reconcile cleanly and whose kubeconfig
holds a fresh certificate (so the credential stage is a no-op): the status
projection runs after the binding work and before the final requeue block,
so with `t` in the past the phase becomes `Expired` but the pass returns a
30-minute requeue rather than stopping; only at `now = t` exactly does the
requeue block itself take the `Expired`/no-requeue branch; in the future
cases the hourly (within 24h) and 30-minute (otherwise) requeues hold as
claimed. -/
theorem C6_expiry_phase_requeue (env : Env) (st0 : ClusterState) (reqName : String) (u : User)
    (rbs1 : List RoleBinding) (logRB : List WriteOp)
    (crbs1 : List ClusterRoleBinding) (logCRB : List WriteOp)
    (cfgSec keySec : Secret) (kcfg certData : Data) (tc t : Int)
    (hfind : st0.users.find? (fun x => x.name == reqName) = some u)
    (hdel : u.deletionRequested = false)
    (hfin : containsString u.finalizers userFinalizer = true)
    (hph : u.status.phase ≠ "")
    (hrb : reconcileRoleBindings env u.name u.spec.roles
      (ensureSAStep (ensureNamespaceStep st0).1 u.name).1.roles
      (ensureSAStep (ensureNamespaceStep st0).1 u.name).1.roleBindings =
      (Except.ok (), rbs1, logRB))
    (hcrb : reconcileClusterRoleBindings env u.name u.spec.clusterRoles
      (ensureSAStep (ensureNamespaceStep st0).1 u.name).1.clusterRoles
      (ensureSAStep (ensureNamespaceStep st0).1 u.name).1.clusterRoleBindings =
      (Except.ok (), crbs1, logCRB))
    (hcfg : findSecret st0 kubeUserNamespace (u.name ++ "-kubeconfig") = some cfgSec)
    (hkcfg : lookupKV cfgSec.data "config" = some kcfg)
    (hext : extractClientCertFromKubeconfigData kcfg = Except.ok certData)
    (hexp : extractCertificateExpiryWithFormatDetection certData = Except.ok tc)
    (hfresh : ¬ tc - env.now < 30 * 24 * 3600)
    (hkey : findSecret st0 kubeUserNamespace (u.name ++ "-key") = some keySec)
    (hexpT : u.status.expiryTime = ExpiryStr.rfc3339 t) :
    (env.now > t →
      (Reconcile env st0 reqName).1 = Outcome.ok (RequeueSpec.after (30 * 60)) ∧
      ((Reconcile env st0 reqName).2.1.users.find? (fun x => x.name == reqName)).map
        (fun v => v.status.phase) = some "Expired") ∧
    (env.now = t →
      (Reconcile env st0 reqName).1 = Outcome.ok RequeueSpec.noRequeue ∧
      ((Reconcile env st0 reqName).2.1.users.find? (fun x => x.name == reqName)).map
        (fun v => v.status.phase) = some "Expired") ∧
    (env.now < t ∧ t - env.now < 24 * 3600 →
      (Reconcile env st0 reqName).1 = Outcome.ok (RequeueSpec.after 3600)) ∧
    (env.now < t ∧ ¬ t - env.now < 24 * 3600 →
      (Reconcile env st0 reqName).1 = Outcome.ok (RequeueSpec.after (30 * 60))) := by
  have hnsU := (ensureNamespaceStep_fields st0).1
  have hsaU := (ensureSAStep_fields (ensureNamespaceStep st0).1 u.name).1
  have hnsS := (ensureNamespaceStep_fields st0).2.2.2.2.2.2.1
  have hsaS := (ensureSAStep_fields (ensureNamespaceStep st0).1 u.name).2.2.2.2.2.2.1
  have hname3 := updateUserStatusPure_name env.now u
  have hexp3 : (updateUserStatusPure env.now u).status.expiryTime = ExpiryStr.rfc3339 t := by
    rw [updateUserStatusPure_expiry, hexpT]
  rw [Reconcile_normal_path env st0 reqName u hfind hdel hfin hph,
    reconcileNormal_ok env st0 u rbs1 logRB crbs1 logCRB hrb hcrb]
  split
  · rename_i heq3
    obtain ⟨hr, h4, h8, hL⟩ := ensureCertKubeconfig_fresh2 env _ _ cfgSec keySec kcfg certData tc
      _ _ _ _ heq3
      (by
        refine Eq.trans (findSecret_congr st0 _ kubeUserNamespace
          (u.name ++ "-kubeconfig") _ ?_ ?_) hcfg
        · show (ensureSAStep (ensureNamespaceStep st0).1 u.name).1.secrets = st0.secrets
          rw [hsaS, hnsS]
        · rw [updateUserStatusPure_name])
      hkcfg hext hexp hfresh
      (by
        refine Eq.trans (findSecret_congr st0 _ kubeUserNamespace
          (u.name ++ "-key") _ ?_ ?_) hkey
        · show (ensureSAStep (ensureNamespaceStep st0).1 u.name).1.secrets = st0.secrets
          rw [hsaS, hnsS]
        · rw [updateUserStatusPure_name])
    simp at hr
  · rename_i heq3
    obtain ⟨hr, h4, h8, hL⟩ := ensureCertKubeconfig_fresh2 env _ _ cfgSec keySec kcfg certData tc
      _ _ _ _ heq3
      (by
        refine Eq.trans (findSecret_congr st0 _ kubeUserNamespace
          (u.name ++ "-kubeconfig") _ ?_ ?_) hcfg
        · show (ensureSAStep (ensureNamespaceStep st0).1 u.name).1.secrets = st0.secrets
          rw [hsaS, hnsS]
        · rw [updateUserStatusPure_name])
      hkcfg hext hexp hfresh
      (by
        refine Eq.trans (findSecret_congr st0 _ kubeUserNamespace
          (u.name ++ "-key") _ ?_ ?_) hkey
        · show (ensureSAStep (ensureNamespaceStep st0).1 u.name).1.secrets = st0.secrets
          rw [hsaS, hnsS]
        · rw [updateUserStatusPure_name])
    simp at hr
  · rename_i heq3
    obtain ⟨hr, h4, h8, hL⟩ := ensureCertKubeconfig_fresh2 env _ _ cfgSec keySec kcfg certData tc
      _ _ _ _ heq3
      (by
        refine Eq.trans (findSecret_congr st0 _ kubeUserNamespace
          (u.name ++ "-kubeconfig") _ ?_ ?_) hcfg
        · show (ensureSAStep (ensureNamespaceStep st0).1 u.name).1.secrets = st0.secrets
          rw [hsaS, hnsS]
        · rw [updateUserStatusPure_name])
      hkcfg hext hexp hfresh
      (by
        refine Eq.trans (findSecret_congr st0 _ kubeUserNamespace
          (u.name ++ "-key") _ ?_ ?_) hkey
        · show (ensureSAStep (ensureNamespaceStep st0).1 u.name).1.secrets = st0.secrets
          rw [hsaS, hnsS]
        · rw [updateUserStatusPure_name])
    subst h4 h8 hL
    refine ⟨?_, ?_, ?_, ?_⟩
    · intro hgt
      have hphE := updateUserStatusPure_phase_expired env.now u t hexpT hgt
      have hbeq : ((updateUserStatusPure env.now u).status.phase == "Active") = false := by
        rw [hphE]
        rfl
      rw [reconcileTail_nonactive env _ _ hbeq]
      constructor
      · rfl
      · have husers : ∀ st' : ClusterState, st'.users = st0.users →
            (((putUser st' (updateUserStatusPure env.now u)).users.find?
              (fun x => x.name == reqName)).map (fun v => v.status.phase)) = some "Expired" := by
          intro st' hst'
          simp only [putUser]
          rw [hst', find?_putUser_users st0.users reqName u (updateUserStatusPure env.now u)
            hfind hname3]
          simp [hphE]
        refine husers _ ?_
        show (ensureSAStep (ensureNamespaceStep st0).1 u.name).1.users = st0.users
        rw [hsaU, hnsU]
    · intro heqt
      have hact : ¬ env.now > t := by omega
      have hphA := updateUserStatusPure_phase_active env.now u t hexpT hact
      have hbeq : ((updateUserStatusPure env.now u).status.phase == "Active") = true := by
        rw [hphA]
        rfl
      have hle : t - env.now ≤ 0 := by omega
      rw [reconcileTail_active_past env _ _ t hbeq hexp3 hle]
      constructor
      · rfl
      · have husers : ∀ (st' : ClusterState) (w : User), st'.users = st0.users →
            w.name = u.name → w.status.phase = "Expired" →
            (((putUser (putUser st' (updateUserStatusPure env.now u)) w).users.find?
              (fun x => x.name == reqName)).map (fun v => v.status.phase)) = some "Expired" := by
          intro st' w hst' hwn hwp
          have h1 : (putUser st' (updateUserStatusPure env.now u)).users.find?
              (fun x => x.name == reqName) = some (updateUserStatusPure env.now u) := by
            simp only [putUser]
            rw [hst']
            exact find?_putUser_users st0.users reqName u (updateUserStatusPure env.now u)
              hfind hname3
          have h2 := putUser_find? (putUser st' (updateUserStatusPure env.now u)) w reqName
            (updateUserStatusPure env.now u) h1 (by rw [hwn, updateUserStatusPure_name])
          rw [h2]
          simp [hwp]
        refine husers _ _ ?_ ?_ ?_
        · show (ensureSAStep (ensureNamespaceStep st0).1 u.name).1.users = st0.users
          rw [hsaU, hnsU]
        · show (updateUserStatusPure env.now u).name = u.name
          exact hname3
        · rfl
    · intro hc
      have hact : ¬ env.now > t := by omega
      have hphA := updateUserStatusPure_phase_active env.now u t hexpT hact
      have hbeq : ((updateUserStatusPure env.now u).status.phase == "Active") = true := by
        rw [hphA]
        rfl
      have hgt0 : ¬ t - env.now ≤ 0 := by omega
      rw [reconcileTail_active_soon env _ _ t hbeq hexp3 hgt0 hc.2]
    · intro hc
      have hact : ¬ env.now > t := by omega
      have hphA := updateUserStatusPure_phase_active env.now u t hexpT hact
      have hbeq : ((updateUserStatusPure env.now u).status.phase == "Active") = true := by
        rw [hphA]
        rfl
      have hgt0 : ¬ t - env.now ≤ 0 := by omega
      rw [reconcileTail_active_far env _ _ t hbeq hexp3 hgt0 hc.2]

/-- Witness for C6 at the counterexample state: expiry -5 is in the past of
`now = 0`, so the pass yields the 30-minute requeue with phase `Expired`. -/
theorem C6_expiry_phase_requeue_witness :
    envNoFail.now > -5 ∧
    (Reconcile envNoFail c6State "u").1 = Outcome.ok (RequeueSpec.after (30 * 60)) ∧
    ((Reconcile envNoFail c6State "u").2.1.users.find? (fun x => x.name == "u")).map
      (fun v => v.status.phase) = some "Expired" :=
  ⟨by decide,
   ((C6_expiry_phase_requeue envNoFail c6State "u" c6User [] [] [] [] c6CfgSec c6KeySec
      c6Kcfg c6CertB64 99999999 (-5) rfl rfl (by decide) (by decide) rfl rfl rfl rfl rfl rfl
      (by decide) rfl rfl).1 (by decide)).1,
   ((C6_expiry_phase_requeue envNoFail c6State "u" c6User [] [] [] [] c6CfgSec c6KeySec
      c6Kcfg c6CertB64 99999999 (-5) rfl rfl (by decide) (by decide) rfl rfl rfl rfl rfl rfl
      (by decide) rfl rfl).1 (by decide)).2⟩

/-! ### C1/C5: convergence of the binding reconcilers -/

theorem String_data_inj {a b : String} (h : a.data = b.data) : a = b := by
  cases a with
  | mk da =>
    cases b with
    | mk db => exact congrArg String.mk h

theorem String_append_inj_right (a : String) {b c : String} (h : a ++ b = a ++ c) : b = c := by
  have hd := congrArg String.data h
  rw [String.data_append, String.data_append] at hd
  exact String_data_inj (List.append_cancel_left hd)

theorem String_append_inj_left {a b : String} (c : String) (h : a ++ c = b ++ c) : a = b := by
  have hd := congrArg String.data h
  rw [String.data_append, String.data_append] at hd
  exact String_data_inj (List.append_cancel_right hd)

/-- The controller's RoleBinding name pattern determines the role name. -/
theorem rbNamePattern_inj (u r1 r2 sfx : String)
    (h : u ++ "-" ++ r1 ++ sfx = u ++ "-" ++ r2 ++ sfx) : r1 = r2 := by
  have h1 : (u ++ "-") ++ (r1 ++ sfx) = (u ++ "-") ++ (r2 ++ sfx) := by
    rw [← String.append_assoc, ← String.append_assoc]
    exact h
  exact String_append_inj_left sfx (String_append_inj_right (u ++ "-") h1)

theorem sep_append_inj (sep : Char) :
    ∀ (xs zs ys ws : List Char), sep ∉ xs → sep ∉ zs →
      xs ++ sep :: ys = zs ++ sep :: ws → xs = zs ∧ ys = ws := by
  intro xs
  induction xs with
  | nil =>
    intro zs ys ws hx hz h
    cases zs with
    | nil =>
      simp only [List.nil_append] at h
      exact ⟨rfl, (List.cons.inj h).2⟩
    | cons z zs2 =>
      simp only [List.nil_append, List.cons_append] at h
      have hz1 : z = sep := (List.cons.inj h).1.symm
      rw [hz1] at hz
      exact absurd (List.mem_cons_self sep zs2) hz
  | cons x xs2 ih =>
    intro zs ys ws hx hz h
    cases zs with
    | nil =>
      simp only [List.nil_append, List.cons_append] at h
      have hx1 : x = sep := (List.cons.inj h).1
      rw [hx1] at hx
      exact absurd (List.mem_cons_self sep xs2) hx
    | cons z zs2 =>
      simp only [List.cons_append] at h
      have h1 := List.cons.inj h
      have h2 := ih zs2 ys ws (fun hm => hx (List.mem_cons_of_mem _ hm))
        (fun hm => hz (List.mem_cons_of_mem _ hm)) h1.2
      exact ⟨by rw [h1.1, h2.1], h2.2⟩

/-- The `ns:role` map key determines its components when the namespaces are
colon-free. -/
theorem colonKey_inj (a b c d : String) (ha : ':' ∉ a.data) (hc : ':' ∉ c.data)
    (h : a ++ ":" ++ b = c ++ ":" ++ d) : a = c ∧ b = d := by
  have hd := congrArg String.data h
  rw [String.data_append, String.data_append, String.data_append, String.data_append] at hd
  have hcolon : (":" : String).data = [':'] := rfl
  rw [hcolon, List.append_assoc, List.append_assoc, List.singleton_append,
    List.singleton_append] at hd
  have h2 := sep_append_inj ':' a.data c.data b.data d.data ha hc hd
  exact ⟨String_data_inj h2.1, String_data_inj h2.2⟩

theorem lookupKV_mem {α : Type} (m : List (String × α)) (k : String) (v : α)
    (h : lookupKV m k = some v) : (k, v) ∈ m := by
  rw [lookupKV] at h
  cases hf : m.find? (fun p => p.1 == k) with
  | none =>
    rw [hf] at h
    simp at h
  | some kv =>
    rw [hf] at h
    obtain ⟨k1, v1⟩ := kv
    have hm := List.mem_of_find?_eq_some hf
    have hk := List.find?_some hf
    have hk2 : k1 = k := by simpa using hk
    have hv : v1 = v := by simpa using h
    rw [← hk2, ← hv]
    exact hm

theorem mem_eraseKV {α : Type} (m : List (String × α)) (k : String) (kv : String × α) :
    kv ∈ eraseKV m k ↔ kv ∈ m ∧ kv.1 ≠ k := by
  rw [eraseKV, List.mem_filter]
  constructor
  · rintro ⟨h1, h2⟩
    exact ⟨h1, by simpa using h2⟩
  · rintro ⟨h1, h2⟩
    exact ⟨h1, by simpa using h2⟩

theorem mem_insertKV {α : Type} (m : List (String × α)) (k : String) (v : α) (kv : String × α)
    (h : kv ∈ insertKV m k v) : kv ∈ m ∨ kv = (k, v) := by
  rw [insertKV] at h
  split at h
  · rcases List.mem_map.mp h with ⟨p, hp, he⟩
    by_cases hpk : (p.1 == k) = true
    · rw [if_pos hpk] at he
      exact Or.inr he.symm
    · rw [if_neg hpk] at he
      exact Or.inl (he ▸ hp)
  · rcases List.mem_append.mp h with h1 | h2
    · exact Or.inl h1
    · exact Or.inr (List.mem_singleton.mp h2)

theorem keys_insertKV {α : Type} (m : List (String × α)) (k : String) (v : α) :
    (m.any (fun p => p.1 == k) = true ∧
      (insertKV m k v).map Prod.fst = m.map Prod.fst) ∨
    (m.any (fun p => p.1 == k) = false ∧
      (insertKV m k v).map Prod.fst = m.map Prod.fst ++ [k]) := by
  rw [insertKV]
  by_cases hany : m.any (fun p => p.1 == k) = true
  · left
    refine ⟨hany, ?_⟩
    rw [if_pos hany, List.map_map]
    refine List.map_congr_left ?_
    intro p hp
    by_cases hpk : (p.1 == k) = true
    · have hp1 : p.1 = k := by simpa using hpk
      show (if (p.1 == k) = true then (k, v) else p).1 = p.1
      rw [if_pos hpk]
      exact hp1.symm
    · show (if (p.1 == k) = true then (k, v) else p).1 = p.1
      rw [if_neg hpk]
  · right
    have hany2 : m.any (fun p => p.1 == k) = false := by
      cases hx : m.any (fun p => p.1 == k)
      · rfl
      · exact absurd hx hany
    refine ⟨hany2, ?_⟩
    rw [if_neg hany, List.map_append]
    rfl

theorem keyMem_insertKV {α : Type} (m : List (String × α)) (k k2 : String) (v : α)
    (h : k2 ∈ m.map Prod.fst) : k2 ∈ (insertKV m k v).map Prod.fst := by
  rcases keys_insertKV m k v with ⟨_, he⟩ | ⟨_, he⟩
  · rw [he]
    exact h
  · rw [he]
    exact List.mem_append.mpr (Or.inl h)

theorem keyMem_insertKV_self {α : Type} (m : List (String × α)) (k : String) (v : α) :
    k ∈ (insertKV m k v).map Prod.fst := by
  rw [insertKV]
  split
  · rename_i hany
    rcases List.any_eq_true.mp hany with ⟨p, hp, hpk⟩
    refine List.mem_map.mpr ⟨(k, v), List.mem_map.mpr ⟨p, hp, ?_⟩, rfl⟩
    exact if_pos hpk
  · exact List.mem_map.mpr ⟨(k, v), List.mem_append.mpr (Or.inr (List.mem_singleton.mpr rfl)), rfl⟩

theorem nodupKeys_insertKV {α : Type} (m : List (String × α)) (k : String) (v : α)
    (h : (m.map Prod.fst).Nodup) : ((insertKV m k v).map Prod.fst).Nodup := by
  rcases keys_insertKV m k v with ⟨_, he⟩ | ⟨hany, he⟩
  · rw [he]
    exact h
  · rw [he]
    have hk : k ∉ m.map Prod.fst := by
      intro hmem
      rcases List.mem_map.mp hmem with ⟨p, hp, hpk⟩
      have hb : (p.1 == k) = true := by simp [hpk]
      have h2 : (m.any (fun q => q.1 == k)) = true := List.any_eq_true.mpr ⟨p, hp, hb⟩
      rw [h2] at hany
      exact absurd hany (by simp)
    simp [List.nodup_append, h, hk]

def c1B1 : RoleBinding :=
  { name := "x", ns := "d", userLabel := some "u",
    subjects := [{ apiGroup := "", kind := "User", name := "u", ns := "" }],
    roleRef := { apiGroup := "rbac.authorization.k8s.io", kind := "Role", name := "r" } }

def c1B2 : RoleBinding :=
  { name := "y", ns := "d", userLabel := some "u",
    subjects := [{ apiGroup := "", kind := "User", name := "u", ns := "" }],
    roleRef := { apiGroup := "rbac.authorization.k8s.io", kind := "Role", name := "r" } }

/-- **C1 counterexample.**  Two labelled bindings carry the same
`(namespace, role)` key; the Go map of existing bindings collapses them to
one entry, the delete pass removes only that entry, and the reconciler
returns success with the desired set empty while a labelled binding with an
undesired key survives. -/
theorem C1_convergence_counterexample :
    (reconcileRoleBindings envNoFail "u" [] [] [c1B1, c1B2]).1 = Except.ok () ∧
    (reconcileRoleBindings envNoFail "u" [] [] [c1B1, c1B2]).2.1 = [c1B1] ∧
    c1B1.userLabel = some "u" := by
  decide

theorem rb_atSpot_key (username : String) (b : RoleBinding) (spec : RoleSpec)
    (hconv : b.name = username ++ "-" ++ b.roleRef.name ++ "-rb")
    (hns : b.ns = spec.ns)
    (hname : b.name = username ++ "-" ++ spec.existingRole ++ "-rb") :
    rbKey b = rbSpecKey spec := by
  have hr : b.roleRef.name = spec.existingRole :=
    rbNamePattern_inj username _ _ "-rb" (hconv.symm.trans hname)
  rw [rbKey, rbSpecKey, hns, hr]

theorem replace_fun_ns_name (desired x : RoleBinding) :
    ((if x.ns == desired.ns && x.name == desired.name then desired else x).ns = x.ns) ∧
    ((if x.ns == desired.ns && x.name == desired.name then desired else x).name = x.name) := by
  by_cases hc : (x.ns == desired.ns && x.name == desired.name) = true
  · rw [if_pos hc]
    have h1 := (Bool.and_eq_true _ _).mp hc
    have h2 : x.ns = desired.ns := by simpa using h1.1
    have h3 : x.name = desired.name := by simpa using h1.2
    exact ⟨h2.symm, h3.symm⟩
  · rw [if_neg hc]
    exact ⟨rfl, rfl⟩

theorem mkDesiredRB_matches_self (username : String) (spec : RoleSpec) :
    roleBindingMatches (mkDesiredRB username spec) (mkDesiredRB username spec) = true := by
  simp [roleBindingMatches, mkDesiredRB]

theorem findRB_some_mem (rbs : List RoleBinding) (ns name : String) (x : RoleBinding)
    (h : findRB rbs ns name = some x) :
    x ∈ rbs ∧ (x.ns == ns && x.name == name) = true := by
  rw [findRB] at h
  have h1 := List.find?_some h
  exact ⟨List.mem_of_find?_eq_some h, h1⟩

theorem findRB_none_spec (rbs : List RoleBinding) (ns name : String)
    (h : findRB rbs ns name = none) :
    ∀ b ∈ rbs, ¬(b.ns = ns ∧ b.name = name) := by
  rw [findRB] at h
  intro b hb hc
  have h2 := List.find?_eq_none.mp h b hb
  simp [hc.1, hc.2] at h2

theorem lookupKV_none {α : Type} (m : List (String × α)) (k : String)
    (h : lookupKV m k = none) : ∀ kv ∈ m, kv.1 ≠ k := by
  rw [lookupKV] at h
  have h2 : m.find? (fun p => p.1 == k) = none := by
    cases hf : m.find? (fun p => p.1 == k) with
    | none => rfl
    | some kv =>
      rw [hf] at h
      simp at h
  intro kv hkv he
  have h3 := List.find?_eq_none.mp h2 kv hkv
  simp [he] at h3

/-- Full specification of the create-or-update loop on a well-formed store:
uniqueness of `(namespace, name)`, the naming convention and colon-freeness
are preserved; the leftover map shrinks to the undesired entries, which stay
coherent; every desired entry ends with a matching labelled binding; labelled
bindings with undesired keys survive untouched and keep their map entry. -/
theorem applyDesiredRBs_spec (username : String) (ds0 : List (String × RoleSpec)) :
    ∀ (ds : List (String × RoleSpec)) (rbs : List RoleBinding)
      (m : List (String × RoleBinding)) (log : List WriteOp)
      (rbs2 : List RoleBinding) (m2 : List (String × RoleBinding)) (log2 : List WriteOp),
    applyDesiredRBs username ds rbs m log = (Except.ok (), rbs2, m2, log2) →
    (∀ kv ∈ ds, kv ∈ ds0) →
    (∀ kv ∈ ds, kv.1 = rbSpecKey kv.2) →
    (∀ kv ∈ ds, ':' ∉ kv.2.ns.data) →
    (ds.map Prod.fst).Nodup →
    rbs.Pairwise (fun a b => ¬(a.ns = b.ns ∧ a.name = b.name)) →
    (∀ b ∈ rbs, b.userLabel = some username →
      b.name = username ++ "-" ++ b.roleRef.name ++ "-rb") →
    (∀ b ∈ rbs, b.userLabel = some username → ':' ∉ b.ns.data) →
    (∀ kv ∈ m, kv.2 ∈ rbs ∧ kv.2.userLabel = some username ∧ rbKey kv.2 = kv.1) →
    (∀ b ∈ rbs, b.userLabel = some username →
      (∀ kv ∈ ds0, rbKey b ≠ kv.1) → (rbKey b, b) ∈ m) →
    (rbs2.Pairwise (fun a b => ¬(a.ns = b.ns ∧ a.name = b.name)) ∧
     (∀ b ∈ rbs2, b.userLabel = some username →
       b.name = username ++ "-" ++ b.roleRef.name ++ "-rb") ∧
     (∀ b ∈ rbs2, b.userLabel = some username → ':' ∉ b.ns.data) ∧
     (∀ kv ∈ m2, kv ∈ m ∧ ∀ kv2 ∈ ds, kv.1 ≠ kv2.1) ∧
     (∀ kv ∈ m2, kv.2 ∈ rbs2 ∧ kv.2.userLabel = some username ∧ rbKey kv.2 = kv.1) ∧
     (∀ kv ∈ ds, ∃ b ∈ rbs2, b.userLabel = some username ∧ rbKey b = kv.1 ∧
        roleBindingMatches b (mkDesiredRB username kv.2) = true) ∧
     (∀ b ∈ rbs, b.userLabel = some username → (∀ kv ∈ ds, rbKey b ≠ kv.1) → b ∈ rbs2) ∧
     (∀ b ∈ rbs2, b.userLabel = some username →
       (∀ kv ∈ ds0, rbKey b ≠ kv.1) → (rbKey b, b) ∈ m2)) := by
  intro ds
  induction ds with
  | nil =>
    intro rbs m log rbs2 m2 log2 h hds0 hdsk hdsc hnd huniq hconv hcol hm hndk
    rw [applyDesiredRBs] at h
    have h1 : rbs = rbs2 := congrArg (fun y => y.2.1) h
    have h2 : m = m2 := congrArg (fun y => y.2.2.1) h
    subst h1
    subst h2
    refine ⟨huniq, hconv, hcol, ?_, hm, ?_, ?_, hndk⟩
    · intro kv hkv
      exact ⟨hkv, fun kv2 hkv2 => absurd hkv2 (List.not_mem_nil kv2)⟩
    · intro kv hkv
      exact absurd hkv (List.not_mem_nil kv)
    · intro b hb hlab hk
      exact hb
  | cons kv0 rest ih =>
    obtain ⟨k, spec⟩ := kv0
    intro rbs m log rbs2 m2 log2 h hds0 hdsk hdsc hnd huniq hconv hcol hm hndk
    have hk : k = rbSpecKey spec := hdsk (k, spec) (List.mem_cons_self _ _)
    have hkd0 : (k, spec) ∈ ds0 := hds0 (k, spec) (List.mem_cons_self _ _)
    have hspecc : ':' ∉ spec.ns.data := hdsc (k, spec) (List.mem_cons_self _ _)
    have hnd2 : (rest.map Prod.fst).Nodup := (List.nodup_cons.mp hnd).2
    have hknotin : k ∉ rest.map Prod.fst := (List.nodup_cons.mp hnd).1
    have hkrest : ∀ kv2 ∈ rest, kv2.1 ≠ k := by
      intro kv2 hkv2 he
      exact hknotin (he ▸ List.mem_map.mpr ⟨kv2, hkv2, rfl⟩)
    have hdk : rbKey (mkDesiredRB username spec) = k := by
      rw [hk]
      rfl
    have hdlab : (mkDesiredRB username spec).userLabel = some username := rfl
    have hdconv : (mkDesiredRB username spec).name =
        username ++ "-" ++ (mkDesiredRB username spec).roleRef.name ++ "-rb" := rfl
    simp only [applyDesiredRBs] at h
    split at h
    · rename_i ex hlk
      split at h
      · -- skip: the existing binding already matches
        rename_i hmatch
        have hexm := lookupKV_mem m k ex hlk
        obtain ⟨hexrb, hexlab, hexkey⟩ := hm (k, ex) hexm
        obtain ⟨c1, c2, c3, c4, c5, c6, c7, c8⟩ := ih rbs (eraseKV m k) log rbs2 m2 log2 h
          (fun kv hkv => hds0 kv (List.mem_cons_of_mem _ hkv))
          (fun kv hkv => hdsk kv (List.mem_cons_of_mem _ hkv))
          (fun kv hkv => hdsc kv (List.mem_cons_of_mem _ hkv))
          hnd2 huniq hconv hcol
          (fun kv hkv => hm kv ((mem_eraseKV m k kv).mp hkv).1)
          (by
            intro b hb hlab hnk
            refine (mem_eraseKV m k (rbKey b, b)).mpr ⟨hndk b hb hlab hnk, ?_⟩
            exact hnk (k, spec) hkd0)
        refine ⟨c1, c2, c3, ?_, c5, ?_, ?_, c8⟩
        · intro kv hkv
          obtain ⟨hkv1, hkv2⟩ := c4 kv hkv
          obtain ⟨hkvm, hkvne⟩ := (mem_eraseKV m k kv).mp hkv1
          refine ⟨hkvm, ?_⟩
          intro kv2 hkv2m
          rcases List.mem_cons.mp hkv2m with he | he
          · rw [he]
            exact hkvne
          · exact hkv2 kv2 he
        · intro kv hkv
          rcases List.mem_cons.mp hkv with he | he
          · subst he
            refine ⟨ex, ?_, hexlab, hexkey, hmatch⟩
            refine c7 ex hexrb hexlab ?_
            intro kv2 hkv2
            rw [hexkey]
            exact fun hee => (hkrest kv2 hkv2) hee.symm
          · exact c6 kv he
        · intro b hb hlab hnk
          exact c7 b hb hlab (fun kv2 hkv2 => hnk kv2 (List.mem_cons_of_mem _ hkv2))
      · -- update: rewrite the existing binding in place
        rename_i hnm
        split at h
        · rename_i x hfind
          obtain ⟨hxrb, hxc⟩ := findRB_some_mem rbs _ _ x hfind
          have hexm := lookupKV_mem m k ex hlk
          obtain ⟨hexrb, hexlab, hexkey⟩ := hm (k, ex) hexm
          have hfun : ∀ y : RoleBinding,
              ((if y.ns == (mkDesiredRB username spec).ns &&
                  y.name == (mkDesiredRB username spec).name
                then mkDesiredRB username spec else y).ns = y.ns) ∧
              ((if y.ns == (mkDesiredRB username spec).ns &&
                  y.name == (mkDesiredRB username spec).name
                then mkDesiredRB username spec else y).name = y.name) :=
            fun y => replace_fun_ns_name (mkDesiredRB username spec) y
          have hspot : ∀ y : RoleBinding, y ∈ rbs → y.userLabel = some username →
              (y.ns == (mkDesiredRB username spec).ns &&
               y.name == (mkDesiredRB username spec).name) = true →
              rbKey y = k := by
            intro y hy hylab hyc
            have h1 := (Bool.and_eq_true _ _).mp hyc
            have h2 : y.ns = spec.ns := by simpa using h1.1
            have h3 : y.name = username ++ "-" ++ spec.existingRole ++ "-rb" := by
              simpa using h1.2
            rw [rb_atSpot_key username y spec (hconv y hy hylab) h2 h3]
            exact hk.symm
          have huniqR : (replaceRB rbs (mkDesiredRB username spec)).Pairwise
              (fun a b => ¬(a.ns = b.ns ∧ a.name = b.name)) := by
            rw [replaceRB]
            refine List.pairwise_map.mpr (huniq.imp ?_)
            intro a b hab hcontra
            exact hab ⟨((hfun a).1).symm.trans (hcontra.1.trans (hfun b).1),
              ((hfun a).2).symm.trans (hcontra.2.trans (hfun b).2)⟩
          have hconvR : ∀ b ∈ replaceRB rbs (mkDesiredRB username spec),
              b.userLabel = some username →
              b.name = username ++ "-" ++ b.roleRef.name ++ "-rb" := by
            rw [replaceRB]
            intro b hb hlab
            rcases List.mem_map.mp hb with ⟨y, hy, hfy⟩
            by_cases hc : (y.ns == (mkDesiredRB username spec).ns &&
                y.name == (mkDesiredRB username spec).name) = true
            · rw [if_pos hc] at hfy
              rw [← hfy]
              exact hdconv
            · rw [if_neg hc] at hfy
              rw [← hfy]
              exact hconv y hy (hfy ▸ hlab)
          have hcolR : ∀ b ∈ replaceRB rbs (mkDesiredRB username spec),
              b.userLabel = some username → ':' ∉ b.ns.data := by
            rw [replaceRB]
            intro b hb hlab
            rcases List.mem_map.mp hb with ⟨y, hy, hfy⟩
            by_cases hc : (y.ns == (mkDesiredRB username spec).ns &&
                y.name == (mkDesiredRB username spec).name) = true
            · rw [if_pos hc] at hfy
              rw [← hfy]
              exact hspecc
            · rw [if_neg hc] at hfy
              rw [← hfy]
              exact hcol y hy (hfy ▸ hlab)
          have hmemR : ∀ y ∈ rbs, y.userLabel = some username → rbKey y ≠ k →
              y ∈ replaceRB rbs (mkDesiredRB username spec) := by
            intro y hy hylab hyk
            rw [replaceRB]
            have hc : (y.ns == (mkDesiredRB username spec).ns &&
                y.name == (mkDesiredRB username spec).name) = false := by
              cases hx : (y.ns == (mkDesiredRB username spec).ns &&
                  y.name == (mkDesiredRB username spec).name)
              · rfl
              · exact absurd (hspot y hy hylab hx) hyk
            have hfy : (if y.ns == (mkDesiredRB username spec).ns &&
                y.name == (mkDesiredRB username spec).name
                then mkDesiredRB username spec else y) = y := by
              rw [hc]
              rfl
            exact hfy ▸ List.mem_map_of_mem _ hy
          obtain ⟨c1, c2, c3, c4, c5, c6, c7, c8⟩ := ih
            (replaceRB rbs (mkDesiredRB username spec)) (eraseKV m k)
            (log ++ [WriteOp.rbUpdate (mkDesiredRB username spec).ns
              (mkDesiredRB username spec).name]) rbs2 m2 log2 h
            (fun kv hkv => hds0 kv (List.mem_cons_of_mem _ hkv))
            (fun kv hkv => hdsk kv (List.mem_cons_of_mem _ hkv))
            (fun kv hkv => hdsc kv (List.mem_cons_of_mem _ hkv))
            hnd2 huniqR hconvR hcolR
            (by
              intro kv hkv
              obtain ⟨hkvm, hkvne⟩ := (mem_eraseKV m k kv).mp hkv
              obtain ⟨hv1, hv2, hv3⟩ := hm kv hkvm
              exact ⟨hmemR kv.2 hv1 hv2 (hv3 ▸ hkvne), hv2, hv3⟩)
            (by
              intro b hb hlab hnk
              have hbk : rbKey b ≠ k := by
                intro he
                exact hnk (k, spec) hkd0 he
              rw [replaceRB] at hb
              rcases List.mem_map.mp hb with ⟨y, hy, hfy⟩
              by_cases hc : (y.ns == (mkDesiredRB username spec).ns &&
                  y.name == (mkDesiredRB username spec).name) = true
              · rw [if_pos hc] at hfy
                exact absurd (hfy ▸ hdk) hbk
              · rw [if_neg hc] at hfy
                subst hfy
                refine (mem_eraseKV m k (rbKey y, y)).mpr ⟨hndk y hy hlab hnk, hbk⟩)
          refine ⟨c1, c2, c3, ?_, c5, ?_, ?_, c8⟩
          · intro kv hkv
            obtain ⟨hkv1, hkv2⟩ := c4 kv hkv
            obtain ⟨hkvm, hkvne⟩ := (mem_eraseKV m k kv).mp hkv1
            refine ⟨hkvm, ?_⟩
            intro kv2 hkv2m
            rcases List.mem_cons.mp hkv2m with he | he
            · rw [he]
              exact hkvne
            · exact hkv2 kv2 he
          · intro kv hkv
            rcases List.mem_cons.mp hkv with he | he
            · subst he
              have hdm : mkDesiredRB username spec ∈ replaceRB rbs (mkDesiredRB username spec) := by
                rw [replaceRB]
                refine List.mem_map.mpr ⟨x, hxrb, ?_⟩
                exact if_pos hxc
              refine ⟨mkDesiredRB username spec, ?_, hdlab, hdk, mkDesiredRB_matches_self username spec⟩
              refine c7 (mkDesiredRB username spec) hdm hdlab ?_
              intro kv2 hkv2
              rw [hdk]
              exact fun hee => (hkrest kv2 hkv2) hee.symm
            · exact c6 kv he
          · intro b hb hlab hnk
            have hbk : rbKey b ≠ k := hnk (k, spec) (List.mem_cons_self _ _)
            exact c7 b (hmemR b hb hlab hbk) hlab
              (fun kv2 hkv2 => hnk kv2 (List.mem_cons_of_mem _ hkv2))
        · exact absurd (congrArg (fun y => y.1) h) (by simp)
    · rename_i hlk
      split at h
      · exact absurd (congrArg (fun y => y.1) h) (by simp)
      · -- create: no existing binding of this key or name
        rename_i hfind
        have hnone := findRB_none_spec rbs _ _ hfind
        have hmnone := lookupKV_none m k hlk
        have huniqA : (rbs ++ [mkDesiredRB username spec]).Pairwise
            (fun a b => ¬(a.ns = b.ns ∧ a.name = b.name)) := by
          refine List.pairwise_append.mpr ⟨huniq, List.pairwise_singleton _ _, ?_⟩
          intro a ha b hb
          rw [List.mem_singleton.mp hb]
          exact hnone a ha
        have hconvA : ∀ b ∈ rbs ++ [mkDesiredRB username spec],
            b.userLabel = some username →
            b.name = username ++ "-" ++ b.roleRef.name ++ "-rb" := by
          intro b hb hlab
          rcases List.mem_append.mp hb with h1 | h1
          · exact hconv b h1 hlab
          · rw [List.mem_singleton.mp h1]
            exact hdconv
        have hcolA : ∀ b ∈ rbs ++ [mkDesiredRB username spec],
            b.userLabel = some username → ':' ∉ b.ns.data := by
          intro b hb hlab
          rcases List.mem_append.mp hb with h1 | h1
          · exact hcol b h1 hlab
          · rw [List.mem_singleton.mp h1]
            exact hspecc
        obtain ⟨c1, c2, c3, c4, c5, c6, c7, c8⟩ := ih
          (rbs ++ [mkDesiredRB username spec]) m
          (log ++ [WriteOp.rbCreate (mkDesiredRB username spec).ns
            (mkDesiredRB username spec).name]) rbs2 m2 log2 h
          (fun kv hkv => hds0 kv (List.mem_cons_of_mem _ hkv))
          (fun kv hkv => hdsk kv (List.mem_cons_of_mem _ hkv))
          (fun kv hkv => hdsc kv (List.mem_cons_of_mem _ hkv))
          hnd2 huniqA hconvA hcolA
          (by
            intro kv hkv
            obtain ⟨hv1, hv2, hv3⟩ := hm kv hkv
            exact ⟨List.mem_append.mpr (Or.inl hv1), hv2, hv3⟩)
          (by
            intro b hb hlab hnk
            rcases List.mem_append.mp hb with h1 | h1
            · exact hndk b h1 hlab hnk
            · rw [List.mem_singleton.mp h1] at hlab hnk ⊢
              exact absurd (hdk) (hnk (k, spec) hkd0))
        refine ⟨c1, c2, c3, ?_, c5, ?_, ?_, c8⟩
        · intro kv hkv
          obtain ⟨hkv1, hkv2⟩ := c4 kv hkv
          refine ⟨hkv1, ?_⟩
          intro kv2 hkv2m
          rcases List.mem_cons.mp hkv2m with he | he
          · rw [he]
            exact hmnone kv hkv1
          · exact hkv2 kv2 he
        · intro kv hkv
          rcases List.mem_cons.mp hkv with he | he
          · subst he
            have hdm : mkDesiredRB username spec ∈ rbs ++ [mkDesiredRB username spec] :=
              List.mem_append.mpr (Or.inr (List.mem_singleton.mpr rfl))
            refine ⟨mkDesiredRB username spec, ?_, hdlab, hdk, mkDesiredRB_matches_self username spec⟩
            refine c7 (mkDesiredRB username spec) hdm hdlab ?_
            intro kv2 hkv2
            rw [hdk]
            exact fun hee => (hkrest kv2 hkv2) hee.symm
          · exact c6 kv he
        · intro b hb hlab hnk
          exact c7 b (List.mem_append.mpr (Or.inl hb)) hlab
            (fun kv2 hkv2 => hnk kv2 (List.mem_cons_of_mem _ hkv2))

/-- State effect of the leftover-delete loop: on success every map value's
`(namespace, name)` is gone from the store and everything else survives. -/
theorem deleteLeftoverRBs_state (env : Env) :
    ∀ (m : List (String × RoleBinding)) (rbs : List RoleBinding) (log : List WriteOp)
      (rbs2 : List RoleBinding) (log2 : List WriteOp),
    deleteLeftoverRBs env m rbs log = (Except.ok (), rbs2, log2) →
    ((∀ b ∈ rbs2, b ∈ rbs) ∧
     (∀ kv ∈ m, ∀ b ∈ rbs2, ¬(b.ns = kv.2.ns ∧ b.name = kv.2.name)) ∧
     (∀ b ∈ rbs, (∀ kv ∈ m, ¬(kv.2.ns = b.ns ∧ kv.2.name = b.name)) → b ∈ rbs2)) := by
  intro m
  induction m with
  | nil =>
    intro rbs log rbs2 log2 h
    rw [deleteLeftoverRBs] at h
    have h1 : rbs = rbs2 := congrArg (fun y => y.2.1) h
    subst h1
    refine ⟨fun b hb => hb, ?_, fun b hb hh => hb⟩
    intro kv hkv
    exact absurd hkv (List.not_mem_nil kv)
  | cons kv0 rest ih =>
    obtain ⟨k, rb⟩ := kv0
    intro rbs log rbs2 log2 h
    rw [deleteLeftoverRBs] at h
    split at h
    · exact absurd (congrArg (fun y => y.1) h) (by simp)
    · obtain ⟨d1, d2, d3⟩ := ih (removeRB rbs rb.ns rb.name)
        (log ++ [WriteOp.rbDelete rb.ns rb.name]) rbs2 log2 h
      refine ⟨?_, ?_, ?_⟩
      · intro b hb
        have h2 := d1 b hb
        rw [removeRB] at h2
        exact List.mem_of_mem_filter h2
      · intro kv hkv b hb
        rcases List.mem_cons.mp hkv with he | he
        · rw [he]
          have h2 := d1 b hb
          rw [removeRB] at h2
          have h3 := List.of_mem_filter h2
          intro hc
          rw [hc.1, hc.2] at h3
          simp at h3
        · exact d2 kv he b hb
      · intro b hb hno
        have hbne : ¬(rb.ns = b.ns ∧ rb.name = b.name) :=
          hno (k, rb) (List.mem_cons_self _ _)
        have hcond : (b.ns == rb.ns && b.name == rb.name) = false := by
          cases hx : (b.ns == rb.ns && b.name == rb.name) with
          | false => rfl
          | true =>
            exfalso
            have h1 := (Bool.and_eq_true _ _).mp hx
            have h2 : b.ns = rb.ns := by simpa using h1.1
            have h3 : b.name = rb.name := by simpa using h1.2
            exact hbne ⟨h2.symm, h3.symm⟩
        have hbm : b ∈ removeRB rbs rb.ns rb.name := by
          rw [removeRB]
          refine List.mem_filter.mpr ⟨hb, ?_⟩
          rw [hcond]
          rfl
        exact d3 b hbm (fun kv hkv => hno kv (List.mem_cons_of_mem _ hkv))

/-- Entry soundness of the validated desired map. -/
theorem buildDesiredRBs_entries (roles : List (String × String)) (specAll : List RoleSpec) :
    ∀ (specs : List RoleSpec) (acc ds : List (String × RoleSpec)),
    buildDesiredRBs roles specs acc = Except.ok ds →
    (∀ r ∈ specs, r ∈ specAll) →
    (∀ kv ∈ acc, kv.1 = rbSpecKey kv.2 ∧ kv.2 ∈ specAll) →
    ∀ kv ∈ ds, kv.1 = rbSpecKey kv.2 ∧ kv.2 ∈ specAll := by
  intro specs
  induction specs with
  | nil =>
    intro acc ds h hs hacc kv hkv
    rw [buildDesiredRBs] at h
    have h2 : acc = ds := by simpa using h
    exact hacc kv (h2 ▸ hkv)
  | cons r rest ih =>
    intro acc ds h hs hacc kv hkv
    rw [buildDesiredRBs] at h
    split at h
    · refine ih _ ds h (fun x hx => hs x (List.mem_cons_of_mem r hx)) ?_ kv hkv
      intro kv2 hkv2
      rcases mem_insertKV acc (rbSpecKey r) r kv2 hkv2 with h1 | h1
      · exact hacc kv2 h1
      · rw [h1]
        exact ⟨rfl, hs r (List.mem_cons_self r rest)⟩
    · simp at h

/-- Keys already accumulated survive the rest of the validation pass. -/
theorem buildDesiredRBs_keys_mono (roles : List (String × String)) :
    ∀ (specs : List RoleSpec) (acc ds : List (String × RoleSpec)) (k : String),
    buildDesiredRBs roles specs acc = Except.ok ds →
    k ∈ acc.map Prod.fst → k ∈ ds.map Prod.fst := by
  intro specs
  induction specs with
  | nil =>
    intro acc ds k h hk
    rw [buildDesiredRBs] at h
    have h2 : acc = ds := by simpa using h
    exact h2 ▸ hk
  | cons r rest ih =>
    intro acc ds k h hk
    rw [buildDesiredRBs] at h
    split at h
    · exact ih _ ds k h (keyMem_insertKV acc (rbSpecKey r) k r hk)
    · simp at h

/-- Every desired role's key is present in the validated map. -/
theorem buildDesiredRBs_complete (roles : List (String × String)) :
    ∀ (specs : List RoleSpec) (acc ds : List (String × RoleSpec)),
    buildDesiredRBs roles specs acc = Except.ok ds →
    ∀ r ∈ specs, rbSpecKey r ∈ ds.map Prod.fst := by
  intro specs
  induction specs with
  | nil =>
    intro acc ds h r hr
    exact absurd hr (List.not_mem_nil r)
  | cons r0 rest ih =>
    intro acc ds h r hr
    rw [buildDesiredRBs] at h
    split at h
    · rcases List.mem_cons.mp hr with he | he
      · rw [he]
        exact buildDesiredRBs_keys_mono roles rest _ ds (rbSpecKey r0) h
          (keyMem_insertKV_self acc (rbSpecKey r0) r0)
      · exact ih _ ds h r he
    · simp at h

theorem buildDesiredRBs_nodup (roles : List (String × String)) :
    ∀ (specs : List RoleSpec) (acc ds : List (String × RoleSpec)),
    buildDesiredRBs roles specs acc = Except.ok ds →
    (acc.map Prod.fst).Nodup → (ds.map Prod.fst).Nodup := by
  intro specs
  induction specs with
  | nil =>
    intro acc ds h hn
    rw [buildDesiredRBs] at h
    have h2 : acc = ds := by simpa using h
    exact h2 ▸ hn
  | cons r rest ih =>
    intro acc ds h hn
    rw [buildDesiredRBs] at h
    split at h
    · exact ih _ ds h (nodupKeys_insertKV acc (rbSpecKey r) r hn)
    · simp at h

/-- With pairwise-distinct keys the fold of Go-map inserts is a plain
association list. -/
theorem foldl_insertKV_eq :
    ∀ (L : List RoleBinding) (acc : List (String × RoleBinding)),
    (∀ b ∈ L, ¬ rbKey b ∈ acc.map Prod.fst) →
    L.Pairwise (fun a b => rbKey a ≠ rbKey b) →
    L.foldl (fun m rb => insertKV m (rbKey rb) rb) acc =
      acc ++ L.map (fun b => (rbKey b, b)) := by
  intro L
  induction L with
  | nil =>
    intro acc h1 h2
    simp
  | cons b rest ih =>
    intro acc h1 h2
    rw [List.foldl_cons]
    have hnot : acc.any (fun p => p.1 == rbKey b) = false := by
      cases hx : acc.any (fun p => p.1 == rbKey b) with
      | false => rfl
      | true =>
        exfalso
        rcases List.any_eq_true.mp hx with ⟨p, hp, hpk⟩
        have hpe : p.1 = rbKey b := by simpa using hpk
        exact h1 b (List.mem_cons_self b rest) (List.mem_map.mpr ⟨p, hp, hpe⟩)
    have hins : insertKV acc (rbKey b) b = acc ++ [(rbKey b, b)] := by
      rw [insertKV, if_neg (by rw [hnot]; exact Bool.false_ne_true)]
    rw [hins, ih (acc ++ [(rbKey b, b)]) ?_ (List.pairwise_cons.mp h2).2]
    · rw [List.append_assoc, List.singleton_append, List.map_cons]
    · intro c hc hmem
      rw [List.map_append] at hmem
      rcases List.mem_append.mp hmem with hm1 | hm2
      · exact h1 c (List.mem_cons_of_mem b hc) hm1
      · have h3 : rbKey c = rbKey b := by simpa using hm2
        exact ((List.pairwise_cons.mp h2).1 c hc) h3.symm

theorem pairwise_mem_eq {α : Type} {R : α → α → Prop} :
    ∀ (l : List α), l.Pairwise R → ∀ a ∈ l, ∀ b ∈ l, ¬ R a b → ¬ R b a → a = b := by
  intro l
  induction l with
  | nil =>
    intro _ a ha
    exact absurd ha (List.not_mem_nil a)
  | cons x rest ih =>
    intro hpw a ha b hb hnab hnba
    rcases List.mem_cons.mp ha with ha1 | ha1
    · rcases List.mem_cons.mp hb with hb1 | hb1
      · rw [ha1, hb1]
      · exact absurd ((List.pairwise_cons.mp hpw).1 b hb1) (ha1 ▸ hnab)
    · rcases List.mem_cons.mp hb with hb1 | hb1
      · exact absurd ((List.pairwise_cons.mp hpw).1 a ha1) (hb1 ▸ hnba)
      · exact ih (List.pairwise_cons.mp hpw).2 a ha1 b hb1 hnab hnba

theorem labeled_keys_pairwise (username : String) (rbs : List RoleBinding)
    (huniq : rbs.Pairwise (fun a b => ¬(a.ns = b.ns ∧ a.name = b.name)))
    (hconv : ∀ b ∈ rbs, b.userLabel = some username →
      b.name = username ++ "-" ++ b.roleRef.name ++ "-rb")
    (hcol : ∀ b ∈ rbs, b.userLabel = some username → ':' ∉ b.ns.data) :
    (rbs.filter (fun b => b.userLabel == some username)).Pairwise
      (fun a b => rbKey a ≠ rbKey b) := by
  have hsub : List.Sublist (rbs.filter (fun b => b.userLabel == some username)) rbs :=
    List.filter_sublist rbs
  have hpw := List.Pairwise.sublist hsub huniq
  refine List.Pairwise.imp_of_mem ?_ hpw
  intro a b ha hb hab he
  have halab : a.userLabel = some username := by simpa using List.of_mem_filter ha
  have hblab : b.userLabel = some username := by simpa using List.of_mem_filter hb
  have ham := List.mem_of_mem_filter ha
  have hbm := List.mem_of_mem_filter hb
  have he2 : a.ns ++ ":" ++ a.roleRef.name = b.ns ++ ":" ++ b.roleRef.name := he
  have hsplit := colonKey_inj a.ns a.roleRef.name b.ns b.roleRef.name
    (hcol a ham halab) (hcol b hbm hblab) he2
  refine hab ⟨hsplit.1, ?_⟩
  rw [hconv a ham halab, hconv b hbm hblab, hsplit.2]

theorem buildExistingRBMap_eq (L : List RoleBinding)
    (h : L.Pairwise (fun a b => rbKey a ≠ rbKey b)) :
    buildExistingRBMap L = L.map (fun b => (rbKey b, b)) := by
  rw [buildExistingRBMap]
  rw [foldl_insertKV_eq L [] ?_ h]
  · rw [List.nil_append]
  · intro b hb hmem
    simp at hmem

/-- **C1** (corrected).  On a well-formed store — unique `(namespace, name)`
pairs, every labelled binding following the controller's naming convention
`<user>-<role>-rb`, and colon-free namespaces — a successful
`reconcileRoleBindings` does converge: the labelled bindings are keyed by
exactly the desired `(namespace, role)` pairs.  The counterexample shows the
unqualified claim false: with two labelled bindings of the same key the
existing-map collapse leaves a survivor. -/
theorem C1_convergence (env : Env) (username : String) (specRoles : List RoleSpec)
    (roles : List (String × String)) (rbs : List RoleBinding)
    (H1 : rbs.Pairwise (fun a b => ¬(a.ns = b.ns ∧ a.name = b.name)))
    (H2 : ∀ b ∈ rbs, b.userLabel = some username →
      b.name = username ++ "-" ++ b.roleRef.name ++ "-rb")
    (H3 : ∀ b ∈ rbs, b.userLabel = some username → ':' ∉ b.ns.data)
    (H4 : ∀ r ∈ specRoles, ':' ∉ r.ns.data)
    (hok : (reconcileRoleBindings env username specRoles roles rbs).1 = Except.ok ()) :
    (∀ b ∈ (reconcileRoleBindings env username specRoles roles rbs).2.1,
      b.userLabel = some username →
      ∃ r ∈ specRoles, b.ns = r.ns ∧ b.roleRef.name = r.existingRole) ∧
    (∀ r ∈ specRoles,
      ∃ b ∈ (reconcileRoleBindings env username specRoles roles rbs).2.1,
        b.userLabel = some username ∧ b.ns = r.ns ∧ b.roleRef.name = r.existingRole) := by
  rcases hrec : reconcileRoleBindings env username specRoles roles rbs with ⟨res, rbs2, log2⟩
  rw [hrec] at hok
  have hok2 : res = Except.ok () := hok
  subst hok2
  simp only [reconcileRoleBindings] at hrec
  split at hrec
  · exact absurd (congrArg (fun y => y.1) hrec) (by simp)
  · rename_i ds hds
    split at hrec
    · exact absurd (congrArg (fun y => y.1) hrec) (by simp)
    · rename_i rbs1 m1 log1 happ
      have hex := labeled_keys_pairwise username rbs H1 H2 H3
      have hm_eq := buildExistingRBMap_eq _ hex
      have hds_entries := buildDesiredRBs_entries roles specRoles specRoles [] ds hds
        (fun r hr => hr) (by intro kv hkv; exact absurd hkv (List.not_mem_nil kv))
      have hds_nodup := buildDesiredRBs_nodup roles specRoles [] ds hds (by simp)
      have hds_complete := buildDesiredRBs_complete roles specRoles [] ds hds
      have hm_coh : ∀ kv ∈ buildExistingRBMap
          (rbs.filter (fun b => b.userLabel == some username)),
          kv.2 ∈ rbs ∧ kv.2.userLabel = some username ∧ rbKey kv.2 = kv.1 := by
        intro kv hkv
        rw [hm_eq] at hkv
        rcases List.mem_map.mp hkv with ⟨b, hb, he⟩
        subst he
        have hlab : b.userLabel = some username := by simpa using List.of_mem_filter hb
        exact ⟨List.mem_of_mem_filter hb, hlab, rfl⟩
      have hm_ndk : ∀ b ∈ rbs, b.userLabel = some username →
          (∀ kv ∈ ds, rbKey b ≠ kv.1) →
          (rbKey b, b) ∈ buildExistingRBMap
            (rbs.filter (fun b => b.userLabel == some username)) := by
        intro b hb hlab hnk
        rw [hm_eq]
        exact List.mem_map.mpr ⟨b, List.mem_filter.mpr ⟨hb, by simp [hlab]⟩, rfl⟩
      obtain ⟨c1, c2, c3, c4, c5, c6, c7, c8⟩ :=
        applyDesiredRBs_spec username ds ds rbs _ [] rbs1 m1 log1 happ
          (fun kv hkv => hkv)
          (fun kv hkv => (hds_entries kv hkv).1)
          (fun kv hkv => H4 kv.2 (hds_entries kv hkv).2)
          hds_nodup H1 H2 H3 hm_coh hm_ndk
      obtain ⟨d1, d2, d3⟩ := deleteLeftoverRBs_state env m1 rbs1 log1 rbs2 log2 hrec
      constructor
      · intro b hb hlab
        have hbr1 := d1 b hb
        by_cases hkd : ∀ kv ∈ ds, rbKey b ≠ kv.1
        · exfalso
          have hentry := c8 b hbr1 hlab hkd
          exact d2 (rbKey b, b) hentry b hb ⟨rfl, rfl⟩
        · push_neg at hkd
          obtain ⟨kv, hkv, hke⟩ := hkd
          obtain ⟨hkk, hkspec⟩ := hds_entries kv hkv
          have hbcol : ':' ∉ b.ns.data := c3 b hbr1 hlab
          have hscol : ':' ∉ kv.2.ns.data := H4 kv.2 hkspec
          have heq2 : b.ns ++ ":" ++ b.roleRef.name =
              kv.2.ns ++ ":" ++ kv.2.existingRole := hke.trans hkk
          have hsplit := colonKey_inj _ _ _ _ hbcol hscol heq2
          exact ⟨kv.2, hkspec, hsplit.1, hsplit.2⟩
      · intro r hr
        have hkeyr := hds_complete r hr
        rcases List.mem_map.mp hkeyr with ⟨kv, hkv, hfst⟩
        obtain ⟨b, hbm, hblab, hbkey, hbmatch⟩ := c6 kv hkv
        have hsurv : b ∈ rbs2 := by
          refine d3 b hbm ?_
          intro kv2 hkv2 hc
          obtain ⟨hv1, hv2, hv3⟩ := c5 kv2 hkv2
          have hveq : kv2.2 = b :=
            pairwise_mem_eq rbs1 c1 kv2.2 hv1 b hbm
              (fun hR => hR ⟨hc.1, hc.2⟩)
              (fun hR => hR ⟨hc.1.symm, hc.2.symm⟩)
          have hkne := (c4 kv2 hkv2).2 kv hkv
          apply hkne
          rw [← hv3, hveq, hbkey]
        have hbcol : ':' ∉ b.ns.data := c3 b hbm hblab
        have hrcol : ':' ∉ r.ns.data := H4 r hr
        have heq2 : b.ns ++ ":" ++ b.roleRef.name = r.ns ++ ":" ++ r.existingRole :=
          hbkey.trans hfst
        have hsplit := colonKey_inj _ _ _ _ hbcol hrcol heq2
        exact ⟨b, hsurv, hblab, hsplit.1, hsplit.2⟩

def c1Specs : List RoleSpec :=
  [{ ns := "d", existingRole := "r1" }, { ns := "e", existingRole := "r3" }]

def c1Roles : List (String × String) := [("d", "r1"), ("e", "r3")]

def c1Keep : RoleBinding :=
  { name := "u-r1-rb", ns := "d", userLabel := some "u",
    subjects := [{ apiGroup := "", kind := "User", name := "u", ns := "" }],
    roleRef := { apiGroup := "rbac.authorization.k8s.io", kind := "Role", name := "r1" } }

def c1Stale : RoleBinding :=
  { name := "u-r2-rb", ns := "d", userLabel := some "u",
    subjects := [{ apiGroup := "", kind := "User", name := "u", ns := "" }],
    roleRef := { apiGroup := "rbac.authorization.k8s.io", kind := "Role", name := "r2" } }

/-- Witness for C1 on a mixed diff: one binding kept, one stale binding for
the dropped role, one new role to create. -/
theorem C1_convergence_witness :
    (reconcileRoleBindings envNoFail "u" c1Specs c1Roles [c1Keep, c1Stale]).1 =
      Except.ok () ∧
    (∀ b ∈ (reconcileRoleBindings envNoFail "u" c1Specs c1Roles [c1Keep, c1Stale]).2.1,
      b.userLabel = some "u" →
      ∃ r ∈ c1Specs, b.ns = r.ns ∧ b.roleRef.name = r.existingRole) ∧
    (∀ r ∈ c1Specs,
      ∃ b ∈ (reconcileRoleBindings envNoFail "u" c1Specs c1Roles [c1Keep, c1Stale]).2.1,
        b.userLabel = some "u" ∧ b.ns = r.ns ∧ b.roleRef.name = r.existingRole) :=
  ⟨by decide,
   (C1_convergence envNoFail "u" c1Specs c1Roles [c1Keep, c1Stale]
      (by decide) (by decide) (by decide) (by decide) (by decide)).1,
   (C1_convergence envNoFail "u" c1Specs c1Roles [c1Keep, c1Stale]
      (by decide) (by decide) (by decide) (by decide) (by decide)).2⟩

theorem deleteLeftoverRBs_sublist (env : Env) :
    ∀ (m : List (String × RoleBinding)) (rbs : List RoleBinding) (log : List WriteOp)
      (rbs2 : List RoleBinding) (log2 : List WriteOp),
    deleteLeftoverRBs env m rbs log = (Except.ok (), rbs2, log2) →
    List.Sublist rbs2 rbs := by
  intro m
  induction m with
  | nil =>
    intro rbs log rbs2 log2 h
    rw [deleteLeftoverRBs] at h
    have h1 : rbs = rbs2 := congrArg (fun y => y.2.1) h
    rw [← h1]
  | cons kv0 rest ih =>
    obtain ⟨k, rb⟩ := kv0
    intro rbs log rbs2 log2 h
    rw [deleteLeftoverRBs] at h
    split at h
    · exact absurd (congrArg (fun y => y.1) h) (by simp)
    · have h1 := ih (removeRB rbs rb.ns rb.name)
        (log ++ [WriteOp.rbDelete rb.ns rb.name]) rbs2 log2 h
      exact h1.trans (List.filter_sublist rbs)

theorem lookupKV_of_mem_nodup {α : Type} :
    ∀ (m : List (String × α)) (k : String) (v : α),
    (k, v) ∈ m → (m.map Prod.fst).Nodup → lookupKV m k = some v := by
  intro m
  induction m with
  | nil =>
    intro k v hmem
    exact absurd hmem (List.not_mem_nil _)
  | cons kv0 rest ih =>
    obtain ⟨k0, v0⟩ := kv0
    intro k v hmem hnd
    rcases List.mem_cons.mp hmem with he | he
    · have he2 := Prod.mk.inj he.symm
      rw [lookupKV, List.find?_cons_of_pos _ (by simp [he2.1])]
      simp [he2.2]
    · have hk0 : k0 ∉ rest.map Prod.fst := (List.nodup_cons.mp hnd).1
      have hkne : (k0 == k) = false := by
        cases hx : k0 == k with
        | false => rfl
        | true =>
          exfalso
          have hx2 : k0 = k := by simpa using hx
          exact hk0 (hx2 ▸ List.mem_map.mpr ⟨(k, v), he, rfl⟩)
      have hres := ih k v he (List.nodup_cons.mp hnd).2
      rw [lookupKV] at hres ⊢
      rw [List.find?_cons_of_neg _ (by simp [hkne])]
      exact hres

theorem lookupKV_eraseKV_ne {α : Type} (m : List (String × α)) (k k2 : String)
    (h : k ≠ k2) : lookupKV (eraseKV m k2) k = lookupKV m k := by
  rw [lookupKV, lookupKV, eraseKV]
  rw [find?_filter_of_imp _ _ m ?_]
  intro x hx
  have hx2 : x.1 = k := by simpa using hx
  rw [hx2]
  simp [h]

theorem mem_foldl_eraseKV {α β : Type} :
    ∀ (ds : List (String × β)) (m : List (String × α)) (kv : String × α),
    kv ∈ ds.foldl (fun acc kv2 => eraseKV acc kv2.1) m →
    kv ∈ m ∧ ∀ kv2 ∈ ds, kv.1 ≠ kv2.1 := by
  intro ds
  induction ds with
  | nil =>
    intro m kv h
    exact ⟨h, fun kv2 hkv2 => absurd hkv2 (List.not_mem_nil kv2)⟩
  | cons kv0 rest ih =>
    intro m kv h
    rw [List.foldl_cons] at h
    obtain ⟨h1, h2⟩ := ih (eraseKV m kv0.1) kv h
    obtain ⟨h3, h4⟩ := (mem_eraseKV m kv0.1 kv).mp h1
    refine ⟨h3, ?_⟩
    intro kv2 hkv2
    rcases List.mem_cons.mp hkv2 with he | he
    · rw [he]
      exact h4
    · exact h2 kv2 he

/-- When every desired entry already has a matching existing binding, the
create-or-update loop is pure bookkeeping: no mutation, no write. -/
theorem applyDesiredRBs_converged (username : String) :
    ∀ (ds : List (String × RoleSpec)) (rbs : List RoleBinding)
      (m : List (String × RoleBinding)) (log : List WriteOp),
    (ds.map Prod.fst).Nodup →
    (∀ kv ∈ ds, ∃ b, lookupKV m kv.1 = some b ∧
       roleBindingMatches b (mkDesiredRB username kv.2) = true) →
    applyDesiredRBs username ds rbs m log =
      (Except.ok (), rbs, ds.foldl (fun acc kv2 => eraseKV acc kv2.1) m, log) := by
  intro ds
  induction ds with
  | nil =>
    intro rbs m log hnd hlk
    rfl
  | cons kv0 rest ih =>
    obtain ⟨k, spec⟩ := kv0
    intro rbs m log hnd hlk
    obtain ⟨b, hb, hmatch⟩ := hlk (k, spec) (List.mem_cons_self _ _)
    have hknotin : k ∉ rest.map Prod.fst := (List.nodup_cons.mp hnd).1
    simp only [applyDesiredRBs, hb, hmatch, if_true, List.foldl_cons]
    refine ih rbs (eraseKV m k) log (List.nodup_cons.mp hnd).2 ?_
    intro kv hkv
    obtain ⟨b2, hb2, hmatch2⟩ := hlk kv (List.mem_cons_of_mem _ hkv)
    refine ⟨b2, ?_, hmatch2⟩
    rw [lookupKV_eraseKV_ne m kv.1 k ?_]
    · exact hb2
    · intro he
      exact hknotin (he ▸ List.mem_map.mpr ⟨kv, hkv, rfl⟩)

/-- A converged store makes `reconcileRoleBindings` a no-op with empty log. -/
theorem reconcileRoleBindings_converged (env : Env) (username : String)
    (specRoles : List RoleSpec) (roles : List (String × String)) (rbs : List RoleBinding)
    (ds : List (String × RoleSpec))
    (hds : buildDesiredRBs roles specRoles [] = Except.ok ds)
    (hkeys : (rbs.filter (fun b => b.userLabel == some username)).Pairwise
      (fun a b => rbKey a ≠ rbKey b))
    (hcompl : ∀ kv ∈ ds, ∃ b ∈ rbs, b.userLabel = some username ∧ rbKey b = kv.1 ∧
      roleBindingMatches b (mkDesiredRB username kv.2) = true)
    (hsound : ∀ b ∈ rbs, b.userLabel = some username → ∃ kv ∈ ds, rbKey b = kv.1) :
    reconcileRoleBindings env username specRoles roles rbs = (Except.ok (), rbs, []) := by
  have hm_eq := buildExistingRBMap_eq _ hkeys
  have hnodup : ((buildExistingRBMap
      (rbs.filter (fun b => b.userLabel == some username))).map Prod.fst).Nodup := by
    rw [hm_eq, List.map_map]
    exact List.pairwise_map.mpr hkeys
  have hlk : ∀ kv ∈ ds, ∃ b, lookupKV (buildExistingRBMap
      (rbs.filter (fun b => b.userLabel == some username))) kv.1 = some b ∧
      roleBindingMatches b (mkDesiredRB username kv.2) = true := by
    intro kv hkv
    obtain ⟨b, hb, hlab, hkey, hmatch⟩ := hcompl kv hkv
    refine ⟨b, ?_, hmatch⟩
    have hmem : (kv.1, b) ∈ buildExistingRBMap
        (rbs.filter (fun b => b.userLabel == some username)) := by
      rw [hm_eq]
      refine List.mem_map.mpr ⟨b, List.mem_filter.mpr ⟨hb, by simp [hlab]⟩, ?_⟩
      rw [hkey]
    exact lookupKV_of_mem_nodup _ kv.1 b hmem hnodup
  have happ := applyDesiredRBs_converged username ds rbs
    (buildExistingRBMap (rbs.filter (fun b => b.userLabel == some username))) []
    (buildDesiredRBs_nodup roles specRoles [] ds hds (by simp)) hlk
  have hm2nil : ds.foldl (fun acc kv2 => eraseKV acc kv2.1)
      (buildExistingRBMap (rbs.filter (fun b => b.userLabel == some username))) = [] := by
    rw [List.eq_nil_iff_forall_not_mem]
    intro kv hkv
    obtain ⟨h1, h2⟩ := mem_foldl_eraseKV ds _ kv hkv
    rw [hm_eq] at h1
    rcases List.mem_map.mp h1 with ⟨b, hb, he⟩
    have hlab : b.userLabel = some username := by simpa using List.of_mem_filter hb
    obtain ⟨kv2, hkv2, hbk⟩ := hsound b (List.mem_of_mem_filter hb) hlab
    refine h2 kv2 hkv2 ?_
    rw [← he, ← hbk]
  simp only [reconcileRoleBindings, hds, happ, hm2nil]
  rfl

/-- A successful binding pass leaves the store converged: re-running the
reconciler on its output (under any environment) is a no-op with an empty
write log. -/
theorem reconcileRoleBindings_idem (env env2 : Env) (username : String)
    (specRoles : List RoleSpec) (roles : List (String × String)) (rbs : List RoleBinding)
    (rbs1 : List RoleBinding) (logRB : List WriteOp)
    (H1 : rbs.Pairwise (fun a b => ¬(a.ns = b.ns ∧ a.name = b.name)))
    (H2 : ∀ b ∈ rbs, b.userLabel = some username →
      b.name = username ++ "-" ++ b.roleRef.name ++ "-rb")
    (H3 : ∀ b ∈ rbs, b.userLabel = some username → ':' ∉ b.ns.data)
    (H4 : ∀ r ∈ specRoles, ':' ∉ r.ns.data)
    (hrb : reconcileRoleBindings env username specRoles roles rbs =
      (Except.ok (), rbs1, logRB)) :
    reconcileRoleBindings env2 username specRoles roles rbs1 = (Except.ok (), rbs1, []) := by
  simp only [reconcileRoleBindings] at hrb
  split at hrb
  · exact absurd (congrArg (fun y => y.1) hrb) (by simp)
  · rename_i ds hds
    split at hrb
    · exact absurd (congrArg (fun y => y.1) hrb) (by simp)
    · rename_i rbsA m1 log1 happ
      have hex := labeled_keys_pairwise username rbs H1 H2 H3
      have hm_eq := buildExistingRBMap_eq _ hex
      have hds_entries := buildDesiredRBs_entries roles specRoles specRoles [] ds hds
        (fun r hr => hr) (by intro kv hkv; exact absurd hkv (List.not_mem_nil kv))
      have hds_nodup := buildDesiredRBs_nodup roles specRoles [] ds hds (by simp)
      have hm_coh : ∀ kv ∈ buildExistingRBMap
          (rbs.filter (fun b => b.userLabel == some username)),
          kv.2 ∈ rbs ∧ kv.2.userLabel = some username ∧ rbKey kv.2 = kv.1 := by
        intro kv hkv
        rw [hm_eq] at hkv
        rcases List.mem_map.mp hkv with ⟨b, hb, he⟩
        subst he
        have hlab : b.userLabel = some username := by simpa using List.of_mem_filter hb
        exact ⟨List.mem_of_mem_filter hb, hlab, rfl⟩
      have hm_ndk : ∀ b ∈ rbs, b.userLabel = some username →
          (∀ kv ∈ ds, rbKey b ≠ kv.1) →
          (rbKey b, b) ∈ buildExistingRBMap
            (rbs.filter (fun b => b.userLabel == some username)) := by
        intro b hb hlab hnk
        rw [hm_eq]
        exact List.mem_map.mpr ⟨b, List.mem_filter.mpr ⟨hb, by simp [hlab]⟩, rfl⟩
      obtain ⟨c1, c2, c3, c4, c5, c6, c7, c8⟩ :=
        applyDesiredRBs_spec username ds ds rbs _ [] rbsA m1 log1 happ
          (fun kv hkv => hkv)
          (fun kv hkv => (hds_entries kv hkv).1)
          (fun kv hkv => H4 kv.2 (hds_entries kv hkv).2)
          hds_nodup H1 H2 H3 hm_coh hm_ndk
      obtain ⟨d1, d2, d3⟩ := deleteLeftoverRBs_state env m1 rbsA log1 rbs1 logRB hrb
      have hsub := deleteLeftoverRBs_sublist env m1 rbsA log1 rbs1 logRB hrb
      refine reconcileRoleBindings_converged env2 username specRoles roles rbs1 ds hds ?_ ?_ ?_
      · exact labeled_keys_pairwise username rbs1 (List.Pairwise.sublist hsub c1)
          (fun b hb hlab => c2 b (d1 b hb) hlab)
          (fun b hb hlab => c3 b (d1 b hb) hlab)
      · intro kv hkv
        obtain ⟨b, hbm, hblab, hbkey, hbmatch⟩ := c6 kv hkv
        have hsurv : b ∈ rbs1 := by
          refine d3 b hbm ?_
          intro kv2 hkv2 hc
          obtain ⟨hv1, hv2, hv3⟩ := c5 kv2 hkv2
          have hveq : kv2.2 = b :=
            pairwise_mem_eq rbsA c1 kv2.2 hv1 b hbm
              (fun hR => hR ⟨hc.1, hc.2⟩)
              (fun hR => hR ⟨hc.1.symm, hc.2.symm⟩)
          have hkne := (c4 kv2 hkv2).2 kv hkv
          apply hkne
          rw [← hv3, hveq, hbkey]
        exact ⟨b, hsurv, hblab, hbkey, hbmatch⟩
      · intro b hb hlab
        by_cases hkd : ∀ kv ∈ ds, rbKey b ≠ kv.1
        · exfalso
          have hentry := c8 b (d1 b hb) hlab hkd
          exact d2 (rbKey b, b) hentry b hb ⟨rfl, rfl⟩
        · push_neg at hkd
          obtain ⟨kv, hkv, hke⟩ := hkd
          exact ⟨kv, hkv, hke⟩

/-! #### The ClusterRoleBinding mirror -/

theorem mkDesiredCRB_matches_self (username : String) (spec : ClusterRoleSpec) :
    clusterRoleBindingMatches (mkDesiredCRB username spec) (mkDesiredCRB username spec) = true := by
  simp [clusterRoleBindingMatches, mkDesiredCRB]

theorem findCRB_some_mem (crbs : List ClusterRoleBinding) (name : String)
    (x : ClusterRoleBinding) (h : findCRB crbs name = some x) :
    x ∈ crbs ∧ (x.name == name) = true := by
  rw [findCRB] at h
  have h1 := List.find?_some h
  exact ⟨List.mem_of_find?_eq_some h, h1⟩

theorem findCRB_none_spec (crbs : List ClusterRoleBinding) (name : String)
    (h : findCRB crbs name = none) : ∀ b ∈ crbs, b.name ≠ name := by
  rw [findCRB] at h
  intro b hb hc
  have h2 := List.find?_eq_none.mp h b hb
  simp [hc] at h2

theorem crb_atSpot_key (username : String) (b : ClusterRoleBinding) (spec : ClusterRoleSpec)
    (hconv : b.name = username ++ "-" ++ b.roleRef.name ++ "-crb")
    (hname : b.name = username ++ "-" ++ spec.existingClusterRole ++ "-crb") :
    b.roleRef.name = spec.existingClusterRole :=
  rbNamePattern_inj username _ _ "-crb" (hconv.symm.trans hname)

theorem replaceCRB_fun_name (desired x : ClusterRoleBinding) :
    (if x.name == desired.name then desired else x).name = x.name := by
  by_cases hc : (x.name == desired.name) = true
  · rw [if_pos hc]
    have h2 : x.name = desired.name := by simpa using hc
    exact h2.symm
  · rw [if_neg hc]

/-- Full specification of the cluster-binding create-or-update loop. -/
theorem applyDesiredCRBs_spec (username : String) (ds0 : List (String × ClusterRoleSpec)) :
    ∀ (ds : List (String × ClusterRoleSpec)) (crbs : List ClusterRoleBinding)
      (m : List (String × ClusterRoleBinding)) (log : List WriteOp)
      (crbs2 : List ClusterRoleBinding) (m2 : List (String × ClusterRoleBinding))
      (log2 : List WriteOp),
    applyDesiredCRBs username ds crbs m log = (Except.ok (), crbs2, m2, log2) →
    (∀ kv ∈ ds, kv ∈ ds0) →
    (∀ kv ∈ ds, kv.1 = kv.2.existingClusterRole) →
    (ds.map Prod.fst).Nodup →
    crbs.Pairwise (fun a b => a.name ≠ b.name) →
    (∀ b ∈ crbs, b.userLabel = some username →
      b.name = username ++ "-" ++ b.roleRef.name ++ "-crb") →
    (∀ kv ∈ m, kv.2 ∈ crbs ∧ kv.2.userLabel = some username ∧ kv.2.roleRef.name = kv.1) →
    (∀ b ∈ crbs, b.userLabel = some username →
      (∀ kv ∈ ds0, b.roleRef.name ≠ kv.1) → (b.roleRef.name, b) ∈ m) →
    (crbs2.Pairwise (fun a b => a.name ≠ b.name) ∧
     (∀ b ∈ crbs2, b.userLabel = some username →
       b.name = username ++ "-" ++ b.roleRef.name ++ "-crb") ∧
     (∀ kv ∈ m2, kv ∈ m ∧ ∀ kv2 ∈ ds, kv.1 ≠ kv2.1) ∧
     (∀ kv ∈ m2, kv.2 ∈ crbs2 ∧ kv.2.userLabel = some username ∧ kv.2.roleRef.name = kv.1) ∧
     (∀ kv ∈ ds, ∃ b ∈ crbs2, b.userLabel = some username ∧ b.roleRef.name = kv.1 ∧
        clusterRoleBindingMatches b (mkDesiredCRB username kv.2) = true) ∧
     (∀ b ∈ crbs, b.userLabel = some username →
       (∀ kv ∈ ds, b.roleRef.name ≠ kv.1) → b ∈ crbs2) ∧
     (∀ b ∈ crbs2, b.userLabel = some username →
       (∀ kv ∈ ds0, b.roleRef.name ≠ kv.1) → (b.roleRef.name, b) ∈ m2)) := by
  intro ds
  induction ds with
  | nil =>
    intro crbs m log crbs2 m2 log2 h hds0 hdsk hnd huniq hconv hm hndk
    rw [applyDesiredCRBs] at h
    have h1 : crbs = crbs2 := congrArg (fun y => y.2.1) h
    have h2 : m = m2 := congrArg (fun y => y.2.2.1) h
    subst h1
    subst h2
    refine ⟨huniq, hconv, ?_, hm, ?_, ?_, hndk⟩
    · intro kv hkv
      exact ⟨hkv, fun kv2 hkv2 => absurd hkv2 (List.not_mem_nil kv2)⟩
    · intro kv hkv
      exact absurd hkv (List.not_mem_nil kv)
    · intro b hb hlab hk
      exact hb
  | cons kv0 rest ih =>
    obtain ⟨k, spec⟩ := kv0
    intro crbs m log crbs2 m2 log2 h hds0 hdsk hnd huniq hconv hm hndk
    have hk : k = spec.existingClusterRole := hdsk (k, spec) (List.mem_cons_self _ _)
    have hkd0 : (k, spec) ∈ ds0 := hds0 (k, spec) (List.mem_cons_self _ _)
    have hnd2 : (rest.map Prod.fst).Nodup := (List.nodup_cons.mp hnd).2
    have hknotin : k ∉ rest.map Prod.fst := (List.nodup_cons.mp hnd).1
    have hkrest : ∀ kv2 ∈ rest, kv2.1 ≠ k := by
      intro kv2 hkv2 he
      exact hknotin (he ▸ List.mem_map.mpr ⟨kv2, hkv2, rfl⟩)
    have hdk : (mkDesiredCRB username spec).roleRef.name = k := by
      rw [hk]
      rfl
    have hdlab : (mkDesiredCRB username spec).userLabel = some username := rfl
    have hdconv : (mkDesiredCRB username spec).name =
        username ++ "-" ++ (mkDesiredCRB username spec).roleRef.name ++ "-crb" := rfl
    simp only [applyDesiredCRBs] at h
    split at h
    · rename_i ex hlk
      split at h
      · rename_i hmatch
        have hexm := lookupKV_mem m k ex hlk
        obtain ⟨hexrb, hexlab, hexkey⟩ := hm (k, ex) hexm
        obtain ⟨c1, c2, c4, c5, c6, c7, c8⟩ := ih crbs (eraseKV m k) log crbs2 m2 log2 h
          (fun kv hkv => hds0 kv (List.mem_cons_of_mem _ hkv))
          (fun kv hkv => hdsk kv (List.mem_cons_of_mem _ hkv))
          hnd2 huniq hconv
          (fun kv hkv => hm kv ((mem_eraseKV m k kv).mp hkv).1)
          (by
            intro b hb hlab hnk
            refine (mem_eraseKV m k (b.roleRef.name, b)).mpr ⟨hndk b hb hlab hnk, ?_⟩
            exact hnk (k, spec) hkd0)
        refine ⟨c1, c2, ?_, c5, ?_, ?_, c8⟩
        · intro kv hkv
          obtain ⟨hkv1, hkv2⟩ := c4 kv hkv
          obtain ⟨hkvm, hkvne⟩ := (mem_eraseKV m k kv).mp hkv1
          refine ⟨hkvm, ?_⟩
          intro kv2 hkv2m
          rcases List.mem_cons.mp hkv2m with he | he
          · rw [he]
            exact hkvne
          · exact hkv2 kv2 he
        · intro kv hkv
          rcases List.mem_cons.mp hkv with he | he
          · subst he
            refine ⟨ex, ?_, hexlab, hexkey, hmatch⟩
            refine c7 ex hexrb hexlab ?_
            intro kv2 hkv2
            rw [hexkey]
            exact fun hee => (hkrest kv2 hkv2) hee.symm
          · exact c6 kv he
        · intro b hb hlab hnk
          exact c7 b hb hlab (fun kv2 hkv2 => hnk kv2 (List.mem_cons_of_mem _ hkv2))
      · rename_i hnm
        split at h
        · rename_i x hfind
          obtain ⟨hxrb, hxc⟩ := findCRB_some_mem crbs _ x hfind
          have hspot : ∀ y : ClusterRoleBinding, y ∈ crbs → y.userLabel = some username →
              (y.name == (mkDesiredCRB username spec).name) = true →
              y.roleRef.name = k := by
            intro y hy hylab hyc
            have h3 : y.name = username ++ "-" ++ spec.existingClusterRole ++ "-crb" := by
              simpa using hyc
            rw [crb_atSpot_key username y spec (hconv y hy hylab) h3]
            exact hk.symm
          have huniqR : (replaceCRB crbs (mkDesiredCRB username spec)).Pairwise
              (fun a b => a.name ≠ b.name) := by
            rw [replaceCRB]
            refine List.pairwise_map.mpr (huniq.imp ?_)
            intro a b hab hcontra
            exact hab ((replaceCRB_fun_name _ a).symm.trans
              (hcontra.trans (replaceCRB_fun_name _ b)))
          have hconvR : ∀ b ∈ replaceCRB crbs (mkDesiredCRB username spec),
              b.userLabel = some username →
              b.name = username ++ "-" ++ b.roleRef.name ++ "-crb" := by
            rw [replaceCRB]
            intro b hb hlab
            rcases List.mem_map.mp hb with ⟨y, hy, hfy⟩
            by_cases hc : (y.name == (mkDesiredCRB username spec).name) = true
            · rw [if_pos hc] at hfy
              rw [← hfy]
              exact hdconv
            · rw [if_neg hc] at hfy
              rw [← hfy]
              exact hconv y hy (hfy ▸ hlab)
          have hmemR : ∀ y ∈ crbs, y.userLabel = some username → y.roleRef.name ≠ k →
              y ∈ replaceCRB crbs (mkDesiredCRB username spec) := by
            intro y hy hylab hyk
            rw [replaceCRB]
            have hc : (y.name == (mkDesiredCRB username spec).name) = false := by
              cases hx : (y.name == (mkDesiredCRB username spec).name)
              · rfl
              · exact absurd (hspot y hy hylab hx) hyk
            have hfy : (if y.name == (mkDesiredCRB username spec).name
                then mkDesiredCRB username spec else y) = y := by
              rw [hc]
              rfl
            exact hfy ▸ List.mem_map_of_mem _ hy
          obtain ⟨c1, c2, c4, c5, c6, c7, c8⟩ := ih
            (replaceCRB crbs (mkDesiredCRB username spec)) (eraseKV m k)
            (log ++ [WriteOp.crbUpdate (mkDesiredCRB username spec).name]) crbs2 m2 log2 h
            (fun kv hkv => hds0 kv (List.mem_cons_of_mem _ hkv))
            (fun kv hkv => hdsk kv (List.mem_cons_of_mem _ hkv))
            hnd2 huniqR hconvR
            (by
              intro kv hkv
              obtain ⟨hkvm, hkvne⟩ := (mem_eraseKV m k kv).mp hkv
              obtain ⟨hv1, hv2, hv3⟩ := hm kv hkvm
              exact ⟨hmemR kv.2 hv1 hv2 (hv3 ▸ hkvne), hv2, hv3⟩)
            (by
              intro b hb hlab hnk
              have hbk : b.roleRef.name ≠ k := by
                intro he
                exact hnk (k, spec) hkd0 he
              rw [replaceCRB] at hb
              rcases List.mem_map.mp hb with ⟨y, hy, hfy⟩
              by_cases hc : (y.name == (mkDesiredCRB username spec).name) = true
              · rw [if_pos hc] at hfy
                exact absurd (hfy ▸ hdk) hbk
              · rw [if_neg hc] at hfy
                subst hfy
                refine (mem_eraseKV m k (y.roleRef.name, y)).mpr ⟨hndk y hy hlab hnk, hbk⟩)
          refine ⟨c1, c2, ?_, c5, ?_, ?_, c8⟩
          · intro kv hkv
            obtain ⟨hkv1, hkv2⟩ := c4 kv hkv
            obtain ⟨hkvm, hkvne⟩ := (mem_eraseKV m k kv).mp hkv1
            refine ⟨hkvm, ?_⟩
            intro kv2 hkv2m
            rcases List.mem_cons.mp hkv2m with he | he
            · rw [he]
              exact hkvne
            · exact hkv2 kv2 he
          · intro kv hkv
            rcases List.mem_cons.mp hkv with he | he
            · subst he
              have hdm : mkDesiredCRB username spec ∈
                  replaceCRB crbs (mkDesiredCRB username spec) := by
                rw [replaceCRB]
                refine List.mem_map.mpr ⟨x, hxrb, ?_⟩
                exact if_pos hxc
              refine ⟨mkDesiredCRB username spec, ?_, hdlab, hdk,
                mkDesiredCRB_matches_self username spec⟩
              refine c7 (mkDesiredCRB username spec) hdm hdlab ?_
              intro kv2 hkv2
              rw [hdk]
              exact fun hee => (hkrest kv2 hkv2) hee.symm
            · exact c6 kv he
          · intro b hb hlab hnk
            have hbk : b.roleRef.name ≠ k := hnk (k, spec) (List.mem_cons_self _ _)
            exact c7 b (hmemR b hb hlab hbk) hlab
              (fun kv2 hkv2 => hnk kv2 (List.mem_cons_of_mem _ hkv2))
        · exact absurd (congrArg (fun y => y.1) h) (by simp)
    · rename_i hlk
      split at h
      · exact absurd (congrArg (fun y => y.1) h) (by simp)
      · rename_i hfind
        have hnone := findCRB_none_spec crbs _ hfind
        have hmnone := lookupKV_none m k hlk
        have huniqA : (crbs ++ [mkDesiredCRB username spec]).Pairwise
            (fun a b => a.name ≠ b.name) := by
          refine List.pairwise_append.mpr ⟨huniq, List.pairwise_singleton _ _, ?_⟩
          intro a ha b hb
          rw [List.mem_singleton.mp hb]
          exact hnone a ha
        have hconvA : ∀ b ∈ crbs ++ [mkDesiredCRB username spec],
            b.userLabel = some username →
            b.name = username ++ "-" ++ b.roleRef.name ++ "-crb" := by
          intro b hb hlab
          rcases List.mem_append.mp hb with h1 | h1
          · exact hconv b h1 hlab
          · rw [List.mem_singleton.mp h1]
            exact hdconv
        obtain ⟨c1, c2, c4, c5, c6, c7, c8⟩ := ih
          (crbs ++ [mkDesiredCRB username spec]) m
          (log ++ [WriteOp.crbCreate (mkDesiredCRB username spec).name]) crbs2 m2 log2 h
          (fun kv hkv => hds0 kv (List.mem_cons_of_mem _ hkv))
          (fun kv hkv => hdsk kv (List.mem_cons_of_mem _ hkv))
          hnd2 huniqA hconvA
          (by
            intro kv hkv
            obtain ⟨hv1, hv2, hv3⟩ := hm kv hkv
            exact ⟨List.mem_append.mpr (Or.inl hv1), hv2, hv3⟩)
          (by
            intro b hb hlab hnk
            rcases List.mem_append.mp hb with h1 | h1
            · exact hndk b h1 hlab hnk
            · rw [List.mem_singleton.mp h1] at hlab hnk ⊢
              exact absurd hdk (hnk (k, spec) hkd0))
        refine ⟨c1, c2, ?_, c5, ?_, ?_, c8⟩
        · intro kv hkv
          obtain ⟨hkv1, hkv2⟩ := c4 kv hkv
          refine ⟨hkv1, ?_⟩
          intro kv2 hkv2m
          rcases List.mem_cons.mp hkv2m with he | he
          · rw [he]
            exact hmnone kv hkv1
          · exact hkv2 kv2 he
        · intro kv hkv
          rcases List.mem_cons.mp hkv with he | he
          · subst he
            have hdm : mkDesiredCRB username spec ∈ crbs ++ [mkDesiredCRB username spec] :=
              List.mem_append.mpr (Or.inr (List.mem_singleton.mpr rfl))
            refine ⟨mkDesiredCRB username spec, ?_, hdlab, hdk,
              mkDesiredCRB_matches_self username spec⟩
            refine c7 (mkDesiredCRB username spec) hdm hdlab ?_
            intro kv2 hkv2
            rw [hdk]
            exact fun hee => (hkrest kv2 hkv2) hee.symm
          · exact c6 kv he
        · intro b hb hlab hnk
          exact c7 b (List.mem_append.mpr (Or.inl hb)) hlab
            (fun kv2 hkv2 => hnk kv2 (List.mem_cons_of_mem _ hkv2))

theorem deleteLeftoverCRBs_state (env : Env) :
    ∀ (m : List (String × ClusterRoleBinding)) (crbs : List ClusterRoleBinding)
      (log : List WriteOp) (crbs2 : List ClusterRoleBinding) (log2 : List WriteOp),
    deleteLeftoverCRBs env m crbs log = (Except.ok (), crbs2, log2) →
    ((∀ b ∈ crbs2, b ∈ crbs) ∧
     (∀ kv ∈ m, ∀ b ∈ crbs2, ¬ b.name = kv.2.name) ∧
     (∀ b ∈ crbs, (∀ kv ∈ m, ¬ kv.2.name = b.name) → b ∈ crbs2)) := by
  intro m
  induction m with
  | nil =>
    intro crbs log crbs2 log2 h
    rw [deleteLeftoverCRBs] at h
    have h1 : crbs = crbs2 := congrArg (fun y => y.2.1) h
    subst h1
    refine ⟨fun b hb => hb, ?_, fun b hb hh => hb⟩
    intro kv hkv
    exact absurd hkv (List.not_mem_nil kv)
  | cons kv0 rest ih =>
    obtain ⟨k, crb⟩ := kv0
    intro crbs log crbs2 log2 h
    rw [deleteLeftoverCRBs] at h
    split at h
    · exact absurd (congrArg (fun y => y.1) h) (by simp)
    · obtain ⟨d1, d2, d3⟩ := ih (removeCRB crbs crb.name)
        (log ++ [WriteOp.crbDelete crb.name]) crbs2 log2 h
      refine ⟨?_, ?_, ?_⟩
      · intro b hb
        have h2 := d1 b hb
        rw [removeCRB] at h2
        exact List.mem_of_mem_filter h2
      · intro kv hkv b hb
        rcases List.mem_cons.mp hkv with he | he
        · rw [he]
          have h2 := d1 b hb
          rw [removeCRB] at h2
          have h3 := List.of_mem_filter h2
          intro hc
          rw [hc] at h3
          simp at h3
        · exact d2 kv he b hb
      · intro b hb hno
        have hbne : ¬ crb.name = b.name := hno (k, crb) (List.mem_cons_self _ _)
        have hcond : (b.name == crb.name) = false := by
          cases hx : (b.name == crb.name) with
          | false => rfl
          | true =>
            exfalso
            have h2 : b.name = crb.name := by simpa using hx
            exact hbne h2.symm
        have hbm : b ∈ removeCRB crbs crb.name := by
          rw [removeCRB]
          refine List.mem_filter.mpr ⟨hb, ?_⟩
          rw [hcond]
          rfl
        exact d3 b hbm (fun kv hkv => hno kv (List.mem_cons_of_mem _ hkv))

theorem deleteLeftoverCRBs_sublist (env : Env) :
    ∀ (m : List (String × ClusterRoleBinding)) (crbs : List ClusterRoleBinding)
      (log : List WriteOp) (crbs2 : List ClusterRoleBinding) (log2 : List WriteOp),
    deleteLeftoverCRBs env m crbs log = (Except.ok (), crbs2, log2) →
    List.Sublist crbs2 crbs := by
  intro m
  induction m with
  | nil =>
    intro crbs log crbs2 log2 h
    rw [deleteLeftoverCRBs] at h
    have h1 : crbs = crbs2 := congrArg (fun y => y.2.1) h
    rw [← h1]
  | cons kv0 rest ih =>
    obtain ⟨k, crb⟩ := kv0
    intro crbs log crbs2 log2 h
    rw [deleteLeftoverCRBs] at h
    split at h
    · exact absurd (congrArg (fun y => y.1) h) (by simp)
    · have h1 := ih (removeCRB crbs crb.name)
        (log ++ [WriteOp.crbDelete crb.name]) crbs2 log2 h
      exact h1.trans (List.filter_sublist crbs)

/-- Entry soundness of the validated desired cluster-role map. -/
theorem buildDesiredCRBs_entries (clusterRoles : List String) (specAll : List ClusterRoleSpec) :
    ∀ (specs : List ClusterRoleSpec) (acc ds : List (String × ClusterRoleSpec)),
    buildDesiredCRBs clusterRoles specs acc = Except.ok ds →
    (∀ r ∈ specs, r ∈ specAll) →
    (∀ kv ∈ acc, kv.1 = kv.2.existingClusterRole ∧ kv.2 ∈ specAll) →
    ∀ kv ∈ ds, kv.1 = kv.2.existingClusterRole ∧ kv.2 ∈ specAll := by
  intro specs
  induction specs with
  | nil =>
    intro acc ds h hs hacc kv hkv
    rw [buildDesiredCRBs] at h
    have h2 : acc = ds := by simpa using h
    exact hacc kv (h2 ▸ hkv)
  | cons r rest ih =>
    intro acc ds h hs hacc kv hkv
    rw [buildDesiredCRBs] at h
    split at h
    · refine ih _ ds h (fun x hx => hs x (List.mem_cons_of_mem r hx)) ?_ kv hkv
      intro kv2 hkv2
      rcases mem_insertKV acc r.existingClusterRole r kv2 hkv2 with h1 | h1
      · exact hacc kv2 h1
      · rw [h1]
        exact ⟨rfl, hs r (List.mem_cons_self r rest)⟩
    · simp at h

theorem buildDesiredCRBs_keys_mono (clusterRoles : List String) :
    ∀ (specs : List ClusterRoleSpec) (acc ds : List (String × ClusterRoleSpec)) (k : String),
    buildDesiredCRBs clusterRoles specs acc = Except.ok ds →
    k ∈ acc.map Prod.fst → k ∈ ds.map Prod.fst := by
  intro specs
  induction specs with
  | nil =>
    intro acc ds k h hk
    rw [buildDesiredCRBs] at h
    have h2 : acc = ds := by simpa using h
    exact h2 ▸ hk
  | cons r rest ih =>
    intro acc ds k h hk
    rw [buildDesiredCRBs] at h
    split at h
    · exact ih _ ds k h (keyMem_insertKV acc r.existingClusterRole k r hk)
    · simp at h

theorem buildDesiredCRBs_complete (clusterRoles : List String) :
    ∀ (specs : List ClusterRoleSpec) (acc ds : List (String × ClusterRoleSpec)),
    buildDesiredCRBs clusterRoles specs acc = Except.ok ds →
    ∀ r ∈ specs, r.existingClusterRole ∈ ds.map Prod.fst := by
  intro specs
  induction specs with
  | nil =>
    intro acc ds h r hr
    exact absurd hr (List.not_mem_nil r)
  | cons r0 rest ih =>
    intro acc ds h r hr
    rw [buildDesiredCRBs] at h
    split at h
    · rcases List.mem_cons.mp hr with he | he
      · rw [he]
        exact buildDesiredCRBs_keys_mono clusterRoles rest _ ds r0.existingClusterRole h
          (keyMem_insertKV_self acc r0.existingClusterRole r0)
      · exact ih _ ds h r he
    · simp at h

theorem buildDesiredCRBs_nodup (clusterRoles : List String) :
    ∀ (specs : List ClusterRoleSpec) (acc ds : List (String × ClusterRoleSpec)),
    buildDesiredCRBs clusterRoles specs acc = Except.ok ds →
    (acc.map Prod.fst).Nodup → (ds.map Prod.fst).Nodup := by
  intro specs
  induction specs with
  | nil =>
    intro acc ds h hn
    rw [buildDesiredCRBs] at h
    have h2 : acc = ds := by simpa using h
    exact h2 ▸ hn
  | cons r rest ih =>
    intro acc ds h hn
    rw [buildDesiredCRBs] at h
    split at h
    · exact ih _ ds h (nodupKeys_insertKV acc r.existingClusterRole r hn)
    · simp at h

theorem foldl_insertKV_eq_crb :
    ∀ (L : List ClusterRoleBinding) (acc : List (String × ClusterRoleBinding)),
    (∀ b ∈ L, ¬ b.roleRef.name ∈ acc.map Prod.fst) →
    L.Pairwise (fun a b => a.roleRef.name ≠ b.roleRef.name) →
    L.foldl (fun m crb => insertKV m crb.roleRef.name crb) acc =
      acc ++ L.map (fun b => (b.roleRef.name, b)) := by
  intro L
  induction L with
  | nil =>
    intro acc h1 h2
    simp
  | cons b rest ih =>
    intro acc h1 h2
    rw [List.foldl_cons]
    have hnot : acc.any (fun p => p.1 == b.roleRef.name) = false := by
      cases hx : acc.any (fun p => p.1 == b.roleRef.name) with
      | false => rfl
      | true =>
        exfalso
        rcases List.any_eq_true.mp hx with ⟨p, hp, hpk⟩
        have hpe : p.1 = b.roleRef.name := by simpa using hpk
        exact h1 b (List.mem_cons_self b rest) (List.mem_map.mpr ⟨p, hp, hpe⟩)
    have hins : insertKV acc b.roleRef.name b = acc ++ [(b.roleRef.name, b)] := by
      rw [insertKV, if_neg (by rw [hnot]; exact Bool.false_ne_true)]
    rw [hins, ih (acc ++ [(b.roleRef.name, b)]) ?_ (List.pairwise_cons.mp h2).2]
    · rw [List.append_assoc, List.singleton_append, List.map_cons]
    · intro c hc hmem
      rw [List.map_append] at hmem
      rcases List.mem_append.mp hmem with hm1 | hm2
      · exact h1 c (List.mem_cons_of_mem b hc) hm1
      · have h3 : c.roleRef.name = b.roleRef.name := by simpa using hm2
        exact ((List.pairwise_cons.mp h2).1 c hc) h3.symm

theorem labeled_keys_pairwise_crb (username : String) (crbs : List ClusterRoleBinding)
    (huniq : crbs.Pairwise (fun a b => a.name ≠ b.name))
    (hconv : ∀ b ∈ crbs, b.userLabel = some username →
      b.name = username ++ "-" ++ b.roleRef.name ++ "-crb") :
    (crbs.filter (fun b => b.userLabel == some username)).Pairwise
      (fun a b => a.roleRef.name ≠ b.roleRef.name) := by
  have hsub : List.Sublist (crbs.filter (fun b => b.userLabel == some username)) crbs :=
    List.filter_sublist crbs
  have hpw := List.Pairwise.sublist hsub huniq
  refine List.Pairwise.imp_of_mem ?_ hpw
  intro a b ha hb hab he
  have halab : a.userLabel = some username := by simpa using List.of_mem_filter ha
  have hblab : b.userLabel = some username := by simpa using List.of_mem_filter hb
  have ham := List.mem_of_mem_filter ha
  have hbm := List.mem_of_mem_filter hb
  refine hab ?_
  rw [hconv a ham halab, hconv b hbm hblab, he]

theorem buildExistingCRBMap_eq (L : List ClusterRoleBinding)
    (h : L.Pairwise (fun a b => a.roleRef.name ≠ b.roleRef.name)) :
    buildExistingCRBMap L = L.map (fun b => (b.roleRef.name, b)) := by
  rw [buildExistingCRBMap]
  rw [foldl_insertKV_eq_crb L [] ?_ h]
  · rw [List.nil_append]
  · intro b hb hmem
    simp at hmem

/-- When every desired cluster entry already has a matching existing binding,
the create-or-update loop is pure bookkeeping: no mutation, no write. -/
theorem applyDesiredCRBs_converged (username : String) :
    ∀ (ds : List (String × ClusterRoleSpec)) (crbs : List ClusterRoleBinding)
      (m : List (String × ClusterRoleBinding)) (log : List WriteOp),
    (ds.map Prod.fst).Nodup →
    (∀ kv ∈ ds, ∃ b, lookupKV m kv.1 = some b ∧
       clusterRoleBindingMatches b (mkDesiredCRB username kv.2) = true) →
    applyDesiredCRBs username ds crbs m log =
      (Except.ok (), crbs, ds.foldl (fun acc kv2 => eraseKV acc kv2.1) m, log) := by
  intro ds
  induction ds with
  | nil =>
    intro crbs m log hnd hlk
    rfl
  | cons kv0 rest ih =>
    obtain ⟨k, spec⟩ := kv0
    intro crbs m log hnd hlk
    obtain ⟨b, hb, hmatch⟩ := hlk (k, spec) (List.mem_cons_self _ _)
    have hknotin : k ∉ rest.map Prod.fst := (List.nodup_cons.mp hnd).1
    simp only [applyDesiredCRBs, hb, hmatch, if_true, List.foldl_cons]
    refine ih crbs (eraseKV m k) log (List.nodup_cons.mp hnd).2 ?_
    intro kv hkv
    obtain ⟨b2, hb2, hmatch2⟩ := hlk kv (List.mem_cons_of_mem _ hkv)
    refine ⟨b2, ?_, hmatch2⟩
    rw [lookupKV_eraseKV_ne m kv.1 k ?_]
    · exact hb2
    · intro he
      exact hknotin (he ▸ List.mem_map.mpr ⟨kv, hkv, rfl⟩)

/-- A converged store makes `reconcileClusterRoleBindings` a no-op with empty
log. -/
theorem reconcileClusterRoleBindings_converged (env : Env) (username : String)
    (specClusterRoles : List ClusterRoleSpec) (clusterRoles : List String)
    (crbs : List ClusterRoleBinding) (ds : List (String × ClusterRoleSpec))
    (hds : buildDesiredCRBs clusterRoles specClusterRoles [] = Except.ok ds)
    (hkeys : (crbs.filter (fun b => b.userLabel == some username)).Pairwise
      (fun a b => a.roleRef.name ≠ b.roleRef.name))
    (hcompl : ∀ kv ∈ ds, ∃ b ∈ crbs, b.userLabel = some username ∧
      b.roleRef.name = kv.1 ∧
      clusterRoleBindingMatches b (mkDesiredCRB username kv.2) = true)
    (hsound : ∀ b ∈ crbs, b.userLabel = some username →
      ∃ kv ∈ ds, b.roleRef.name = kv.1) :
    reconcileClusterRoleBindings env username specClusterRoles clusterRoles crbs =
      (Except.ok (), crbs, []) := by
  have hm_eq := buildExistingCRBMap_eq _ hkeys
  have hnodup : ((buildExistingCRBMap
      (crbs.filter (fun b => b.userLabel == some username))).map Prod.fst).Nodup := by
    rw [hm_eq, List.map_map]
    exact List.pairwise_map.mpr hkeys
  have hlk : ∀ kv ∈ ds, ∃ b, lookupKV (buildExistingCRBMap
      (crbs.filter (fun b => b.userLabel == some username))) kv.1 = some b ∧
      clusterRoleBindingMatches b (mkDesiredCRB username kv.2) = true := by
    intro kv hkv
    obtain ⟨b, hb, hlab, hkey, hmatch⟩ := hcompl kv hkv
    refine ⟨b, ?_, hmatch⟩
    have hmem : (kv.1, b) ∈ buildExistingCRBMap
        (crbs.filter (fun b => b.userLabel == some username)) := by
      rw [hm_eq]
      refine List.mem_map.mpr ⟨b, List.mem_filter.mpr ⟨hb, by simp [hlab]⟩, ?_⟩
      rw [hkey]
    exact lookupKV_of_mem_nodup _ kv.1 b hmem hnodup
  have happ := applyDesiredCRBs_converged username ds crbs
    (buildExistingCRBMap (crbs.filter (fun b => b.userLabel == some username))) []
    (buildDesiredCRBs_nodup clusterRoles specClusterRoles [] ds hds (by simp)) hlk
  have hm2nil : ds.foldl (fun acc kv2 => eraseKV acc kv2.1)
      (buildExistingCRBMap (crbs.filter (fun b => b.userLabel == some username))) = [] := by
    rw [List.eq_nil_iff_forall_not_mem]
    intro kv hkv
    obtain ⟨h1, h2⟩ := mem_foldl_eraseKV ds _ kv hkv
    rw [hm_eq] at h1
    rcases List.mem_map.mp h1 with ⟨b, hb, he⟩
    have hlab : b.userLabel = some username := by simpa using List.of_mem_filter hb
    obtain ⟨kv2, hkv2, hbk⟩ := hsound b (List.mem_of_mem_filter hb) hlab
    refine h2 kv2 hkv2 ?_
    rw [← he, ← hbk]
  simp only [reconcileClusterRoleBindings, hds, happ, hm2nil]
  rfl

/-- A successful cluster-binding pass leaves the store converged: re-running
the reconciler on its output is a no-op with an empty write log. -/
theorem reconcileClusterRoleBindings_idem (env env2 : Env) (username : String)
    (specClusterRoles : List ClusterRoleSpec) (clusterRoles : List String)
    (crbs : List ClusterRoleBinding) (crbs1 : List ClusterRoleBinding) (logCRB : List WriteOp)
    (H1 : crbs.Pairwise (fun a b => a.name ≠ b.name))
    (H2 : ∀ b ∈ crbs, b.userLabel = some username →
      b.name = username ++ "-" ++ b.roleRef.name ++ "-crb")
    (hcrb : reconcileClusterRoleBindings env username specClusterRoles clusterRoles crbs =
      (Except.ok (), crbs1, logCRB)) :
    reconcileClusterRoleBindings env2 username specClusterRoles clusterRoles crbs1 =
      (Except.ok (), crbs1, []) := by
  simp only [reconcileClusterRoleBindings] at hcrb
  split at hcrb
  · exact absurd (congrArg (fun y => y.1) hcrb) (by simp)
  · rename_i ds hds
    split at hcrb
    · exact absurd (congrArg (fun y => y.1) hcrb) (by simp)
    · rename_i crbsA m1 log1 happ
      have hex := labeled_keys_pairwise_crb username crbs H1 H2
      have hm_eq := buildExistingCRBMap_eq _ hex
      have hds_entries := buildDesiredCRBs_entries clusterRoles specClusterRoles
        specClusterRoles [] ds hds (fun r hr => hr)
        (by intro kv hkv; exact absurd hkv (List.not_mem_nil kv))
      have hds_nodup := buildDesiredCRBs_nodup clusterRoles specClusterRoles [] ds hds (by simp)
      have hm_coh : ∀ kv ∈ buildExistingCRBMap
          (crbs.filter (fun b => b.userLabel == some username)),
          kv.2 ∈ crbs ∧ kv.2.userLabel = some username ∧ kv.2.roleRef.name = kv.1 := by
        intro kv hkv
        rw [hm_eq] at hkv
        rcases List.mem_map.mp hkv with ⟨b, hb, he⟩
        subst he
        have hlab : b.userLabel = some username := by simpa using List.of_mem_filter hb
        exact ⟨List.mem_of_mem_filter hb, hlab, rfl⟩
      have hm_ndk : ∀ b ∈ crbs, b.userLabel = some username →
          (∀ kv ∈ ds, b.roleRef.name ≠ kv.1) →
          (b.roleRef.name, b) ∈ buildExistingCRBMap
            (crbs.filter (fun b => b.userLabel == some username)) := by
        intro b hb hlab hnk
        rw [hm_eq]
        exact List.mem_map.mpr ⟨b, List.mem_filter.mpr ⟨hb, by simp [hlab]⟩, rfl⟩
      obtain ⟨c1, c2, c4, c5, c6, c7, c8⟩ :=
        applyDesiredCRBs_spec username ds ds crbs _ [] crbsA m1 log1 happ
          (fun kv hkv => hkv)
          (fun kv hkv => (hds_entries kv hkv).1)
          hds_nodup H1 H2 hm_coh hm_ndk
      obtain ⟨d1, d2, d3⟩ := deleteLeftoverCRBs_state env m1 crbsA log1 crbs1 logCRB hcrb
      have hsub := deleteLeftoverCRBs_sublist env m1 crbsA log1 crbs1 logCRB hcrb
      refine reconcileClusterRoleBindings_converged env2 username specClusterRoles
        clusterRoles crbs1 ds hds ?_ ?_ ?_
      · exact labeled_keys_pairwise_crb username crbs1 (List.Pairwise.sublist hsub c1)
          (fun b hb hlab => c2 b (d1 b hb) hlab)
      · intro kv hkv
        obtain ⟨b, hbm, hblab, hbkey, hbmatch⟩ := c6 kv hkv
        have hsurv : b ∈ crbs1 := by
          refine d3 b hbm ?_
          intro kv2 hkv2 hc
          obtain ⟨hv1, hv2, hv3⟩ := c5 kv2 hkv2
          have hveq : kv2.2 = b :=
            pairwise_mem_eq crbsA c1 kv2.2 hv1 b hbm
              (fun hR => hR hc)
              (fun hR => hR hc.symm)
          have hkne := (c4 kv2 hkv2).2 kv hkv
          apply hkne
          rw [← hv3, hveq, hbkey]
        exact ⟨b, hsurv, hblab, hbkey, hbmatch⟩
      · intro b hb hlab
        by_cases hkd : ∀ kv ∈ ds, b.roleRef.name ≠ kv.1
        · exfalso
          have hentry := c8 b (d1 b hb) hlab hkd
          exact d2 (b.roleRef.name, b) hentry b hb rfl
        · push_neg at hkd
          obtain ⟨kv, hkv, hke⟩ := hkd
          exact ⟨kv, hkv, hke⟩

/-! #### Second-pass idempotence machinery -/

theorem updateUserStatusPure_fields (now : Int) (u : User) :
    (updateUserStatusPure now u).finalizers = u.finalizers ∧
    (updateUserStatusPure now u).deletionRequested = u.deletionRequested ∧
    (updateUserStatusPure now u).spec = u.spec := by
  rw [updateUserStatusPure]
  have h2 : ∀ v : User, (projectCondition now v).finalizers = v.finalizers ∧
      (projectCondition now v).deletionRequested = v.deletionRequested ∧
      (projectCondition now v).spec = v.spec := fun v => ⟨rfl, rfl, rfl⟩
  obtain ⟨ha, hb, hc⟩ := h2 (projectPhase now u)
  rw [ha, hb, hc]
  unfold projectPhase setActiveStatus
  cases hexp : u.status.expiryTime with
  | empty => exact ⟨rfl, rfl, rfl⟩
  | invalid s => exact ⟨rfl, rfl, rfl⟩
  | rfc3339 t =>
    by_cases h : now > t
    · simp only [if_pos h]
      refine ⟨?_, ?_, ?_⟩ <;> trivial
    · simp only [if_neg h]
      refine ⟨?_, ?_, ?_⟩ <;> trivial

/-- Every write of the expiry tail is a status update of the user. -/
theorem reconcileTail_log (env : Env) (st : ClusterState) (u : User) :
    ∀ w ∈ (reconcileTail env st u).2.2, w = WriteOp.statusUpdate u.name := by
  intro w hw
  unfold reconcileTail at hw
  split at hw
  · split at hw
    · split at hw
      · simpa using hw
      · split at hw
        · exact absurd hw (List.not_mem_nil w)
        · exact absurd hw (List.not_mem_nil w)
    · exact absurd hw (List.not_mem_nil w)
    · exact absurd hw (List.not_mem_nil w)
  · exact absurd hw (List.not_mem_nil w)

/-- The state after a fully successful pass whose credential is fresh: the
binding results stored, the projected status written, nothing else. -/
theorem Reconcile_fresh_pass (env : Env) (st0 : ClusterState) (reqName : String) (u : User)
    (rbs1 : List RoleBinding) (logRB : List WriteOp)
    (crbs1 : List ClusterRoleBinding) (logCRB : List WriteOp)
    (cfgSec keySec : Secret) (kcfg certData : Data) (tc texp : Int)
    (hfind : st0.users.find? (fun x => x.name == reqName) = some u)
    (hdel : u.deletionRequested = false)
    (hfin : containsString u.finalizers userFinalizer = true)
    (hph : u.status.phase ≠ "")
    (hrb : reconcileRoleBindings env u.name u.spec.roles
      (ensureSAStep (ensureNamespaceStep st0).1 u.name).1.roles
      (ensureSAStep (ensureNamespaceStep st0).1 u.name).1.roleBindings =
      (Except.ok (), rbs1, logRB))
    (hcrb : reconcileClusterRoleBindings env u.name u.spec.clusterRoles
      (ensureSAStep (ensureNamespaceStep st0).1 u.name).1.clusterRoles
      (ensureSAStep (ensureNamespaceStep st0).1 u.name).1.clusterRoleBindings =
      (Except.ok (), crbs1, logCRB))
    (hcfg : findSecret st0 kubeUserNamespace (u.name ++ "-kubeconfig") = some cfgSec)
    (hkcfg : lookupKV cfgSec.data "config" = some kcfg)
    (hext : extractClientCertFromKubeconfigData kcfg = Except.ok certData)
    (hexp : extractCertificateExpiryWithFormatDetection certData = Except.ok tc)
    (hfresh : ¬ tc - env.now < 30 * 24 * 3600)
    (hkey : findSecret st0 kubeUserNamespace (u.name ++ "-key") = some keySec)
    (hexpT : u.status.expiryTime = ExpiryStr.rfc3339 texp)
    (hfut : env.now < texp) :
    (Reconcile env st0 reqName).2.1 =
      putUser { (ensureSAStep (ensureNamespaceStep st0).1 u.name).1 with
                roleBindings := rbs1, clusterRoleBindings := crbs1 }
        (updateUserStatusPure env.now u) := by
  have hnsS := (ensureNamespaceStep_fields st0).2.2.2.2.2.2.1
  have hsaS := (ensureSAStep_fields (ensureNamespaceStep st0).1 u.name).2.2.2.2.2.2.1
  rw [Reconcile_normal_path env st0 reqName u hfind hdel hfin hph,
    reconcileNormal_ok env st0 u rbs1 logRB crbs1 logCRB hrb hcrb]
  have hphA : ((updateUserStatusPure env.now u).status.phase == "Active") = true := by
    rw [updateUserStatusPure_phase_active env.now u texp hexpT (by omega)]
    rfl
  have hexp3 : (updateUserStatusPure env.now u).status.expiryTime =
      ExpiryStr.rfc3339 texp := by
    rw [updateUserStatusPure_expiry]
    exact hexpT
  have hgt : ¬ texp - env.now ≤ 0 := by omega
  split
  · rename_i heq3
    obtain ⟨hres, _, _, _⟩ := ensureCertKubeconfig_fresh2 env _ _ cfgSec keySec
      kcfg certData tc _ _ _ _ heq3
      (by
        refine Eq.trans (findSecret_congr st0 _ kubeUserNamespace
          (u.name ++ "-kubeconfig") _ ?_ ?_) hcfg
        · show (ensureSAStep (ensureNamespaceStep st0).1 u.name).1.secrets = st0.secrets
          rw [hsaS, hnsS]
        · rw [updateUserStatusPure_name])
      hkcfg hext hexp hfresh
      (by
        refine Eq.trans (findSecret_congr st0 _ kubeUserNamespace
          (u.name ++ "-key") _ ?_ ?_) hkey
        · show (ensureSAStep (ensureNamespaceStep st0).1 u.name).1.secrets = st0.secrets
          rw [hsaS, hnsS]
        · rw [updateUserStatusPure_name])
    simp at hres
  · rename_i heq3
    obtain ⟨hres, _, _, _⟩ := ensureCertKubeconfig_fresh2 env _ _ cfgSec keySec
      kcfg certData tc _ _ _ _ heq3
      (by
        refine Eq.trans (findSecret_congr st0 _ kubeUserNamespace
          (u.name ++ "-kubeconfig") _ ?_ ?_) hcfg
        · show (ensureSAStep (ensureNamespaceStep st0).1 u.name).1.secrets = st0.secrets
          rw [hsaS, hnsS]
        · rw [updateUserStatusPure_name])
      hkcfg hext hexp hfresh
      (by
        refine Eq.trans (findSecret_congr st0 _ kubeUserNamespace
          (u.name ++ "-key") _ ?_ ?_) hkey
        · show (ensureSAStep (ensureNamespaceStep st0).1 u.name).1.secrets = st0.secrets
          rw [hsaS, hnsS]
        · rw [updateUserStatusPure_name])
    simp at hres
  · rename_i u4 heq3
    obtain ⟨_, hu4, hst8, _⟩ := ensureCertKubeconfig_fresh2 env _ _ cfgSec keySec
      kcfg certData tc _ _ _ _ heq3
      (by
        refine Eq.trans (findSecret_congr st0 _ kubeUserNamespace
          (u.name ++ "-kubeconfig") _ ?_ ?_) hcfg
        · show (ensureSAStep (ensureNamespaceStep st0).1 u.name).1.secrets = st0.secrets
          rw [hsaS, hnsS]
        · rw [updateUserStatusPure_name])
      hkcfg hext hexp hfresh
      (by
        refine Eq.trans (findSecret_congr st0 _ kubeUserNamespace
          (u.name ++ "-key") _ ?_ ?_) hkey
        · show (ensureSAStep (ensureNamespaceStep st0).1 u.name).1.secrets = st0.secrets
          rw [hsaS, hnsS]
        · rw [updateUserStatusPure_name])
    subst hu4
    subst hst8
    by_cases hsoon : texp - env.now < 24 * 3600
    · rw [reconcileTail_active_soon env _ _ texp hphA hexp3 hgt hsoon]
    · rw [reconcileTail_active_far env _ _ texp hphA hexp3 hgt hsoon]

def c5User : User :=
  { name := "u", finalizers := [userFinalizer], deletionRequested := false,
    spec := { roles := [], clusterRoles := [] },
    status := { expiryTime := ExpiryStr.rfc3339 99999, certificateExpiry := "",
                phase := "Active", message := "", conditions := [] } }

def c5State : ClusterState :=
  { users := [c5User], namespaces := [kubeUserNamespace], roles := [], clusterRoles := [],
    roleBindings := [c1B1, c1B2], clusterRoleBindings := [], serviceAccounts := [],
    secrets := [c6KeySec, c6CfgSec], csrs := [], configMaps := [] }

/-- **C5 counterexample.**  Two labelled bindings share the `(namespace,
role)` key, so the Go existing-map keeps only the later one; the first pass
deletes that survivor, and the second pass — with no external change in
between — issues another RoleBinding delete for the remaining one: a Binding
mutation write on the second pass. -/
theorem C5_second_pass_counterexample :
    WriteOp.rbDelete "d" "x" ∈
      (Reconcile envNoFail (Reconcile envNoFail c5State "u").2.1 "u").2.2 ∧
    isMutationWrite (WriteOp.rbDelete "d" "x") = true := by
  decide

/-- **C5** (corrected).  The unqualified idempotence claim fails (see the
counterexample: duplicate-key labelled bindings make the second pass issue a
further delete).  On a well-formed store — unique binding identities, the
controller's own naming conventions, colon-free namespaces — whose first pass
succeeds in both binding phases and whose credential is fresh, the second
pass issues no mutation write at all: no Binding create/update/delete, no
secret create/update/delete, and no signing-request write; only status,
namespace and ServiceAccount bookkeeping. -/
theorem C5_second_pass_no_mutation (env : Env) (st0 : ClusterState) (reqName : String)
    (u : User) (rbs1 : List RoleBinding) (logRB : List WriteOp)
    (crbs1 : List ClusterRoleBinding) (logCRB : List WriteOp)
    (cfgSec keySec : Secret) (kcfg certData : Data) (tc texp : Int)
    (hfind : st0.users.find? (fun x => x.name == reqName) = some u)
    (hdel : u.deletionRequested = false)
    (hfin : containsString u.finalizers userFinalizer = true)
    (hph : u.status.phase ≠ "")
    (H1 : st0.roleBindings.Pairwise (fun a b => ¬(a.ns = b.ns ∧ a.name = b.name)))
    (H2 : ∀ b ∈ st0.roleBindings, b.userLabel = some u.name →
      b.name = u.name ++ "-" ++ b.roleRef.name ++ "-rb")
    (H3 : ∀ b ∈ st0.roleBindings, b.userLabel = some u.name → ':' ∉ b.ns.data)
    (H4 : ∀ r ∈ u.spec.roles, ':' ∉ r.ns.data)
    (G1 : st0.clusterRoleBindings.Pairwise (fun a b => a.name ≠ b.name))
    (G2 : ∀ b ∈ st0.clusterRoleBindings, b.userLabel = some u.name →
      b.name = u.name ++ "-" ++ b.roleRef.name ++ "-crb")
    (hrb : reconcileRoleBindings env u.name u.spec.roles
      (ensureSAStep (ensureNamespaceStep st0).1 u.name).1.roles
      (ensureSAStep (ensureNamespaceStep st0).1 u.name).1.roleBindings =
      (Except.ok (), rbs1, logRB))
    (hcrb : reconcileClusterRoleBindings env u.name u.spec.clusterRoles
      (ensureSAStep (ensureNamespaceStep st0).1 u.name).1.clusterRoles
      (ensureSAStep (ensureNamespaceStep st0).1 u.name).1.clusterRoleBindings =
      (Except.ok (), crbs1, logCRB))
    (hcfg : findSecret st0 kubeUserNamespace (u.name ++ "-kubeconfig") = some cfgSec)
    (hkcfg : lookupKV cfgSec.data "config" = some kcfg)
    (hext : extractClientCertFromKubeconfigData kcfg = Except.ok certData)
    (hexp : extractCertificateExpiryWithFormatDetection certData = Except.ok tc)
    (hfresh : ¬ tc - env.now < 30 * 24 * 3600)
    (hkey : findSecret st0 kubeUserNamespace (u.name ++ "-key") = some keySec)
    (hexpT : u.status.expiryTime = ExpiryStr.rfc3339 texp)
    (hfut : env.now < texp) :
    ∀ w ∈ (Reconcile env (Reconcile env st0 reqName).2.1 reqName).2.2,
      isMutationWrite w = false := by
  have hnsU := (ensureNamespaceStep_fields st0).1
  have hsaU := (ensureSAStep_fields (ensureNamespaceStep st0).1 u.name).1
  have hnsR := (ensureNamespaceStep_fields st0).2.1
  have hsaR := (ensureSAStep_fields (ensureNamespaceStep st0).1 u.name).2.2.1
  have hnsCR := (ensureNamespaceStep_fields st0).2.2.1
  have hsaCR := (ensureSAStep_fields (ensureNamespaceStep st0).1 u.name).2.2.2.1
  have hnsRB := (ensureNamespaceStep_fields st0).2.2.2.1
  have hsaRB := (ensureSAStep_fields (ensureNamespaceStep st0).1 u.name).2.2.2.2.1
  have hnsCRB := (ensureNamespaceStep_fields st0).2.2.2.2.1
  have hsaCRB := (ensureSAStep_fields (ensureNamespaceStep st0).1 u.name).2.2.2.2.2.1
  have hnsS := (ensureNamespaceStep_fields st0).2.2.2.2.2.2.1
  have hsaS := (ensureSAStep_fields (ensureNamespaceStep st0).1 u.name).2.2.2.2.2.2.1
  have hpass1 := Reconcile_fresh_pass env st0 reqName u rbs1 logRB crbs1 logCRB
    cfgSec keySec kcfg certData tc texp hfind hdel hfin hph hrb hcrb
    hcfg hkcfg hext hexp hfresh hkey hexpT hfut
  rw [hpass1]
  have hname := updateUserStatusPure_name env.now u
  have hfields := updateUserStatusPure_fields env.now u
  have hfindC : (putUser { (ensureSAStep (ensureNamespaceStep st0).1 u.name).1 with
        roleBindings := rbs1, clusterRoleBindings := crbs1 }
        (updateUserStatusPure env.now u)).users.find? (fun x => x.name == reqName) =
      some (updateUserStatusPure env.now u) := by
    refine putUser_find? _ _ reqName u ?_ hname
    show (ensureSAStep (ensureNamespaceStep st0).1 u.name).1.users.find?
      (fun x => x.name == reqName) = some u
    rw [hsaU, hnsU]
    exact hfind
  have hdel3 : (updateUserStatusPure env.now u).deletionRequested = false := by
    rw [hfields.2.1]
    exact hdel
  have hfin3 : containsString (updateUserStatusPure env.now u).finalizers userFinalizer =
      true := by
    rw [hfields.1]
    exact hfin
  have hphAct : (updateUserStatusPure env.now u).status.phase = "Active" :=
    updateUserStatusPure_phase_active env.now u texp hexpT (by omega)
  have hph3 : (updateUserStatusPure env.now u).status.phase ≠ "" := by
    rw [hphAct]
    decide
  rw [Reconcile_normal_path env _ reqName (updateUserStatusPure env.now u)
    hfindC hdel3 hfin3 hph3]
  -- second-pass RoleBindings: idempotence on the stored result
  have hrbeq : (ensureSAStep (ensureNamespaceStep st0).1 u.name).1.roleBindings =
      st0.roleBindings := by rw [hsaRB, hnsRB]
  have H1s : ((ensureSAStep (ensureNamespaceStep st0).1 u.name).1.roleBindings).Pairwise
      (fun a b => ¬(a.ns = b.ns ∧ a.name = b.name)) := by
    rw [hrbeq]
    exact H1
  have H2s : ∀ b ∈ (ensureSAStep (ensureNamespaceStep st0).1 u.name).1.roleBindings,
      b.userLabel = some u.name → b.name = u.name ++ "-" ++ b.roleRef.name ++ "-rb" := by
    rw [hrbeq]
    exact H2
  have H3s : ∀ b ∈ (ensureSAStep (ensureNamespaceStep st0).1 u.name).1.roleBindings,
      b.userLabel = some u.name → ':' ∉ b.ns.data := by
    rw [hrbeq]
    exact H3
  have hidemRB := reconcileRoleBindings_idem env env u.name u.spec.roles
    (ensureSAStep (ensureNamespaceStep st0).1 u.name).1.roles
    (ensureSAStep (ensureNamespaceStep st0).1 u.name).1.roleBindings rbs1 logRB
    H1s H2s H3s H4 hrb
  have hcrbeq : (ensureSAStep (ensureNamespaceStep st0).1 u.name).1.clusterRoleBindings =
      st0.clusterRoleBindings := by rw [hsaCRB, hnsCRB]
  have G1s : ((ensureSAStep (ensureNamespaceStep st0).1 u.name).1.clusterRoleBindings).Pairwise
      (fun a b => a.name ≠ b.name) := by
    rw [hcrbeq]
    exact G1
  have G2s : ∀ b ∈ (ensureSAStep (ensureNamespaceStep st0).1 u.name).1.clusterRoleBindings,
      b.userLabel = some u.name → b.name = u.name ++ "-" ++ b.roleRef.name ++ "-crb" := by
    rw [hcrbeq]
    exact G2
  have hidemCRB := reconcileClusterRoleBindings_idem env env u.name u.spec.clusterRoles
    (ensureSAStep (ensureNamespaceStep st0).1 u.name).1.clusterRoles
    (ensureSAStep (ensureNamespaceStep st0).1 u.name).1.clusterRoleBindings crbs1 logCRB
    G1s G2s hcrb
  have hroles2 : (ensureSAStep (ensureNamespaceStep
      (putUser { (ensureSAStep (ensureNamespaceStep st0).1 u.name).1 with
        roleBindings := rbs1, clusterRoleBindings := crbs1 }
        (updateUserStatusPure env.now u))).1 u.name).1.roles =
      (ensureSAStep (ensureNamespaceStep st0).1 u.name).1.roles := by
    rw [(ensureSAStep_fields _ u.name).2.2.1, (ensureNamespaceStep_fields _).2.1]
    rfl
  have hrbs2 : (ensureSAStep (ensureNamespaceStep
      (putUser { (ensureSAStep (ensureNamespaceStep st0).1 u.name).1 with
        roleBindings := rbs1, clusterRoleBindings := crbs1 }
        (updateUserStatusPure env.now u))).1 u.name).1.roleBindings = rbs1 := by
    rw [(ensureSAStep_fields _ u.name).2.2.2.2.1, (ensureNamespaceStep_fields _).2.2.2.1]
    rfl
  have hcroles2 : (ensureSAStep (ensureNamespaceStep
      (putUser { (ensureSAStep (ensureNamespaceStep st0).1 u.name).1 with
        roleBindings := rbs1, clusterRoleBindings := crbs1 }
        (updateUserStatusPure env.now u))).1 u.name).1.clusterRoles =
      (ensureSAStep (ensureNamespaceStep st0).1 u.name).1.clusterRoles := by
    rw [(ensureSAStep_fields _ u.name).2.2.2.1, (ensureNamespaceStep_fields _).2.2.1]
    rfl
  have hcrbs2 : (ensureSAStep (ensureNamespaceStep
      (putUser { (ensureSAStep (ensureNamespaceStep st0).1 u.name).1 with
        roleBindings := rbs1, clusterRoleBindings := crbs1 }
        (updateUserStatusPure env.now u))).1 u.name).1.clusterRoleBindings = crbs1 := by
    rw [(ensureSAStep_fields _ u.name).2.2.2.2.2.1, (ensureNamespaceStep_fields _).2.2.2.2.1]
    rfl
  have hrb2 : reconcileRoleBindings env (updateUserStatusPure env.now u).name
      (updateUserStatusPure env.now u).spec.roles
      (ensureSAStep (ensureNamespaceStep
        (putUser { (ensureSAStep (ensureNamespaceStep st0).1 u.name).1 with
          roleBindings := rbs1, clusterRoleBindings := crbs1 }
          (updateUserStatusPure env.now u))).1 (updateUserStatusPure env.now u).name).1.roles
      (ensureSAStep (ensureNamespaceStep
        (putUser { (ensureSAStep (ensureNamespaceStep st0).1 u.name).1 with
          roleBindings := rbs1, clusterRoleBindings := crbs1 }
          (updateUserStatusPure env.now u))).1
        (updateUserStatusPure env.now u).name).1.roleBindings =
      (Except.ok (), rbs1, []) := by
    rw [hname, hfields.2.2, hroles2, hrbs2]
    exact hidemRB
  have hcrb2 : reconcileClusterRoleBindings env (updateUserStatusPure env.now u).name
      (updateUserStatusPure env.now u).spec.clusterRoles
      (ensureSAStep (ensureNamespaceStep
        (putUser { (ensureSAStep (ensureNamespaceStep st0).1 u.name).1 with
          roleBindings := rbs1, clusterRoleBindings := crbs1 }
          (updateUserStatusPure env.now u))).1
        (updateUserStatusPure env.now u).name).1.clusterRoles
      (ensureSAStep (ensureNamespaceStep
        (putUser { (ensureSAStep (ensureNamespaceStep st0).1 u.name).1 with
          roleBindings := rbs1, clusterRoleBindings := crbs1 }
          (updateUserStatusPure env.now u))).1
        (updateUserStatusPure env.now u).name).1.clusterRoleBindings =
      (Except.ok (), crbs1, []) := by
    rw [hname, hfields.2.2, hcroles2, hcrbs2]
    exact hidemCRB
  rw [reconcileNormal_ok env _ (updateUserStatusPure env.now u) rbs1 [] crbs1 [] hrb2 hcrb2]
  have hsec2 : (ensureSAStep (ensureNamespaceStep
      (putUser { (ensureSAStep (ensureNamespaceStep st0).1 u.name).1 with
        roleBindings := rbs1, clusterRoleBindings := crbs1 }
        (updateUserStatusPure env.now u))).1
      (updateUserStatusPure env.now u).name).1.secrets = st0.secrets := by
    rw [(ensureSAStep_fields _ _).2.2.2.2.2.2.1, (ensureNamespaceStep_fields _).2.2.2.2.2.2.1]
    show (ensureSAStep (ensureNamespaceStep st0).1 u.name).1.secrets = st0.secrets
    rw [hsaS, hnsS]
  split
  · rename_i heq3
    obtain ⟨hres, _, _, _⟩ := ensureCertKubeconfig_fresh2 env _ _ cfgSec keySec
      kcfg certData tc _ _ _ _ heq3
      (by
        refine Eq.trans (findSecret_congr st0 _ kubeUserNamespace
          (u.name ++ "-kubeconfig") _ hsec2 ?_) hcfg
        rw [updateUserStatusPure_name, hname])
      hkcfg hext hexp hfresh
      (by
        refine Eq.trans (findSecret_congr st0 _ kubeUserNamespace
          (u.name ++ "-key") _ hsec2 ?_) hkey
        rw [updateUserStatusPure_name, hname])
    simp at hres
  · rename_i heq3
    obtain ⟨hres, _, _, _⟩ := ensureCertKubeconfig_fresh2 env _ _ cfgSec keySec
      kcfg certData tc _ _ _ _ heq3
      (by
        refine Eq.trans (findSecret_congr st0 _ kubeUserNamespace
          (u.name ++ "-kubeconfig") _ hsec2 ?_) hcfg
        rw [updateUserStatusPure_name, hname])
      hkcfg hext hexp hfresh
      (by
        refine Eq.trans (findSecret_congr st0 _ kubeUserNamespace
          (u.name ++ "-key") _ hsec2 ?_) hkey
        rw [updateUserStatusPure_name, hname])
    simp at hres
  · rename_i u4 heq3
    obtain ⟨_, _, _, hlogC⟩ := ensureCertKubeconfig_fresh2 env _ _ cfgSec keySec
      kcfg certData tc _ _ _ _ heq3
      (by
        refine Eq.trans (findSecret_congr st0 _ kubeUserNamespace
          (u.name ++ "-kubeconfig") _ hsec2 ?_) hcfg
        rw [updateUserStatusPure_name, hname])
      hkcfg hext hexp hfresh
      (by
        refine Eq.trans (findSecret_congr st0 _ kubeUserNamespace
          (u.name ++ "-key") _ hsec2 ?_) hkey
        rw [updateUserStatusPure_name, hname])
    subst hlogC
    intro w hw
    simp only [List.append_nil] at hw
    rcases List.mem_append.mp hw with hw1 | hwT
    · rcases List.mem_append.mp hw1 with hw2 | hwS
      · rcases List.mem_append.mp hw2 with hwN | hwA
        · rw [(nsSaStep_log _ (updateUserStatusPure env.now u).name).1 w hwN]
          rfl
        · rcases (nsSaStep_log _ (updateUserStatusPure env.now u).name).2 w hwA with he | he
          · rw [he]
            rfl
          · rw [he]
            rfl
      · rw [List.mem_singleton.mp hwS]
        rfl
    · rw [reconcileTail_log env _ _ w hwT]
      rfl

def c5WState : ClusterState :=
  { users := [c5User], namespaces := [kubeUserNamespace], roles := [], clusterRoles := [],
    roleBindings := [], clusterRoleBindings := [], serviceAccounts := [],
    secrets := [c6KeySec, c6CfgSec], csrs := [], configMaps := [] }

/-- Witness for C5: a converged store with a fresh credential — the second
pass issues no mutation write. -/
theorem C5_second_pass_no_mutation_witness :
    c5WState.users.find? (fun x => x.name == "u") = some c5User ∧
    (∀ w ∈ (Reconcile envNoFail (Reconcile envNoFail c5WState "u").2.1 "u").2.2,
      isMutationWrite w = false) :=
  ⟨by decide,
   C5_second_pass_no_mutation envNoFail c5WState "u" c5User [] [] [] []
     c6CfgSec c6KeySec c6Kcfg c6CertB64 99999999 99999
     (by decide) (by decide) (by decide) (by decide)
     (by decide) (by decide) (by decide) (by decide)
     (by decide) (by decide) (by decide) (by decide)
     (by decide) (by decide) (by decide) (by decide)
     (by decide) (by decide) (by decide) (by decide)⟩

end KubeUser
